import Mathlib

/-!
# Pre-contract creation wizard (`static/js/precontrat/wizard.js`)

A shallow embedding of the wizard script: its closure variables
(`currentStep`, `selectedModules`, `modulesData`, `formData`) together with the
part of the page the script reads and writes (step contents, navigation
buttons, text elements, the module area, the form), the timers started by
`showStep` and the requests started by `loadModules`.

Conventions of the embedding
* an element looked up by id is an entry of an association list; a missing
  entry is a missing element (`document.getElementById` returning `null`);
* a `setTimeout` continuation of `showStep` is an entry of `pendingSteps`
  holding what the closure captured; a request of `loadModules` is an entry of
  `pendingFetches`; they run when the corresponding event is processed;
* hours are whole numbers; animations, scrolling, console output and the
  teacher / class information panels are not part of the state.
-/

namespace Wizard

/-! ## Data -/

/-- A module id as found in the catalog payload: a JSON number (a whole
number) or a JSON string. -/
inductive JsId where
  | num (n : Int)
  | str (s : String)
  deriving DecidableEq, Repr

/-- The conversion `String(id)`. -/
def JsId.toJsString : JsId → String
  | .num n => toString n
  | .str s => s

/-- One entry of the payload field `modules`. -/
structure Module where
  id : JsId
  code : String
  nom : String
  ue_nom : Option String
  volume_cm : Option Nat
  volume_td : Option Nat
  deriving DecidableEq, Repr

/-- The value of `formData.professeur`. -/
structure Professeur where
  id : String
  nom : String
  email : String
  deriving DecidableEq, Repr

/-- The value of `formData.classe`. -/
structure Classe where
  id : String
  nom : String
  niveau : String
  filiere : String
  deriving DecidableEq, Repr

/-- The selected `<option>` of a select control, as read by the change handlers. -/
structure SelectOption where
  value : String
  text : String
  dataNom : Option String
  dataEmail : Option String
  dataNiveau : Option String
  dataFiliere : Option String
  deriving DecidableEq, Repr

/-- A `.step-content` element: its `data-step` attribute and whether it has class `active`. -/
structure StepContent where
  dataStep : Int
  active : Bool
  deriving DecidableEq, Repr

/-- A module card built by `createModuleCard`, with the state of its checkbox
and of its `selected` class. The checkbox value is `String(module.id)` (ids are
taken to contain no character that HTML would alter inside the attribute). -/
structure Card where
  module : Module
  checked : Bool
  selected : Bool
  deriving DecidableEq, Repr

/-- A child of the element `modules-list`. -/
inductive Node where
  | header (ueNom : String)
  | card (c : Card)
  deriving DecidableEq, Repr

/-- The content of the element `selected-modules-list`. -/
inductive SelectedListView where
  | emptyState
  | items (ms : List Module)
  deriving DecidableEq, Repr

/-- A row appended to `recap-modules-tbody`. -/
structure RecapRow where
  code : String
  nom : String
  cm : Nat
  td : Nat
  montant : String
  deriving DecidableEq, Repr

/-- A toast created by `showNotification(message, type)`. -/
structure Notice where
  message : String
  type : String
  deriving DecidableEq, Repr

/-- The submit button of the form. -/
structure SubmitButton where
  disabled : Bool
  label : String
  deriving DecidableEq, Repr

/-- The continuation given to `setTimeout` by `showStep`: the element
`currentContent` it captured (as a position in `stepContents`) and `step`. -/
structure PendingStep where
  content : Nat
  step : Int
  deriving DecidableEq, Repr

/-- The closure variables of the script and the page they act on. -/
structure WizardState where
  currentStep : Int
  selectedModules : List String
  modulesData : List Module
  professeur : Option Professeur
  classe : Option Classe
  stepContents : List StepContent
  buttons : List (String × Bool)
  texts : List (String × String)
  dNone : List (String × Bool)
  modulesList : Option (List Node)
  selectedList : Option SelectedListView
  recapRows : Option (List RecapRow)
  form : Bool
  hiddenInput : Option String
  submitBtn : Option SubmitButton
  overlay : Option Bool
  notices : List Notice
  pendingSteps : List PendingStep
  pendingFetches : List String
  deriving DecidableEq, Repr

/-! ## Element access -/

/-- The element with the given id, if the page has one. -/
def getById {α : Type} (id : String) : List (String × α) → Option α
  | [] => none
  | (k, v) :: rest => if k = id then some v else getById id rest

/-- Overwrite the element with the given id; nothing happens when it is missing. -/
def setById {α : Type} (id : String) (v : α) : List (String × α) → List (String × α)
  | [] => []
  | (k, w) :: rest => if k = id then (k, v) :: rest else (k, w) :: setById id v rest

/-- Source `safeSetText(id, text)`. -/
def safeSetText (id text : String) (s : WizardState) : WizardState :=
  { s with texts := setById id text s.texts }

/-- Source `enableButton(buttonId)`. -/
def enableButton (buttonId : String) (s : WizardState) : WizardState :=
  { s with buttons := setById buttonId false s.buttons }

/-- Source `disableButton(buttonId)`. -/
def disableButton (buttonId : String) (s : WizardState) : WizardState :=
  { s with buttons := setById buttonId true s.buttons }

/-- Source `showNotification(message, type)`: one more toast. The list `notices`
records every toast created; their removal after four seconds is left out. -/
def showNotification (message type : String) (s : WizardState) : WizardState :=
  { s with notices := s.notices ++ [⟨message, type⟩] }

/-! ## Totals and formatting -/

/-- Source `modulesData.find(m => String(m.id) === String(moduleId))`. -/
def findModule (modulesData : List Module) (moduleId : String) : Option Module :=
  modulesData.find? (fun m => decide (m.id.toJsString = moduleId))

/-- Source `calculateModuleMontant(module)`. -/
def calculateModuleMontant (m : Module) : Nat :=
  let TAUX_CM := 10000
  let TAUX_TD := 8000
  let montantCM := (m.volume_cm.getD 0) * TAUX_CM
  let montantTD := (m.volume_td.getD 0) * TAUX_TD
  montantCM + montantTD

/-- The accumulator of `updateTotalHours` after its loop. -/
def totalHours (selectedModules : List String) (modulesData : List Module) : Nat :=
  selectedModules.foldl
    (fun acc moduleId =>
      match findModule modulesData moduleId with
      | some m => acc + ((m.volume_cm.getD 0) + (m.volume_td.getD 0))
      | none => acc) 0

/-- The accumulator of `updateTotalAmount` after its loop. -/
def totalAmount (selectedModules : List String) (modulesData : List Module) : Nat :=
  selectedModules.foldl
    (fun acc moduleId =>
      match findModule modulesData moduleId with
      | some m => acc + calculateModuleMontant m
      | none => acc) 0

/-- Source `n.toFixed(1)` for a whole number. -/
def toFixed1 (n : Nat) : String :=
  toString n ++ ".0"

/-- Groups of three digits, on the reversed digit list, separated by the
narrow no-break space of the `fr-FR` locale. -/
def groupRev : List Char → List Char
  | a :: b :: c :: d :: rest => a :: b :: c :: Char.ofNat 8239 :: groupRev (d :: rest)
  | l => l

/-- Source `formatMoney(amount, withCurrency)` for a whole amount. -/
def formatMoney (amount : Nat) (withCurrency : Bool) : String :=
  let formatted := String.mk (groupRev (toString amount).data.reverse).reverse
  if withCurrency then formatted ++ " FCFA" else formatted

/-! ## Module selection -/

/-- Source `updateSelectedCount()`. -/
def updateSelectedCount (s : WizardState) : WizardState :=
  safeSetText "selected-count" (toString s.selectedModules.length) s

/-- Source `updateSelectedList()`. -/
def updateSelectedList (s : WizardState) : WizardState :=
  match s.selectedList with
  | none => s
  | some _ =>
    if s.selectedModules.length = 0 then
      { s with selectedList := some .emptyState }
    else
      let found := s.selectedModules.filterMap (findModule s.modulesData)
      { s with selectedList := some (.items found) }

/-- Source `updateTotalHours()`. -/
def updateTotalHours (s : WizardState) : WizardState :=
  safeSetText "summary-total-hours" (toFixed1 (totalHours s.selectedModules s.modulesData)) s

/-- Source `updateTotalAmount()`. -/
def updateTotalAmount (s : WizardState) : WizardState :=
  safeSetText "summary-total-amount"
    (formatMoney (totalAmount s.selectedModules s.modulesData) false) s

/-- Source `updateModuleSelection()`. -/
def updateModuleSelection (s : WizardState) : WizardState :=
  let s := updateSelectedCount s
  let s := updateSelectedList s
  let s := updateTotalHours s
  let s := updateTotalAmount s
  if s.selectedModules.length > 0 then
    enableButton "btn-step-3-next" s
  else
    disableButton "btn-step-3-next" s

/-- The array operations of `toggleModuleSelection` on `selectedModules`:
`includes` / `push` when selecting, `indexOf` / `splice(index, 1)` otherwise. -/
def toggleSelected (moduleId : String) (isSelected : Bool) (sel : List String) : List String :=
  if isSelected then
    if moduleId ∈ sel then sel else sel ++ [moduleId]
  else
    sel.erase moduleId

/-- The class change `toggleModuleSelection` makes on the card it is given. -/
def markCard (isSelected : Bool) : Node → Node
  | .card c => .card { c with selected := isSelected }
  | n => n

/-- Source `toggleModuleSelection(moduleId, isSelected, moduleCard)`; the card is the
child of `modules-list` at position `moduleCard`. -/
def toggleModuleSelection (moduleId : String) (isSelected : Bool) (moduleCard : Nat)
    (s : WizardState) : WizardState :=
  let s := { s with
    selectedModules := toggleSelected moduleId isSelected s.selectedModules
    modulesList := s.modulesList.map (fun l => l.modify (markCard isSelected) moduleCard) }
  updateModuleSelection s

/-! ## Step navigation -/

/-- The value of `CONFIG.totalSteps`. -/
def totalSteps : Int := 4

/-- Source `document.querySelector` for the step content of step `n`: the position
of the first `.step-content` whose `data-step` is `n`. -/
def queryStepContent (n : Int) (contents : List StepContent) : Option Nat :=
  contents.findIdx? (fun c => decide (c.dataStep = n))

/-- Source `showStep(step)` up to the call of `setTimeout`: the continuation is
stored with the element it captured. -/
def showStep (step : Int) (s : WizardState) : WizardState :=
  if step < 1 ∨ step > totalSteps then s
  else
    match queryStepContent s.currentStep s.stepContents with
    | none => s
    | some currentContent =>
      { s with pendingSteps := s.pendingSteps ++ [⟨currentContent, step⟩] }

/-- Source `showLoading()`. -/
def showLoading (s : WizardState) : WizardState :=
  let d := setById "modules-loading" false s.dNone
  let d := setById "modules-container" true d
  let d := setById "modules-empty" true d
  { s with dNone := d }

/-- Source `hideLoading()`. -/
def hideLoading (s : WizardState) : WizardState :=
  { s with dNone := setById "modules-loading" true s.dNone }

/-- Source `showModulesContainer()`. -/
def showModulesContainer (s : WizardState) : WizardState :=
  let d := setById "modules-container" false s.dNone
  let d := setById "modules-loading" true d
  let d := setById "modules-empty" true d
  { s with dNone := d }

/-- Source `showEmptyModules()`. -/
def showEmptyModules (s : WizardState) : WizardState :=
  let d := setById "modules-loading" true s.dNone
  let d := setById "modules-container" true d
  let d := setById "modules-empty" false d
  { s with dNone := d }

/-- Source `loadModules()` up to the call of `fetch`: the request is stored with
the class id its URL was built from. -/
def loadModules (s : WizardState) : WizardState :=
  match s.classe with
  | none => s
  | some classe =>
    if classe.id = "" then s
    else
      let s := showLoading s
      { s with pendingFetches := s.pendingFetches ++ [classe.id] }

/-- Source `generateRecapProfesseur()`. -/
def generateRecapProfesseur (s : WizardState) : WizardState :=
  match s.professeur with
  | none => s
  | some p =>
    let s := safeSetText "recap-prof-nom" p.nom s
    safeSetText "recap-prof-email" p.email s

/-- Source `generateRecapClasse()`. -/
def generateRecapClasse (s : WizardState) : WizardState :=
  match s.classe with
  | none => s
  | some c =>
    let s := safeSetText "recap-classe-nom" c.nom s
    let s := safeSetText "recap-classe-niveau" c.niveau s
    safeSetText "recap-classe-filiere" c.filiere s

/-- The modules found for the selected ids, in selection order: the modules
the loops over `selectedModules` act on. -/
def selectedFound (s : WizardState) : List Module :=
  s.selectedModules.filterMap (findModule s.modulesData)

/-- The row `generateRecapModules` builds for one module. -/
def recapRow (m : Module) : RecapRow :=
  { code := m.code, nom := m.nom, cm := m.volume_cm.getD 0, td := m.volume_td.getD 0,
    montant := formatMoney (calculateModuleMontant m) false }

/-- Source `generateRecapModules()`. -/
def generateRecapModules (s : WizardState) : WizardState :=
  match s.recapRows with
  | none => s
  | some _ =>
    let s := { s with recapRows := some [] }
    let s := safeSetText "recap-modules-count" (toString s.selectedModules.length) s
    let found := selectedFound s
    let totalCM := (found.map (fun m => m.volume_cm.getD 0)).foldl (· + ·) 0
    let totalTD := (found.map (fun m => m.volume_td.getD 0)).foldl (· + ·) 0
    let totalMontant := (found.map calculateModuleMontant).foldl (· + ·) 0
    let s := { s with recapRows := some (found.map recapRow) }
    let s := safeSetText "recap-total-cm" (toFixed1 totalCM) s
    let s := safeSetText "recap-total-td" (toFixed1 totalTD) s
    safeSetText "recap-total-montant" (formatMoney totalMontant false) s

/-- Source `generateRecap()`. -/
def generateRecap (s : WizardState) : WizardState :=
  generateRecapModules (generateRecapClasse (generateRecapProfesseur s))

/-- Source `handleStepChange(step)`. -/
def handleStepChange (step : Int) (s : WizardState) : WizardState :=
  if step = 3 ∧ s.classe.isSome then loadModules s
  else if step = 4 then generateRecap s
  else s

/-- The continuation `showStep` gave to `setTimeout`, run 300 ms later: the
captured content loses `active`, the content of `step` gains it, `currentStep`
becomes `step`, then `handleStepChange(step)` runs. The classes set by
`updateProgressBar` on the step indicator and the scrolling are left out. -/
def stepTimeout (p : PendingStep) (s : WizardState) : WizardState :=
  let contents := s.stepContents.modify (fun c => { c with active := false }) p.content
  let contents :=
    match queryStepContent p.step contents with
    | some newContent => contents.modify (fun c => { c with active := true }) newContent
    | none => contents
  handleStepChange p.step { s with stepContents := contents, currentStep := p.step }

/-- Source `validateStep(step)`: the returned boolean and the state after the call. -/
def validateStep (step : Int) (s : WizardState) : Bool × WizardState :=
  if step = 1 then
    if s.professeur.isNone then
      (false, showNotification "Veuillez sélectionner un professeur" "warning" s)
    else (true, s)
  else if step = 2 then
    if s.classe.isNone then
      (false, showNotification "Veuillez sélectionner une classe" "warning" s)
    else (true, s)
  else if step = 3 then
    if s.selectedModules.length = 0 then
      (false, showNotification "Veuillez sélectionner au moins un module" "warning" s)
    else (true, s)
  else (true, s)

/-- Source `validateAndShowStep(currentStepNum, nextStepNum)`. -/
def validateAndShowStep (currentStepNum nextStepNum : Int) (s : WizardState) : WizardState :=
  let r := validateStep currentStepNum s
  if r.1 then showStep nextStepNum r.2 else r.2

/-! ## Catalog rendering -/

/-- Property names every object literal inherits from `Object.prototype`: for
these `modulesByUE[ueNom]` is already truthy on the empty object. -/
def objectPrototypeKeys : List String :=
  ["constructor", "toString", "toLocaleString", "valueOf", "hasOwnProperty",
   "isPrototypeOf", "propertyIsEnumerable", "__proto__", "__defineGetter__",
   "__defineSetter__", "__lookupGetter__", "__lookupSetter__"]

/-- Source `module.ue_nom || 'Sans UE'`. -/
def ueNomOf (m : Module) : String :=
  match m.ue_nom with
  | some n => if n = "" then "Sans UE" else n
  | none => "Sans UE"

/-- Source `modulesByUE[ueNom].push(module)` on the own properties, kept in
creation order. -/
def pushGroup (ueNom : String) (m : Module) :
    List (String × List Module) → List (String × List Module)
  | [] => [(ueNom, [m])]
  | (k, ms) :: rest =>
    if k = ueNom then (k, ms ++ [m]) :: rest else (k, ms) :: pushGroup ueNom m rest

/-- The grouping loop of `renderModules`; an inherited property name makes
`push` fail with a `TypeError`. -/
def groupByUE : List Module → List (String × List Module) →
    Except String (List (String × List Module))
  | [], groups => .ok groups
  | m :: rest, groups =>
    if ueNomOf m ∈ objectPrototypeKeys then
      .error "modulesByUE[ueNom].push is not a function"
    else groupByUE rest (pushGroup (ueNomOf m) m groups)

/-- The number a property name stands for when it is an array index: a
decimal numeral without superfluous leading zero, below 2^32 - 1. -/
def arrayIndex (k : String) : Option Nat :=
  let cs := k.data
  if cs ≠ [] ∧ cs.all Char.isDigit = true ∧ (cs.head? ≠ some '0' ∨ cs.length = 1) then
    let n := cs.foldl (fun acc c => acc * 10 + (c.toNat - 48)) 0
    if n < 4294967295 then some n else none
  else none

/-- Source `Object.keys(modulesByUE)`: array-index names in increasing numeric
order, then the other names in creation order. -/
def objectKeysOrder (groups : List (String × List Module)) : List (String × List Module) :=
  let indexed := groups.filterMap (fun g => (arrayIndex g.1).map (fun n => (n, g)))
  let sorted := indexed.insertionSort (fun a b => a.1 ≤ b.1)
  sorted.map (fun x => x.2) ++ groups.filter (fun g => (arrayIndex g.1).isNone)

/-- Source `createModuleCard(module)`: a card with an unchecked checkbox. -/
def createModuleCard (m : Module) : Card :=
  { module := m, checked := false, selected := false }

/-- The children `renderModules` appends to `modules-list`. -/
def renderNodes (modules : List Module) : Except String (List Node) :=
  match groupByUE modules [] with
  | .error e => .error e
  | .ok groups =>
    .ok ((objectKeysOrder groups).flatMap
      (fun g => Node.header g.1 :: g.2.map (fun m => Node.card (createModuleCard m))))

/-- Source `renderModules(modules)`: the state after the call, or the message of
the exception it throws together with the state it leaves. -/
def renderModules (modules : List Module) (s : WizardState) :
    Except (String × WizardState) WizardState :=
  match s.modulesList with
  | none => .ok s
  | some _ =>
    match renderNodes modules with
    | .error e => .error (e, { s with modulesList := some [] })
    | .ok nodes => .ok { s with modulesList := some nodes }

/-! ## Catalog loading -/

/-- The JSON body of the module endpoint. -/
structure Payload where
  success : Bool
  classe : Option String
  modules : Option (List Module)
  count : Option Nat
  error : Option String
  deriving DecidableEq, Repr

/-- How a request of `loadModules` ends. -/
inductive FetchResult where
  | rejected (message : String)
  | httpError (status : Nat) (statusText : String)
  | json (data : Payload)
  deriving DecidableEq, Repr

/-- The `catch` handler of `loadModules`. -/
def onFetchError (message : String) (s : WizardState) : WizardState :=
  let s := hideLoading s
  let s := showEmptyModules s
  showNotification ("Erreur lors du chargement des modules: " ++ message) "danger" s

/-- The text of `data.count` inside the success message. -/
def countText : Option Nat → String
  | some n => toString n
  | none => "undefined"

/-- The second `then` handler of `loadModules`, followed by the `catch` handler
when rendering throws. -/
def onFetchData (data : Payload) (s : WizardState) : WizardState :=
  let s := hideLoading s
  if data.success then
    match data.modules with
    | some (m :: ms) =>
      let s := { s with modulesData := m :: ms }
      match renderModules (m :: ms) s with
      | .error (message, s) => onFetchError message s
      | .ok s =>
        let s := showModulesContainer s
        showNotification ("✅ " ++ countText data.count ++ " module(s) chargé(s) avec succès")
          "success" s
    | _ =>
      let s := showEmptyModules s
      showNotification "Aucun module trouvé pour cette classe" "warning" s
  else
    let s := showEmptyModules s
    showNotification ("Erreur: " ++ (match data.error with
      | some e => if e = "" then "Erreur inconnue" else e
      | none => "Erreur inconnue")) "danger" s

/-- The handlers chained on the `fetch` of `loadModules`, run when the request
ends. The class id the request was issued for is not consulted. -/
def processResponse (r : FetchResult) (s : WizardState) : WizardState :=
  match r with
  | .rejected message => onFetchError message s
  | .httpError status statusText =>
    onFetchError ("Erreur HTTP " ++ toString status ++ ": " ++ statusText) s
  | .json data => onFetchData data s

/-! ## Teacher and class selection -/

/-- The JavaScript `a || b` on an optional string: an absent or empty `a` gives `b`. -/
def orElseStr (a : Option String) (b : String) : String :=
  match a with
  | some x => if x = "" then b else x
  | none => b

/-- Source `handleProfesseurChange(event)`; `opt` is the selected option, if any.
The information panel and the summary line of the teacher are left out. -/
def handleProfesseurChange (opt : Option SelectOption) (s : WizardState) : WizardState :=
  match opt with
  | some o =>
    if o.value ≠ "" then
      let p : Professeur :=
        { id := o.value, nom := orElseStr o.dataNom o.text, email := orElseStr o.dataEmail "" }
      let s := { s with professeur := some p }
      enableButton "btn-step-1-next" s
    else
      disableButton "btn-step-1-next" { s with professeur := none }
  | none => disableButton "btn-step-1-next" { s with professeur := none }

/-- Source `displayClasseInfo(classeData)`: its three text updates. -/
def displayClasseInfo (c : Classe) (s : WizardState) : WizardState :=
  let s := safeSetText "classe-nom" c.nom s
  let s := safeSetText "classe-niveau" c.niveau s
  safeSetText "classe-filiere" c.filiere s

/-- Source `handleClasseChange(event)`; `opt` is the selected option, if any.
The visibility of the information panel and the summary line of the class are
left out. -/
def handleClasseChange (opt : Option SelectOption) (s : WizardState) : WizardState :=
  match opt with
  | some o =>
    if o.value ≠ "" then
      let c : Classe :=
        { id := o.value, nom := o.text, niveau := orElseStr o.dataNiveau "",
          filiere := orElseStr o.dataFiliere "" }
      let s := { s with classe := some c }
      let s := displayClasseInfo c s
      enableButton "btn-step-2-next" s
    else
      disableButton "btn-step-2-next" { s with classe := none }
  | none => disableButton "btn-step-2-next" { s with classe := none }

/-! ## Clicks, keys and submission -/

/-- Source `handleModuleCardClick(event)` for a click inside the child of
`modules-list` at position `i`. Whether the click hit the checkbox (the browser
has flipped it) or another part of the card (the handler flips it), the
checkbox ends flipped before `toggleModuleSelection` is called. -/
def handleModuleCardClick (i : Nat) (s : WizardState) : WizardState :=
  match s.modulesList with
  | none => s
  | some nodes =>
    match nodes.get? i with
    | some (.card c) =>
      let checked := !c.checked
      let s := { s with modulesList := some (nodes.set i (.card { c with checked := checked })) }
      toggleModuleSelection c.module.id.toJsString checked i s
    | _ => s

/-- The click listeners installed by `setupNavigationButtons`. -/
def buttonAction (id : String) (s : WizardState) : WizardState :=
  if id = "btn-step-1-next" then validateAndShowStep 1 2 s
  else if id = "btn-step-2-prev" then showStep 1 s
  else if id = "btn-step-2-next" then validateAndShowStep 2 3 s
  else if id = "btn-step-3-prev" then showStep 2 s
  else if id = "btn-step-3-next" then validateAndShowStep 3 4 s
  else if id = "btn-step-4-prev" then showStep 3 s
  else s

/-- A click on the button with the given id: it reaches the listener when the
button is on the page and not disabled. -/
def clickButton (id : String) (s : WizardState) : WizardState :=
  match getById id s.buttons with
  | some false => buttonAction id s
  | _ => s

/-- The keys `handleKeyboardShortcuts` distinguishes. -/
inductive Key where
  | escape
  | enter
  | other
  deriving DecidableEq, Repr

/-- Source `handleKeyboardShortcuts(event)`; `inTextarea` tells whether the target
is a `TEXTAREA`. -/
def handleKeyboardShortcuts (key : Key) (inTextarea : Bool) (s : WizardState) : WizardState :=
  match key with
  | .escape => if s.currentStep > 1 then showStep (s.currentStep - 1) s else s
  | .enter =>
    if inTextarea then s
    else clickButton ("btn-step-" ++ toString s.currentStep ++ "-next") s
  | .other => s

/-- Source `validateForm()`: the returned boolean and the state after the call. -/
def validateForm (s : WizardState) : Bool × WizardState :=
  if s.professeur.isNone then
    (false, showStep 1 (showNotification "Professeur non sélectionné" "danger" s))
  else if s.classe.isNone then
    (false, showStep 2 (showNotification "Classe non sélectionnée" "danger" s))
  else if s.selectedModules.length = 0 then
    (false, showStep 3 (showNotification "Aucun module sélectionné" "danger" s))
  else (true, s)

/-- One character inside the string literals written by `JSON.stringify`. -/
def jsonEscapeChar (c : Char) : String :=
  if c = Char.ofNat 34 then String.mk [Char.ofNat 92, Char.ofNat 34]
  else if c = Char.ofNat 92 then String.mk [Char.ofNat 92, Char.ofNat 92]
  else if c = Char.ofNat 8 then String.mk [Char.ofNat 92, 'b']
  else if c = Char.ofNat 12 then String.mk [Char.ofNat 92, 'f']
  else if c = Char.ofNat 10 then String.mk [Char.ofNat 92, 'n']
  else if c = Char.ofNat 13 then String.mk [Char.ofNat 92, 'r']
  else if c = Char.ofNat 9 then String.mk [Char.ofNat 92, 't']
  else if c.toNat < 32 then
    String.mk ([Char.ofNat 92, 'u', '0', '0'] ++
      [Nat.digitChar (c.toNat / 16), Nat.digitChar (c.toNat % 16)])
  else String.singleton c

/-- Source `JSON.stringify(selectedModules)` for an array of strings. -/
def jsonStringify (ids : List String) : String :=
  let quote := String.singleton (Char.ofNat 34)
  let item (x : String) : String :=
    quote ++ String.join (x.data.map jsonEscapeChar) ++ quote
  "[" ++ String.intercalate "," (ids.map item) ++ "]"

/-- Source `showSubmitLoading()`. -/
def showSubmitLoading (s : WizardState) : WizardState :=
  { s with overlay := s.overlay.map (fun _ => true) }

/-- Source `handleFormSubmit(event)`: whether it called `preventDefault`, and the
state after the call. -/
def handleFormSubmit (s : WizardState) : Bool × WizardState :=
  let r := validateForm s
  if r.1 = false then (true, r.2)
  else
    let s := { r.2 with hiddenInput := r.2.hiddenInput.map (fun _ => jsonStringify r.2.selectedModules) }
    (false, showSubmitLoading s)

/-- The submit listener installed by `setupFormValidation`: whether it called
`preventDefault`, and the state after the call. -/
def submitListener (s : WizardState) : Bool × WizardState :=
  match s.submitBtn with
  | none => (false, s)
  | some b =>
    if b.disabled then (true, s)
    else
      let busy : SubmitButton :=
        { disabled := true,
          label := "<i class=\"bi bi-hourglass-split\"></i> Création en cours..." }
      (false, { s with submitBtn := some busy })

/-- A `submit` event of the form: both listeners run, in the order in which
`safeInit` installed them; the first component tells whether the submission
was prevented. -/
def submitEvent (s : WizardState) : Bool × WizardState :=
  if s.form then
    let r1 := handleFormSubmit s
    let r2 := submitListener r1.2
    (r1.1 || r2.1, r2.2)
  else (false, s)

/-! ## Events and runs -/

/-- What can happen to the wizard: user input, a timer of `showStep` running,
a request of `loadModules` ending, and a direct call of `showStep`. -/
inductive Event where
  | professeurChange (opt : Option SelectOption)
  | classeChange (opt : Option SelectOption)
  | click (buttonId : String)
  | cardClick (i : Nat)
  | keydown (key : Key) (inTextarea : Bool)
  | submit
  | callShowStep (step : Int)
  | timeout (i : Nat)
  | response (i : Nat) (r : FetchResult)
  deriving DecidableEq, Repr

/-- The state after one event. `timeout i` runs the pending continuation at
position `i` (a browser runs them in creation order, position 0 first), and
`response i r` ends the pending request at position `i` with result `r`. -/
def step (e : Event) (s : WizardState) : WizardState :=
  match e with
  | .professeurChange opt => handleProfesseurChange opt s
  | .classeChange opt => handleClasseChange opt s
  | .click id => clickButton id s
  | .cardClick i => handleModuleCardClick i s
  | .keydown key inTextarea => handleKeyboardShortcuts key inTextarea s
  | .submit => (submitEvent s).2
  | .callShowStep k => showStep k s
  | .timeout i =>
    match s.pendingSteps.get? i with
    | some p => stepTimeout p { s with pendingSteps := s.pendingSteps.eraseIdx i }
    | none => s
  | .response i r =>
    match s.pendingFetches.get? i with
    | some _ => processResponse r { s with pendingFetches := s.pendingFetches.eraseIdx i }
    | none => s

/-- The state after a sequence of events. -/
def run (events : List Event) (s : WizardState) : WizardState :=
  events.foldl (fun s e => step e s) s

/-- The state when the script has been loaded on a page: the closure variables
have their initial values, no timer and no request is pending. -/
def init (page : WizardState) : WizardState :=
  { page with
    currentStep := 1, selectedModules := [], modulesData := [],
    professeur := none, classe := none,
    notices := [], pendingSteps := [], pendingFetches := [] }

/-! ## Example page and runs -/

/-- A wizard page with every element the script looks up: step 1 active, the
three advance buttons disabled until a choice is made. -/
def examplePage : WizardState :=
  { currentStep := 1, selectedModules := [], modulesData := [], professeur := none,
    classe := none,
    stepContents := [⟨1, true⟩, ⟨2, false⟩, ⟨3, false⟩, ⟨4, false⟩],
    buttons := [("btn-step-1-next", true), ("btn-step-2-prev", false),
      ("btn-step-2-next", true), ("btn-step-3-prev", false), ("btn-step-3-next", true),
      ("btn-step-4-prev", false)],
    texts := [("selected-count", "0"), ("summary-total-hours", "0.0"),
      ("summary-total-amount", "0")],
    dNone := [("modules-loading", true), ("modules-container", true), ("modules-empty", true)],
    modulesList := some [], selectedList := some .emptyState, recapRows := some [],
    form := true, hiddenInput := some "", submitBtn := some ⟨false, "Créer"⟩,
    overlay := some false, notices := [], pendingSteps := [], pendingFetches := [] }

/-- The option of teacher T1. -/
def optionT1 : SelectOption := ⟨"T1", "Prof T1", none, none, none, none⟩

/-- The option of class C1. -/
def optionC1 : SelectOption := ⟨"C1", "Classe C1", none, none, none, none⟩

/-- The option of class C2. -/
def optionC2 : SelectOption := ⟨"C2", "Classe C2", none, none, none, none⟩

/-- The module of the catalog of class C1. -/
def moduleM1 : Module := ⟨.str "M1", "ALG1", "Algo I", some "UE1", some 20, some 10⟩

/-- The module of the catalog of class C2. -/
def moduleM2 : Module := ⟨.str "M2", "BD1", "Bases de données", some "UE2", some 12, some 6⟩

/-- A successful payload carrying the given modules. -/
def okPayload (classe : String) (modules : List Module) : Payload :=
  ⟨true, some classe, some modules, some modules.length, none⟩

/-- Teacher T1 and class C1 chosen, step 3 reached, the catalog of C1 loaded,
module M1 selected by a click on its card. -/
def runSelectM1 : List Event :=
  [.professeurChange (some optionT1), .click "btn-step-1-next", .timeout 0,
   .classeChange (some optionC1), .click "btn-step-2-next", .timeout 0,
   .response 0 (.json (okPayload "C1" [moduleM1])), .cardClick 1]

/-- After `runSelectM1`: back to step 2, class C2 chosen instead of C1. -/
def runChangeClass : List Event :=
  runSelectM1 ++ [.click "btn-step-3-prev", .timeout 0, .classeChange (some optionC2)]

/-- After `runChangeClass`: step 3 again, the catalog of C2 loaded. -/
def runSecondCatalog : List Event :=
  runChangeClass ++ [.click "btn-step-2-next", .timeout 0,
    .response 0 (.json (okPayload "C2" [moduleM2]))]

/-- Teacher T1 and class C1 chosen, step 3 reached with the request for C1
still pending, then back to step 2 and class C2 chosen. -/
def runStaleRequest : List Event :=
  [.professeurChange (some optionT1), .click "btn-step-1-next", .timeout 0,
   .classeChange (some optionC1), .click "btn-step-2-next", .timeout 0,
   .click "btn-step-3-prev", .timeout 0, .classeChange (some optionC2)]

/-- On step 2 with a class chosen, the previous and the next button are both
clicked before the first 300 ms timer runs; then the two timers run. -/
def runOverlap : List Event :=
  [.professeurChange (some optionT1), .click "btn-step-1-next", .timeout 0,
   .classeChange (some optionC1), .click "btn-step-2-prev", .click "btn-step-2-next",
   .timeout 0, .timeout 0]

/-! ## Predicates used in the statements -/

/-- The validation predicate of a step: a teacher for step 1, a class for
step 2, at least one selected module for step 3, nothing for other steps. -/
def StepValid (k : Int) (s : WizardState) : Prop :=
  (k = 1 → s.professeur ≠ none) ∧ (k = 2 → s.classe ≠ none) ∧
  (k = 3 → s.selectedModules ≠ [])

/-- The steps held by the script are within 1 .. 4: the current one and the
target of every pending continuation. -/
def StepsInRange (s : WizardState) : Prop :=
  (1 ≤ s.currentStep ∧ s.currentStep ≤ 4) ∧ ∀ p ∈ s.pendingSteps, 1 ≤ p.step ∧ p.step ≤ 4

/-- The step contents that carry the class `active`, by their `data-step`. -/
def activeSteps (s : WizardState) : List Int :=
  (s.stepContents.filter (fun c => c.active)).map (fun c => c.dataStep)

/-- The catalog a request result delivers: the non-empty module list of a
successful payload. -/
def deliveredCatalog : FetchResult → Option (List Module)
  | .json data =>
    if data.success then
      match data.modules with
      | some (m :: ms) => some (m :: ms)
      | _ => none
    else none
  | _ => none

/-- The catalog an event stores in `modulesData`, if it stores one: the
catalog delivered by the result that ends a pending request. -/
def storedBy (e : Event) (s : WizardState) : List (List Module) :=
  match e with
  | .response i r =>
    match s.pendingFetches.get? i, deliveredCatalog r with
    | some _, some catalog => [catalog]
    | _, _ => []
  | _ => []

/-- The catalogs stored in `modulesData` along a run, oldest first. -/
def catalogsStored : List Event → WizardState → List (List Module)
  | [], _ => []
  | e :: es, s => storedBy e s ++ catalogsStored es (step e s)

/-- The id is the id, as a string, of a module of one of the catalogs. -/
def IdAmong (catalogs : List (List Module)) (id : String) : Prop :=
  ∃ mods ∈ catalogs, ∃ m ∈ mods, m.id.toJsString = id

/-- The module a child of `modules-list` is the card of, if it is a card. -/
def nodeModule : Node → Option Module
  | .card c => some c.module
  | .header _ => none

/-- The modules whose cards are in `modules-list`, in document order. -/
def shownModules (s : WizardState) : List Module :=
  match s.modulesList with
  | some nodes => nodes.filterMap nodeModule
  | none => []

/-- The page shows no module card. -/
def NoCards (s : WizardState) : Prop :=
  shownModules s = []

/-- Every selected id and every module card comes from one of the catalogs. -/
def SelectionFrom (catalogs : List (List Module)) (s : WizardState) : Prop :=
  (∀ id ∈ s.selectedModules, IdAmong catalogs id) ∧
  ∀ m ∈ shownModules s, ∃ mods ∈ catalogs, m ∈ mods

/-- While `validateAndShowStep(n, n + 1)` is called from step `n`: the current
step is `n` or `n + 1` and every pending continuation is for `n + 1`. -/
def AdvanceInv (n : Int) (s : WizardState) : Prop :=
  (s.currentStep = n ∨ s.currentStep = n + 1) ∧ ∀ p ∈ s.pendingSteps, p.step = n + 1

/-- Calls of `validateAndShowStep(n, n + 1)` (`none`) interleaved with pending
continuations of `showStep` running (`some i`, the one at position `i`). -/
def advanceRun (n : Int) (acts : List (Option Nat)) (s : WizardState) : WizardState :=
  acts.foldl (fun s a =>
    match a with
    | none => validateAndShowStep n (n + 1) s
    | some i => step (.timeout i) s) s

/-- Calls of `toggleModuleSelection`, each with its id, its flag and its card. -/
def toggleRun (calls : List (String × Bool × Nat)) (s : WizardState) : WizardState :=
  calls.foldl (fun s c => toggleModuleSelection c.1 c.2.1 c.2.2 s) s

/-- The three operations that can request a later step: a click on the next
button of the current step, the Enter key, a submit event. -/
def IsAdvanceOp (s : WizardState) (e : Event) : Prop :=
  e = .click ("btn-step-" ++ toString s.currentStep ++ "-next") ∨
  (∃ inTextarea, e = .keydown .enter inTextarea) ∨ e = .submit

/-- The effect shared by the handlers that emit notices and call `showStep`:
at most one continuation is added; it is for a step `k` between 1 and 4 that
satisfies `P`, and it captures the content of the current step. -/
def RequestsWith (P : Int → Prop) (s s' : WizardState) : Prop :=
  ∃ n hi ov sb,
    (s' = { s with notices := n, hiddenInput := hi, overlay := ov, submitBtn := sb } ∨
    ∃ c k, P k ∧ (1 ≤ k ∧ k ≤ 4) ∧ queryStepContent s.currentStep s.stepContents = some c ∧
      s' = { s with notices := n, hiddenInput := hi, overlay := ov, submitBtn := sb,
                    pendingSteps := s.pendingSteps ++ [⟨c, k⟩] })

/-- The same effect without a condition on the requested step. -/
def Requests (s s' : WizardState) : Prop :=
  RequestsWith (fun _ => True) s s'

/-! ## Definitions for the totals, the rendering and the module area -/

/-- The hours of one module as `updateTotalHours` counts them: lecture hours
plus tutorial hours, a missing volume counting as 0. -/
def moduleHours (m : Module) : Nat :=
  m.volume_cm.getD 0 + m.volume_td.getD 0

/-- Follows the words of the spec: the selected modules are the entries of the
catalog whose id, as a string, is in the selection. -/
def specSelected (selectedModules : List String) (catalog : List Module) : List Module :=
  catalog.filter (fun m => decide (m.id.toJsString ∈ selectedModules))

/-- Follows the words of the spec: total hours are the sum of lecture plus
tutorial hours across the selected modules. -/
def specTotalHours (selectedModules : List String) (catalog : List Module) : Nat :=
  ((specSelected selectedModules catalog).map
    (fun m => m.volume_cm.getD 0 + m.volume_td.getD 0)).sum

/-- Follows the words of the spec: total cost is the sum over the selected
modules of lecture hours at 10000 plus tutorial hours at 8000. -/
def specTotalAmount (selectedModules : List String) (catalog : List Module) : Nat :=
  ((specSelected selectedModules catalog).map
    (fun m => m.volume_cm.getD 0 * 10000 + m.volume_td.getD 0 * 8000)).sum

/-- The selection is drawn from the catalog: no id twice, every id the id of
an entry. -/
def DrawnFrom (selectedModules : List String) (catalog : List Module) : Prop :=
  selectedModules.Nodup ∧ ∀ id ∈ selectedModules, ∃ m ∈ catalog, m.id.toJsString = id

/-- The ids of the catalog are distinct as strings. -/
def DistinctIds (catalog : List Module) : Prop :=
  (catalog.map (fun m => m.id.toJsString)).Nodup

/-- The names of a list in the order of their first occurrence. -/
def firstOccurrences : List String → List String
  | [] => []
  | a :: l => a :: (firstOccurrences l).filter (fun b => decide (b ≠ a))

/-- Follows the words of the claim on `renderModules`: one group per unit name,
in the order in which the names first occur; each group is its header followed
by the cards of the modules of that unit in input order. -/
def specRender (modules : List Module) : List Node :=
  (firstOccurrences (modules.map ueNomOf)).flatMap
    (fun u => Node.header u ::
      (modules.filter (fun m => decide (ueNomOf m = u))).map
        (fun m => Node.card (createModuleCard m)))

/-- No unit name of the list is an array index or a name inherited from
`Object.prototype`. -/
def PlainUnitNames (modules : List Module) : Prop :=
  ∀ m ∈ modules, ueNomOf m ∉ objectPrototypeKeys ∧ arrayIndex (ueNomOf m) = none

/-- The ids of the loading indicator, the module container and the empty-state
panel. -/
def moduleAreaIds : List String :=
  ["modules-loading", "modules-container", "modules-empty"]

/-- How many of the three elements of the module area are visible (on the page
and without the class `d-none`). -/
def visibleCount (s : WizardState) : Nat :=
  (moduleAreaIds.filter (fun id => decide (getById id s.dNone = some false))).length

/-- The three elements of the module area are on the page. -/
def ModuleAreaPresent (s : WizardState) : Prop :=
  ∀ id ∈ moduleAreaIds, (getById id s.dNone).isSome = true

/-- The text contains the part. -/
def Contains (text part : String) : Prop :=
  ∃ before after, text = before ++ part ++ after

/-- The texts shown by the three summary elements of step 3: selected count,
total hours, total amount. -/
def summaryTexts (s : WizardState) : List (Option String) :=
  [getById "selected-count" s.texts, getById "summary-total-hours" s.texts,
   getById "summary-total-amount" s.texts]

/-- After `runSelectM1`: back to step 2 and forward to step 3 again, where the
catalog of C1 is loaded and rendered a second time. -/
def runReenterStep3 : List Event :=
  runSelectM1 ++ [.click "btn-step-3-prev", .timeout 0, .click "btn-step-2-next",
    .timeout 0, .response 0 (.json (okPayload "C1" [moduleM1]))]

/-- After `runChangeClass`: step 3 again, the request for C2 pending. -/
def runSecondRequest : List Event :=
  runChangeClass ++ [.click "btn-step-2-next", .timeout 0]

/-- Two modules whose unit names are the numerals 2 and 1, in that order. -/
def numeralUnits : List Module :=
  [⟨.str "A", "A", "A", some "2", some 1, some 1⟩,
   ⟨.str "B", "B", "B", some "1", some 1, some 1⟩]

/-- A module whose unit name is a name inherited from `Object.prototype`. -/
def inheritedUnit : List Module :=
  [⟨.str "A", "A", "A", some "constructor", some 1, some 1⟩]

/-- The module area shows the empty-state panel only, as far as the three
elements are on the page `before`. -/
def EmptyShown (before after : List (String × Bool)) : Prop :=
  getById "modules-loading" after = (getById "modules-loading" before).map (fun _ => true) ∧
  getById "modules-container" after =
    (getById "modules-container" before).map (fun _ => true) ∧
  getById "modules-empty" after = (getById "modules-empty" before).map (fun _ => false)

/-- The module area shows the module container only, as far as the three
elements are on the page `before`. -/
def ContainerShown (before after : List (String × Bool)) : Prop :=
  getById "modules-loading" after = (getById "modules-loading" before).map (fun _ => true) ∧
  getById "modules-container" after =
    (getById "modules-container" before).map (fun _ => false) ∧
  getById "modules-empty" after = (getById "modules-empty" before).map (fun _ => true)

/-- The module area shows the loading indicator only, as far as the three
elements are on the page `before`. -/
def LoadingShown (before after : List (String × Bool)) : Prop :=
  getById "modules-loading" after = (getById "modules-loading" before).map (fun _ => false) ∧
  getById "modules-container" after =
    (getById "modules-container" before).map (fun _ => true) ∧
  getById "modules-empty" after = (getById "modules-empty" before).map (fun _ => true)

/-- How a catalog load fails with a reason: a response that is not ok, the
reason being its status, or a payload with `success` false and an error text. -/
def FailsWith (r : FetchResult) (reason : String) : Prop :=
  (∃ status statusText, r = .httpError status statusText ∧ reason = toString status) ∨
  (∃ data, r = .json data ∧ data.success = false ∧ data.error = some reason)

/-- The groups `renderModules` should hold after its grouping loop over the
list: one per unit name in order of first occurrence, each with the modules of
that unit in input order. -/
def groupsOf (modules : List Module) : List (String × List Module) :=
  (firstOccurrences (modules.map ueNomOf)).map
    (fun u => (u, modules.filter (fun m => decide (ueNomOf m = u))))

/-- The unit names of the headers among the children of `modules-list`, in
document order. -/
def headerNames (nodes : List Node) : List String :=
  nodes.filterMap (fun n =>
    match n with
    | .header u => some u
    | .card _ => none)

/-! ## Decoding of the hidden field -/

/-- The value of a hexadecimal digit. -/
def hexValue (c : Char) : Option Nat :=
  if 48 ≤ c.toNat ∧ c.toNat ≤ 57 then some (c.toNat - 48)
  else if 97 ≤ c.toNat ∧ c.toNat ≤ 102 then some (c.toNat - 87)
  else if 65 ≤ c.toNat ∧ c.toNat ≤ 70 then some (c.toNat - 55)
  else none

/-- The number written by four hexadecimal digits. -/
def hexValue4 (a b c d : Char) : Option Nat :=
  match hexValue a, hexValue b, hexValue c, hexValue d with
  | some x, some y, some z, some w => some (((x * 16 + y) * 16 + z) * 16 + w)
  | _, _, _, _ => none

/-- The character a two-character JSON escape stands for, given its second
character. -/
def unescapeChar (e : Char) : Option Char :=
  if e = Char.ofNat 34 then some (Char.ofNat 34)
  else if e = Char.ofNat 92 then some (Char.ofNat 92)
  else if e = '/' then some '/'
  else if e = 'b' then some (Char.ofNat 8)
  else if e = 'f' then some (Char.ofNat 12)
  else if e = 'n' then some (Char.ofNat 10)
  else if e = 'r' then some (Char.ofNat 13)
  else if e = 't' then some (Char.ofNat 9)
  else none

/-- Where the decoder of a JSON array of strings stands: before the opening
bracket, just after it, inside a string, after a string, after a comma, after
the closing bracket. -/
inductive JsonMode where
  | start
  | first
  | inString
  | afterString
  | afterComma
  | closed
  deriving DecidableEq, Repr

/-- Standard JSON decoding, restricted to arrays of strings written without
white space (the texts `JSON.stringify` produces for such arrays): `items` are
the strings read so far, `cur` the characters of the current string, last
first. -/
def parseJsonStrings : JsonMode → List String → List Char → List Char → Option (List String)
  | mode, items, _, [] => if mode = .closed then some items else none
  | mode, items, cur, c :: rest =>
    match mode with
    | .start => if c = '[' then parseJsonStrings .first items cur rest else none
    | .first =>
      if c = ']' then parseJsonStrings .closed items cur rest
      else if c = Char.ofNat 34 then parseJsonStrings .inString items [] rest
      else none
    | .afterComma =>
      if c = Char.ofNat 34 then parseJsonStrings .inString items [] rest else none
    | .afterString =>
      if c = ',' then parseJsonStrings .afterComma items cur rest
      else if c = ']' then parseJsonStrings .closed items cur rest
      else none
    | .closed => none
    | .inString =>
      if c = Char.ofNat 34 then
        parseJsonStrings .afterString (items ++ [String.mk cur.reverse]) [] rest
      else if c = Char.ofNat 92 then
        match rest with
        | [] => none
        | e :: rest1 =>
          if e = 'u' then
            match rest1 with
            | h1 :: h2 :: h3 :: h4 :: rest2 =>
              match hexValue4 h1 h2 h3 h4 with
              | some n => parseJsonStrings .inString items (Char.ofNat n :: cur) rest2
              | none => none
            | _ => none
          else
            match unescapeChar e with
            | some x => parseJsonStrings .inString items (x :: cur) rest1
            | none => none
      else if c.toNat < 32 then none
      else parseJsonStrings .inString items (c :: cur) rest

/-- The list of strings a JSON text decodes to, if it is an array of strings. -/
def jsonParseStrings (text : String) : Option (List String) :=
  parseJsonStrings .start [] [] text.data

/-- A state ready for submission: teacher T1, class C1, module M1 selected. -/
def runReadyToSubmit : List Event :=
  runSelectM1 ++ [.click "btn-step-3-next", .timeout 0]

/-- The characters `JSON.stringify` writes for the content of one string. -/
def escapedData (x : List Char) : List Char :=
  (x.map (fun c => (jsonEscapeChar c).data)).flatten

/-- The characters `JSON.stringify` writes for one string, quotes included. -/
def itemData (x : String) : List Char :=
  Char.ofNat 34 :: escapedData x.data ++ [Char.ofNat 34]

/-! ## Definitions for the missing elements, the cards and the recap -/

/-- Source `safeSetHTML(id, html)`. No function of the script calls it; the
contents it writes are those of the elements it is given, by id. -/
def safeSetHTML (id html : String) (elements : List (String × String)) :
    List (String × String) :=
  setById id html elements

/-- Every module card is checked and marked selected exactly when its id is in
`selectedModules`. -/
def cardsInSync (s : WizardState) : Bool :=
  match s.modulesList with
  | none => true
  | some nodes =>
    nodes.all (fun n =>
      match n with
      | .card c =>
        (c.checked == decide (c.module.id.toJsString ∈ s.selectedModules)) &&
        (c.selected == decide (c.module.id.toJsString ∈ s.selectedModules))
      | .header _ => true)

/-- The accumulator `totalCM` of `generateRecapModules` after its loop. -/
def recapTotalCM (s : WizardState) : Nat :=
  ((selectedFound s).map (fun m => m.volume_cm.getD 0)).foldl (· + ·) 0

/-- The accumulator `totalTD` of `generateRecapModules` after its loop. -/
def recapTotalTD (s : WizardState) : Nat :=
  ((selectedFound s).map (fun m => m.volume_td.getD 0)).foldl (· + ·) 0

/-- The accumulator `totalMontant` of `generateRecapModules` after its loop. -/
def recapTotalMontant (s : WizardState) : Nat :=
  ((selectedFound s).map calculateModuleMontant).foldl (· + ·) 0

/-- Teacher T1 and class C1 chosen, step 3 reached and the catalog of C1
loaded, no module selected. -/
def runNoModule : List Event :=
  [.professeurChange (some optionT1), .click "btn-step-1-next", .timeout 0,
   .classeChange (some optionC1), .click "btn-step-2-next", .timeout 0,
   .response 0 (.json (okPayload "C1" [moduleM1]))]

/-- After `runNoModule`: a submit event, which validation blocks; then its
continuation runs, the catalog is loaded again, module M1 is selected and step 4
is reached. -/
def runAfterBlockedSubmit : List Event :=
  runNoModule ++ [.submit, .timeout 0, .response 0 (.json (okPayload "C1" [moduleM1])),
    .cardClick 1, .click "btn-step-3-next", .timeout 0]

/-- A page on which none of the elements the helpers look up exists. -/
def barePage : WizardState :=
  { examplePage with
    buttons := [], texts := [], dNone := [], modulesList := none, selectedList := none,
    recapRows := none }

/-- The example page with the text elements of the recap of step 4. -/
def recapPage : WizardState :=
  { examplePage with
    texts := examplePage.texts ++ [("recap-modules-count", "0"), ("recap-total-cm", "0.0"),
      ("recap-total-td", "0.0"), ("recap-total-montant", "0")] }

/-! ## JavaScript strings: white space, trimming, length -/

/-- The characters matched by the regular expression class `\s`, which are also
the characters `String.prototype.trim` removes: the white space and the line
terminators of ECMAScript. -/
def jsIsSpace (c : Char) : Bool :=
  let n := c.toNat
  (9 ≤ n && n ≤ 13) || n == 32 || n == 160 || n == 5760 || (8192 ≤ n && n ≤ 8202) ||
    n == 8232 || n == 8233 || n == 8239 || n == 8287 || n == 12288 || n == 65279

/-- Source `text.trim()`, on the characters of the string. -/
def jsTrim (l : List Char) : List Char :=
  ((l.dropWhile jsIsSpace).reverse.dropWhile jsIsSpace).reverse

/-- Source `text.length`: the number of UTF-16 code units, two for a character
outside the basic plane. -/
def utf16Length (l : List Char) : Nat :=
  (l.map (fun c => if c.toNat < 65536 then 1 else 2)).sum

/-! ## Theme at page load (bases/rebase.js, bases/script.js, mobile/script.js) -/

namespace Theme

/-- What the theme scripts read at page load: the value stored under the key
`theme` of `localStorage`, if any, and whether the media query
`(prefers-color-scheme: dark)` matches. -/
structure Env where
  stored : Option String
  prefersDark : Bool
  deriving DecidableEq, Repr

/-- Source `initTheme()` of bases/rebase.js: the value it gives to the
attribute `data-theme` of the document element. -/
def initTheme (e : Env) : String :=
  let savedTheme := orElseStr e.stored "light"
  savedTheme

/-- Source bases/script.js, lines 280 to 285: whether `body` has the class
`dark-theme` after the load handler, given whether it had it before. -/
def scriptLoad (e : Env) (bodyDark : Bool) : Bool :=
  let currentTheme := e.stored
  if currentTheme = some "dark" ∨ (orElseStr currentTheme "" = "" ∧ e.prefersDark = true) then
    true
  else bodyDark

/-- Source `setTheme(theme)` of mobile/script.js: whether `body` has the class
`dark-theme` afterwards. The icons of the toggle are left out. -/
def setTheme (theme : String) : Bool :=
  if theme = "dark" then true else false

/-- Source mobile/script.js, lines 121 to 126: whether `body` has the class
`dark-theme` after the load handler; nothing is applied on a page without the
element `themeToggle`. -/
def mobileLoad (e : Env) (themeToggle : Bool) (bodyDark : Bool) : Bool :=
  if themeToggle then
    let currentTheme := orElseStr e.stored (if e.prefersDark then "dark" else "light")
    setTheme currentTheme
  else bodyDark

/-- The name of the theme shown by a page whose `body` has, or has not, the
class `dark-theme`. -/
def themeName (bodyDark : Bool) : String :=
  if bodyDark then "dark" else "light"

end Theme

/-! ## Modal forms of the detail page (precontrat/detail.js) -/

namespace Detail

/-- Source: the submit listener of the form in `#validateModal`; `textarea` is
the value of the text area of the form, if the form has one. The result tells
whether `preventDefault` was called. -/
def validateFormSubmit (textarea : Option String) : Bool :=
  match textarea with
  | none => false
  | some value => decide (500 < utf16Length (jsTrim value.data))

/-- Source: the submit listener of the form in `#rejectModal`. The result tells
whether `preventDefault` was called; there is no result when the form has no
text area, where reading `textarea.value` raises a TypeError. -/
def rejectFormSubmit (textarea : Option String) : Option Bool :=
  match textarea with
  | none => none
  | some value =>
    if jsTrim value.data = [] then some true
    else if utf16Length (jsTrim value.data) < 10 then some true
    else some false

end Detail

/-! ## Subject table of the model page (maquettes/detail.js) -/

namespace Maquette

/-- A `td` cell: its `textContent` and its `innerText`. -/
structure Cell where
  textContent : String
  innerText : String
  deriving DecidableEq, Repr

/-- An element of class `matiere-row` or `matiere-card-wrapper`: its attributes
by name, its `td` cells in document order (a card has none) and its
`style.display`. -/
structure Element where
  attrs : List (String × String)
  cells : List Cell
  display : String
  deriving DecidableEq, Repr

/-- The globals `currentFilter`, `searchTerm`, `sortBy` of the script and the
part of the page its functions work on: whether `#matieresTable tbody` and
`#cardsView` exist, the elements of class `matiere-row` and of class
`matiere-card-wrapper` in document order (inside these two containers when they
exist), and the number shown by `#resultCount`, if the page has that element. -/
structure Page where
  currentFilter : Option String
  searchTerm : String
  sortBy : Option String
  tableBody : Bool
  cardsView : Bool
  rows : List Element
  cards : List Element
  resultCount : Option Nat
  deriving DecidableEq, Repr

/-- Source `element.getAttribute(name)`: nothing (null) for a missing attribute. -/
def getAttribute (e : Element) (name : String) : Option String :=
  getById name e.attrs

/-- Source `text.includes(part)`. -/
def jsIncludes (text part : String) : Bool :=
  text.data.tails.any (fun l => part.data.isPrefixOf l)

/-- The value of `show` that `applyFilters` computes for one row or card; there
is no value when `includes` is called on a missing attribute, which raises a
TypeError. -/
def elementShown (p : Page) (e : Element) : Option Bool :=
  let semestre := getAttribute e "data-semestre"
  let nom := getAttribute e "data-nom"
  let code := getAttribute e "data-code"
  let ue := getAttribute e "data-ue"
  let shown : Bool := !(decide (p.currentFilter ≠ some "all") && decide (semestre ≠ p.currentFilter))
  if p.searchTerm ≠ "" ∧ shown = true then
    match nom with
    | none => none
    | some nom =>
      if jsIncludes nom p.searchTerm then some true
      else
        match code with
        | none => none
        | some code =>
          if jsIncludes code p.searchTerm then some true
          else
            match ue with
            | none => none
            | some ue => some (jsIncludes ue p.searchTerm)
  else some shown

/-- One `forEach` loop of `applyFilters`: the elements with their new
`style.display`, and how many of them are shown. -/
def filterElements (p : Page) : List Element → Option (List Element × Nat)
  | [] => some ([], 0)
  | e :: rest =>
    match elementShown p e with
    | none => none
    | some shown =>
      match filterElements p rest with
      | none => none
      | some (es, count) =>
        some ({ e with display := if shown then "" else "none" } :: es,
          if shown then count + 1 else count)

/-- Source `updateResultCount(count)`. -/
def updateResultCount (count : Nat) (p : Page) : Page :=
  { p with resultCount := p.resultCount.map (fun _ => count) }

/-- Source `applyFilters()`; no page results when a TypeError is raised. -/
def applyFilters (p : Page) : Option Page :=
  match filterElements p p.rows with
  | none => none
  | some (rows, visibleCount) =>
    match filterElements p p.cards with
    | none => none
    | some (cards, _) => some (updateResultCount visibleCount { p with rows := rows, cards := cards })

/-- Source `text.replace(/\s+/g, ' ')`: every run of white space becomes one
space; `inSpace` tells that the previous character was white space. -/
def collapseSpaces (inSpace : Bool) : List Char → List Char
  | [] => []
  | c :: rest =>
    if jsIsSpace c then
      if inSpace then collapseSpaces true rest else ' ' :: collapseSpaces true rest
    else c :: collapseSpaces false rest

/-- Source `text.replace(/"/g, '""')`. -/
def escapeQuotes (l : List Char) : List Char :=
  l.flatMap (fun c => if c = Char.ofNat 34 then [Char.ofNat 34, Char.ofNat 34] else [c])

/-- Source `cell.textContent || cell.innerText`. -/
def cellText (cell : Cell) : String :=
  if cell.textContent ≠ "" then cell.textContent else cell.innerText

/-- Source `cleanCellText(cell)`; a missing cell is `none`. -/
def cleanCellText (cell : Option Cell) : String :=
  match cell with
  | none => ""
  | some c => String.mk (escapeQuotes (collapseSpaces false (jsTrim (cellText c).data)))

/-- The first group of the leftmost match of `/Code:\s*(\S+)/` in the text. -/
def matchCode : List Char → Option (List Char)
  | [] => none
  | c :: rest =>
    if (c :: rest).take 5 = ['C', 'o', 'd', 'e', ':'] then
      let code := (((c :: rest).drop 5).dropWhile jsIsSpace).takeWhile (fun x => !jsIsSpace x)
      if code ≠ [] then some code else matchCode rest
    else matchCode rest

/-- Source `extractCode(cell)`; a missing cell is `none`. -/
def extractCode (cell : Option Cell) : String :=
  match cell with
  | none => ""
  | some c =>
    match matchCode c.textContent.data with
    | some code => String.mk code
    | none => ""

/-- The array `rowData` that `exportToCSV` builds for a visible row. -/
def rowData (rowNumber : Nat) (row : Element) : List String :=
  [toString rowNumber,
   cleanCellText (row.cells.get? 1),
   extractCode (row.cells.get? 1),
   cleanCellText (row.cells.get? 2),
   cleanCellText (row.cells.get? 3),
   cleanCellText (row.cells.get? 4),
   cleanCellText (row.cells.get? 5),
   cleanCellText (row.cells.get? 6),
   cleanCellText (row.cells.get? 7),
   cleanCellText (row.cells.get? 8),
   cleanCellText (row.cells.get? 9),
   cleanCellText (row.cells.get? 10)]

/-- The characters of a value between double quotes. -/
def quoteField (value : String) : List Char :=
  Char.ofNat 34 :: value.data ++ [Char.ofNat 34]

/-- Source `fields.join(',')`, on characters. -/
def joinFields : List (List Char) → List Char
  | [] => []
  | [x] => x
  | x :: y :: rest => x ++ ',' :: joinFields (y :: rest)

/-- The characters `exportToCSV` appends for one visible row: the quoted values
joined by commas, then a line feed. -/
def csvLine (values : List String) : List Char :=
  joinFields (values.map quoteField) ++ [Char.ofNat 10]

/-- The byte order mark and the header line with which `exportToCSV` starts,
without the line feed. -/
def csvHeaderLine : List Char :=
  Char.ofNat 65279 ::
    ("N°,Matière,Code,UE,Semestre,Coefficient,Volume CM,Taux CM,Volume TD,Taux TD," ++
      "Volume Total,Coût Total").data

/-- The value of `csv` before the loop over the rows. -/
def csvHeader : List Char :=
  csvHeaderLine ++ [Char.ofNat 10]

/-- The loop of `exportToCSV` over the rows, `rowNumber` being the number the
next visible row gets: the characters appended to `csv`. -/
def exportRows : Nat → List Element → List Char
  | _, [] => []
  | rowNumber, row :: rest =>
    if row.display ≠ "none" then
      csvLine (rowData rowNumber row) ++ exportRows (rowNumber + 1) rest
    else exportRows rowNumber rest

/-- Source `exportToCSV()`: the text given to the `Blob`. The spinner and the
download link are left out. -/
def exportToCSV (p : Page) : String :=
  String.mk (csvHeader ++ exportRows 1 p.rows)

/-- Source `parseFloat(value) || 0`, `value` being what `getAttribute` gave. The function `parseFloat` of the
platform is a parameter: it gives no number (NaN) for a text that does not
start with one. A missing attribute reads as the text null, which is no
number, and `NaN || 0` is 0. -/
def readNumber {N : Type} [Zero N] (parseFloat : String → Option N) (value : Option String) :
    N :=
  match value with
  | none => 0
  | some text => (parseFloat text).getD 0

/-- The sign of `valueB - valueA` for two numbers that are not NaN. -/
def differenceSign {N : Type} [LinearOrder N] (valueB valueA : N) : Int :=
  if valueA < valueB then 1 else if valueB < valueA then -1 else 0

/-- Source `sortFunction(a, b)` inside `sortMatieres`, for the current value
of `sortBy`. The functions `localeCompare` and `parseFloat` of the platform are
parameters. There is no result when `localeCompare` is called on a missing
attribute, which raises a TypeError; a missing argument of `localeCompare`
reads as the text null. -/
def sortFunction {N : Type} [LinearOrder N] [Zero N] (localeCompare : String → String → Int)
    (parseFloat : String → Option N) (sortBy : Option String) (a b : Element) : Option Int :=
  if sortBy = some "nom" then
    match getAttribute a "data-nom" with
    | none => none
    | some valueA => some (localeCompare valueA ((getAttribute b "data-nom").getD "null"))
  else if sortBy = some "semestre" then
    let valueA := getAttribute a "data-semestre"
    let valueB := getAttribute b "data-semestre"
    if valueA = some "semestre-none" then some 1
    else if valueB = some "semestre-none" then some (-1)
    else
      match valueA with
      | none => none
      | some valueA => some (localeCompare valueA (valueB.getD "null"))
  else if sortBy = some "coefficient" then
    some (differenceSign (readNumber parseFloat (getAttribute b "data-coefficient"))
      (readNumber parseFloat (getAttribute a "data-coefficient")))
  else if sortBy = some "volume" then
    some (differenceSign (readNumber parseFloat (getAttribute b "data-volume"))
      (readNumber parseFloat (getAttribute a "data-volume")))
  else if sortBy = some "cout" then
    some (differenceSign (readNumber parseFloat (getAttribute b "data-cout"))
      (readNumber parseFloat (getAttribute a "data-cout")))
  else some 0

/-- One element put into a sorted list: before the first element it does not
come after. -/
def insertSorted {α : Type} (compare : α → α → Option Int) (a : α) : List α → Option (List α)
  | [] => some [a]
  | b :: rest =>
    match compare a b with
    | none => none
    | some order =>
      if order ≤ 0 then some (a :: b :: rest)
      else (insertSorted compare a rest).map (fun l => b :: l)

/-- Source `array.sort(compare)`, as a stable insertion sort: ECMAScript fixes
the result (sorted, equal elements in their former order) for a consistent
comparison function and leaves the order to the engine otherwise. There is no
result when the comparison function raises an error. -/
def jsSort {α : Type} (compare : α → α → Option Int) : List α → Option (List α)
  | [] => some []
  | a :: rest =>
    match jsSort compare rest with
    | none => none
    | some sorted => insertSorted compare a sorted

/-- The text of the first cell of the row becomes `n`. -/
def setNumber (n : Nat) (row : Element) : Element :=
  match row.cells with
  | [] => row
  | _ :: rest => { row with cells := ⟨toString n, toString n⟩ :: rest }

/-- The last loop of `sortMatieres`: the rows are numbered from `n` on. -/
def renumber : Nat → List Element → List Element
  | _, [] => []
  | n, row :: rest => setNumber n row :: renumber (n + 1) rest

/-- Source `sortMatieres()`; no page results when a TypeError is raised. -/
def sortMatieres {N : Type} [LinearOrder N] [Zero N] (localeCompare : String → String → Int)
    (parseFloat : String → Option N) (p : Page) : Option Page :=
  if p.tableBody = false ∨ p.cardsView = false then some p
  else
    match jsSort (sortFunction localeCompare parseFloat p.sortBy) p.rows with
    | none => none
    | some rows =>
      match jsSort (sortFunction localeCompare parseFloat p.sortBy) p.cards with
      | none => none
      | some cards => some { p with rows := renumber 1 rows, cards := cards }

end Maquette

/-! ## Example table of the model page -/

namespace Maquette

/-- A row of the table as the template writes it: the attributes used by the
filters and the sort, and eleven cells, the second holding the name and the
code of the subject. -/
def exampleRow (number nom code ue semestre coefficient volume cout : String)
    (nameCell : String) : Element :=
  { attrs := [("data-semestre", semestre), ("data-nom", nom), ("data-code", code),
      ("data-ue", ue), ("data-coefficient", coefficient), ("data-volume", volume),
      ("data-cout", cout)],
    cells := [⟨number, number⟩, ⟨nameCell, nameCell⟩, ⟨ue, ue⟩, ⟨semestre, semestre⟩,
      ⟨coefficient, coefficient⟩, ⟨"20", "20"⟩, ⟨"10000", "10000"⟩, ⟨"20", "20"⟩,
      ⟨"8000", "8000"⟩, ⟨volume, volume⟩, ⟨cout, cout⟩],
    display := "" }

/-- Subject without semester, coefficient 2. -/
def rowDroit : Element :=
  exampleRow "1" "droit" "dr100" "sciences juridiques" "semestre-none" "2" "30" "270000"
    "Droit\n      Code: DR100"

/-- Subject of semester 2, coefficient 5. -/
def rowMath : Element :=
  exampleRow "2" "analyse" "mat201" "mathématiques" "semestre-2" "5" "40" "360000"
    "Analyse\n      Code: MAT201"

/-- Subject of semester 1, coefficient 3. -/
def rowAlgo : Element :=
  exampleRow "3" "algorithmique" "inf101" "informatique" "semestre-1" "3" "40" "360000"
    "Algorithmique\n      Code: INF101"

/-- Subject of semester 1 whose code holds a double quote, a comma and a double
quote. -/
def rowQuoted : Element :=
  exampleRow "4" "anglais" "a\",\"b" "langues" "semestre-1" "1" "20" "180000"
    "Anglais Code: A\",\"B"

/-- The card of a subject: the attributes of its row, no cell. -/
def cardOf (row : Element) : Element :=
  { row with cells := [] }

/-- A page with the three subjects, no filter, no search term. -/
def exampleTable : Page :=
  { currentFilter := some "all", searchTerm := "", sortBy := some "nom",
    tableBody := true, cardsView := true,
    rows := [rowDroit, rowMath, rowAlgo],
    cards := [cardOf rowDroit, cardOf rowMath, cardOf rowAlgo],
    resultCount := some 3 }

/-- A reading of whole numbers written in digits, standing for `parseFloat` on
such texts: no number for any other text. -/
def parseDigits (text : String) : Option Int :=
  if text.data ≠ [] ∧ text.data.all (fun c => decide ('0'.toNat ≤ c.toNat ∧ c.toNat ≤ '9'.toNat)) then
    some (Int.ofNat (text.data.foldl (fun acc c => acc * 10 + (c.toNat - '0'.toNat)) 0))
  else none

/-- Comparison of two texts by code points, standing for `localeCompare`. -/
def compareCodePoints : List Char → List Char → Int
  | [], [] => 0
  | [], _ :: _ => -1
  | _ :: _, [] => 1
  | a :: s, b :: t =>
    if a.toNat < b.toNat then -1
    else if b.toNat < a.toNat then 1
    else compareCodePoints s t

/-- The comparison by code points, on strings. -/
def exampleCompare (a b : String) : Int :=
  compareCodePoints a.data b.data

end Maquette

/-! ## Definitions for the statements about the subject table -/

namespace Maquette

/-- Follows the words of the claim: the element passes the filter (it is all,
or the semester of the element) and the search (the term is empty, or the name,
the code or the unit of the element contains it). -/
def specShown (p : Page) (e : Element) : Bool :=
  (decide (p.currentFilter = some "all") ||
    decide (getAttribute e "data-semestre" = p.currentFilter)) &&
  (decide (p.searchTerm = "") ||
    ["data-nom", "data-code", "data-ue"].any
      (fun name => (getAttribute e name).any (fun text => jsIncludes text p.searchTerm)))

/-- The element with the `style.display` of a shown or of a hidden element. -/
def withDisplay (shown : Bool) (e : Element) : Element :=
  { e with display := if shown then "" else "none" }

/-- The element is visible: its `style.display` is not none. -/
def isVisible (e : Element) : Bool :=
  decide (e.display ≠ "none")

/-- The attributes the search needs are there. -/
def hasSearchAttributes (e : Element) : Bool :=
  (getAttribute e "data-nom").isSome && (getAttribute e "data-code").isSome &&
    (getAttribute e "data-ue").isSome

/-- The visible rows in document order. -/
def visibleRows (p : Page) : List Element :=
  p.rows.filter isVisible

/-- The line of a visible row without its line feed. -/
def rowLine (rowNumber : Nat) (row : Element) : List Char :=
  joinFields ((rowData rowNumber row).map quoteField)

/-- The lines of a text: the pieces between its line feeds. -/
def splitLines : List Char → List (List Char)
  | [] => [[]]
  | c :: rest =>
    if c = Char.ofNat 10 then [] :: splitLines rest
    else
      match splitLines rest with
      | [] => [[c]]
      | line :: lines => (c :: line) :: lines

/-- Follows the words of the claim: the white space normalised, trimmed text of
a cell; the empty text for a missing cell. -/
def normalisedText (cell : Option Cell) : String :=
  match cell with
  | none => ""
  | some c => String.mk (collapseSpaces false (jsTrim (cellText c).data))

/-- Follows the words of the claim: the twelve fields of the line of a row. -/
def specFields (rowNumber : Nat) (row : Element) : List String :=
  [toString rowNumber,
   normalisedText (row.cells.get? 1),
   extractCode (row.cells.get? 1),
   normalisedText (row.cells.get? 2),
   normalisedText (row.cells.get? 3),
   normalisedText (row.cells.get? 4),
   normalisedText (row.cells.get? 5),
   normalisedText (row.cells.get? 6),
   normalisedText (row.cells.get? 7),
   normalisedText (row.cells.get? 8),
   normalisedText (row.cells.get? 9),
   normalisedText (row.cells.get? 10)]

/-- Where a reader of a CSV line stands: at the start of a field, inside a
field without quotes, inside a quoted field, or after a double quote met inside
a quoted field. -/
inductive CsvMode where
  | fieldStart
  | bare
  | quoted
  | afterQuote
  deriving DecidableEq, Repr

/-- Standard CSV quoting, for one line: fields are separated by commas; a field
that starts with a double quote runs to the next double quote that is not
doubled, a doubled double quote standing for one; after the closing quote comes
a comma or the end of the line; a field without quotes holds no double quote.
`field` is the field being read, `done` the fields already read. A line that
does not follow these rules has no reading. -/
def parseCsv : CsvMode → List Char → List String → List Char → Option (List String)
  | mode, field, done, [] =>
    if mode = .quoted then none else some (done ++ [String.mk field])
  | mode, field, done, c :: rest =>
    match mode with
    | .fieldStart =>
      if c = Char.ofNat 34 then parseCsv .quoted [] done rest
      else if c = ',' then parseCsv .fieldStart [] (done ++ [""]) rest
      else parseCsv .bare [c] done rest
    | .bare =>
      if c = Char.ofNat 34 then none
      else if c = ',' then parseCsv .fieldStart [] (done ++ [String.mk field]) rest
      else parseCsv .bare (field ++ [c]) done rest
    | .quoted =>
      if c = Char.ofNat 34 then parseCsv .afterQuote field done rest
      else parseCsv .quoted (field ++ [c]) done rest
    | .afterQuote =>
      if c = Char.ofNat 34 then parseCsv .quoted (field ++ [Char.ofNat 34]) done rest
      else if c = ',' then parseCsv .fieldStart [] (done ++ [String.mk field]) rest
      else none

/-- The fields of a CSV line. -/
def parseCsvLine (line : List Char) : Option (List String) :=
  parseCsv .fieldStart [] [] line

/-- What `sortMatieres` leaves of a row as it was: its attributes, its cells
after the first one, its `style.display`. -/
def rowContent (e : Element) : List (String × String) × List Cell × String :=
  (e.attrs, e.cells.tail, e.display)

/-- The semester of the element is the text semestre-none. -/
def noSemester (e : Element) : Bool :=
  getAttribute e "data-semestre" == some "semestre-none"

/-- The number the sort reads from the attribute `data-` followed by `key`. -/
def sortKey {N : Type} [Zero N] (parseFloat : String → Option N) (key : String) (e : Element) : N :=
  readNumber parseFloat (getAttribute e ("data-" ++ key))

end Maquette

/-! ## Frame lemmas: which parts of the state each handler can change -/


theorem updateModuleSelection_frame (s : WizardState) :
    ∃ t b l, updateModuleSelection s = { s with texts := t, buttons := b, selectedList := l } := by
  simp only [updateModuleSelection, updateSelectedCount, updateSelectedList, updateTotalHours,
    updateTotalAmount, safeSetText, enableButton, disableButton]
  split <;> split <;> (try split) <;> exact ⟨_, _, _, rfl⟩

theorem generateRecap_frame (s : WizardState) :
    ∃ t r, generateRecap s = { s with texts := t, recapRows := r } := by
  simp only [generateRecap, generateRecapModules, generateRecapClasse, generateRecapProfesseur,
    safeSetText, selectedFound]
  split <;> split <;> split <;> exact ⟨_, _, rfl⟩

theorem loadModules_frame (s : WizardState) :
    ∃ d f, loadModules s = { s with dNone := d, pendingFetches := f } := by
  simp only [loadModules, showLoading]
  split
  · exact ⟨_, _, rfl⟩
  · split <;> exact ⟨_, _, rfl⟩

theorem handleStepChange_frame (step : Int) (s : WizardState) :
    ∃ t r d f, handleStepChange step s =
      { s with texts := t, recapRows := r, dNone := d, pendingFetches := f } := by
  unfold handleStepChange
  split
  · obtain ⟨d, f, h⟩ := loadModules_frame s
    exact ⟨_, _, d, f, h⟩
  · split
    · obtain ⟨t, r, h⟩ := generateRecap_frame s
      exact ⟨t, r, _, _, h⟩
    · exact ⟨_, _, _, _, rfl⟩

theorem stepTimeout_frame (p : PendingStep) (s : WizardState) :
    ∃ c t r d f, stepTimeout p s =
      { s with stepContents := c, currentStep := p.step, texts := t, recapRows := r, dNone := d,
               pendingFetches := f } := by
  unfold stepTimeout
  obtain ⟨t, r, d, f, h⟩ := handleStepChange_frame p.step
    { s with stepContents := (match queryStepContent p.step (s.stepContents.modify (fun c => { c with active := false }) p.content) with
    | some newContent => (s.stepContents.modify (fun c => { c with active := false }) p.content).modify (fun c => { c with active := true }) newContent
    | none => (s.stepContents.modify (fun c => { c with active := false }) p.content)), currentStep := p.step }
  exact ⟨_, t, r, d, f, h⟩

theorem validateStep_frame (k : Int) (s : WizardState) :
    ((validateStep k s).1 = true ∧ (validateStep k s).2 = s) ∨
    ((validateStep k s).1 = false ∧ ∃ msg, (validateStep k s).2 = showNotification msg "warning" s) := by
  unfold validateStep
  split_ifs <;> first | exact Or.inl ⟨rfl, rfl⟩ | exact Or.inr ⟨rfl, _, rfl⟩

theorem showStep_frame (k : Int) (s : WizardState) :
    showStep k s = s ∨
    ∃ c, (1 ≤ k ∧ k ≤ 4) ∧ queryStepContent s.currentStep s.stepContents = some c ∧
      showStep k s = { s with pendingSteps := s.pendingSteps ++ [⟨c, k⟩] } := by
  unfold showStep totalSteps
  split
  · exact Or.inl rfl
  · rename_i h
    split
    · exact Or.inl rfl
    · rename_i c hc
      refine Or.inr ⟨c, by omega, hc, rfl⟩

theorem RequestsWith.same (P : Int → Prop) (s : WizardState) : RequestsWith P s s :=
  ⟨_, _, _, _, Or.inl rfl⟩

theorem RequestsWith.mono {P Q : Int → Prop} {s s' : WizardState} (h : RequestsWith P s s')
    (hPQ : ∀ k, P k → Q k) : RequestsWith Q s s' := by
  obtain ⟨n, hi, ov, sb, h⟩ := h
  rcases h with h | ⟨c, k, hP, hk, hc, h⟩
  · exact ⟨n, hi, ov, sb, Or.inl h⟩
  · exact ⟨n, hi, ov, sb, Or.inr ⟨c, k, hPQ k hP, hk, hc, h⟩⟩

theorem showStep_requestsWith {P : Int → Prop} (k : Int) (s : WizardState) (hP : P k) :
    RequestsWith P s (showStep k s) := by
  rcases showStep_frame k s with h | ⟨c, hk, hc, h⟩
  · rw [h]; exact RequestsWith.same P s
  · rw [h]; exact ⟨_, _, _, _, Or.inr ⟨c, k, hP, hk, hc, rfl⟩⟩

theorem showStep_notice_requestsWith {P : Int → Prop} (k : Int) (msg t : String)
    (s : WizardState) (hP : P k) :
    RequestsWith P s (showStep k (showNotification msg t s)) := by
  rcases showStep_frame k (showNotification msg t s) with h | ⟨c, hk, hc, h⟩
  · rw [h]; exact ⟨_, _, _, _, Or.inl rfl⟩
  · rw [h]; exact ⟨_, _, _, _, Or.inr ⟨c, k, hP, hk, hc, rfl⟩⟩

theorem validateAndShowStep_requestsWith {P : Int → Prop} (a b : Int) (s : WizardState)
    (hP : (validateStep a s).1 = true → P b) :
    RequestsWith P s (validateAndShowStep a b s) := by
  unfold validateAndShowStep
  rcases validateStep_frame a s with ⟨h1, h2⟩ | ⟨h1, msg, h2⟩
  · simp only [h1, h2, if_true]; exact showStep_requestsWith b s (hP h1)
  · simp only [h1, h2]; exact ⟨_, _, _, _, Or.inl rfl⟩

theorem clickButton_requests (id : String) (s : WizardState) :
    Requests s (clickButton id s) := by
  unfold clickButton buttonAction
  split
  · split_ifs <;>
      first
      | exact validateAndShowStep_requestsWith _ _ s (fun _ => trivial)
      | exact showStep_requestsWith _ s trivial
      | exact RequestsWith.same _ s
  · exact RequestsWith.same _ s

theorem handleKeyboardShortcuts_requests (key : Key) (b : Bool) (s : WizardState) :
    Requests s (handleKeyboardShortcuts key b s) := by
  unfold handleKeyboardShortcuts
  split
  · split
    · exact showStep_requestsWith _ s trivial
    · exact RequestsWith.same _ s
  · split
    · exact RequestsWith.same _ s
    · exact clickButton_requests _ s
  · exact RequestsWith.same _ s

theorem validateForm_requestsWith (s : WizardState) :
    RequestsWith (fun k => ∀ j, 1 ≤ j → j < k → StepValid j s) s (validateForm s).2 := by
  unfold validateForm
  split_ifs with h1 h2 h3 <;> dsimp only
  · refine showStep_notice_requestsWith _ _ _ s ?_
    intro j hj1 hj2
    omega
  · refine showStep_notice_requestsWith _ _ _ s ?_
    intro j hj1 hj2
    have hj : j = 1 := by omega
    subst hj
    refine ⟨fun _ hp => ?_, fun h => absurd h (by decide), fun h => absurd h (by decide)⟩
    rw [hp] at h1
    exact h1 rfl
  · refine showStep_notice_requestsWith _ _ _ s ?_
    intro j hj1 hj2
    have hj : j = 1 ∨ j = 2 := by omega
    rcases hj with hj | hj <;> subst hj
    · refine ⟨fun _ hp => ?_, fun h => absurd h (by decide), fun h => absurd h (by decide)⟩
      rw [hp] at h1
      exact h1 rfl
    · refine ⟨fun h => absurd h (by decide), fun _ hp => ?_, fun h => absurd h (by decide)⟩
      rw [hp] at h2
      exact h2 rfl
  · exact RequestsWith.same _ s

theorem submitEvent_requestsWith (s : WizardState) :
    RequestsWith (fun k => ∀ j, 1 ≤ j → j < k → StepValid j s) s (submitEvent s).2 := by
  unfold submitEvent
  split
  · unfold submitListener handleFormSubmit showSubmitLoading
    obtain ⟨n, hi, ov, sb, h⟩ := validateForm_requestsWith s
    rcases h with h | ⟨c, k, hP, hk, hc, h⟩
    · simp only [h]
      split_ifs <;> split <;> (try split) <;> exact ⟨_, _, _, _, Or.inl rfl⟩
    · simp only [h]
      split_ifs <;> split <;> (try split) <;> exact ⟨_, _, _, _, Or.inr ⟨c, k, hP, hk, hc, rfl⟩⟩
  · exact RequestsWith.same _ s

theorem handleProfesseurChange_frame (opt : Option SelectOption) (s : WizardState) :
    ∃ p b, handleProfesseurChange opt s = { s with professeur := p, buttons := b } := by
  simp only [handleProfesseurChange, enableButton, disableButton]
  split
  · split <;> exact ⟨_, _, rfl⟩
  · exact ⟨_, _, rfl⟩

theorem handleClasseChange_frame (opt : Option SelectOption) (s : WizardState) :
    ∃ c t b, handleClasseChange opt s = { s with classe := c, texts := t, buttons := b } := by
  simp only [handleClasseChange, enableButton, disableButton, displayClasseInfo, safeSetText]
  split
  · split <;> exact ⟨_, _, _, rfl⟩
  · exact ⟨_, _, _, rfl⟩

theorem toggleModuleSelection_frame (moduleId : String) (isSelected : Bool) (card : Nat)
    (s : WizardState) :
    ∃ t b l, toggleModuleSelection moduleId isSelected card s =
      { s with selectedModules := toggleSelected moduleId isSelected s.selectedModules,
               modulesList := s.modulesList.map (fun l => l.modify (markCard isSelected) card),
               texts := t, buttons := b, selectedList := l } := by
  unfold toggleModuleSelection
  obtain ⟨t, b, l, h⟩ := updateModuleSelection_frame
    { s with selectedModules := toggleSelected moduleId isSelected s.selectedModules,
             modulesList := s.modulesList.map (fun l => l.modify (markCard isSelected) card) }
  exact ⟨t, b, l, h⟩

theorem handleModuleCardClick_frame (i : Nat) (s : WizardState) :
    handleModuleCardClick i s = s ∨
    ∃ nodes c t b l, s.modulesList = some nodes ∧ nodes.get? i = some (.card c) ∧
      handleModuleCardClick i s =
        { s with selectedModules := toggleSelected c.module.id.toJsString (!c.checked) s.selectedModules,
                 modulesList := some ((nodes.set i (.card { c with checked := !c.checked })).modify
                    (markCard (!c.checked)) i),
                 texts := t, buttons := b, selectedList := l } := by
  unfold handleModuleCardClick
  split
  · exact Or.inl rfl
  · rename_i nodes hn
    split
    · rename_i c hc
      obtain ⟨t, b, l, h⟩ := toggleModuleSelection_frame c.module.id.toJsString (!c.checked) i
        { s with modulesList := some (nodes.set i (.card { c with checked := !c.checked })) }
      exact Or.inr ⟨nodes, c, t, b, l, hn, hc, h⟩
    · exact Or.inl rfl

theorem onFetchError_frame (message : String) (s : WizardState) :
    ∃ d n, onFetchError message s = { s with dNone := d, notices := n } := by
  simp only [onFetchError, hideLoading, showEmptyModules, showNotification]
  exact ⟨_, _, rfl⟩

theorem renderModules_frame (modules : List Module) (s : WizardState) :
    (∃ ml, renderModules modules s = .ok { s with modulesList := ml }) ∨
    (∃ e ml, renderModules modules s = .error (e, { s with modulesList := ml })) := by
  unfold renderModules
  split
  · rename_i h
    exact Or.inl ⟨none, by rw [← h]⟩
  · split
    · exact Or.inr ⟨_, _, rfl⟩
    · exact Or.inl ⟨_, rfl⟩

theorem onFetchData_frame (data : Payload) (s : WizardState) :
    ∃ d n md ml, onFetchData data s =
      { s with dNone := d, notices := n, modulesData := md, modulesList := ml } := by
  unfold onFetchData
  split
  · split
    · rename_i m ms hm
      rcases renderModules_frame (m :: ms) { hideLoading s with modulesData := m :: ms } with
        ⟨ml, h⟩ | ⟨e, ml, h⟩
      · simp only [h]
        simp only [showModulesContainer, showNotification, hideLoading]
        exact ⟨_, _, _, _, rfl⟩
      · simp only [h]
        simp only [onFetchError, showEmptyModules, showNotification, hideLoading]
        exact ⟨_, _, _, _, rfl⟩
    · simp only [showEmptyModules, showNotification, hideLoading]
      exact ⟨_, _, _, _, rfl⟩
  · simp only [showEmptyModules, showNotification, hideLoading]
    exact ⟨_, _, _, _, rfl⟩

theorem processResponse_frame (r : FetchResult) (s : WizardState) :
    ∃ d n md ml, processResponse r s =
      { s with dNone := d, notices := n, modulesData := md, modulesList := ml } := by
  unfold processResponse
  split
  · obtain ⟨d, n, h⟩ := onFetchError_frame ‹_› s; exact ⟨d, n, _, _, h⟩
  · obtain ⟨d, n, h⟩ := onFetchError_frame ("Erreur HTTP " ++ toString ‹Nat› ++ ": " ++ ‹String›) s
    exact ⟨d, n, _, _, h⟩
  · exact onFetchData_frame _ s

/-! ## Selection lemmas -/

theorem toggleSelected_nodup (moduleId : String) (isSelected : Bool) (sel : List String)
    (h : sel.Nodup) : (toggleSelected moduleId isSelected sel).Nodup := by
  unfold toggleSelected
  split
  · split
    · exact h
    · rename_i hm
      refine List.nodup_append.mpr ⟨h, List.nodup_singleton _, ?_⟩
      intro a ha hb
      rw [List.mem_singleton] at hb
      subst hb
      exact hm ha
  · exact h.erase _

theorem toggleModuleSelection_selectedModules (moduleId : String) (isSelected : Bool)
    (card : Nat) (s : WizardState) :
    (toggleModuleSelection moduleId isSelected card s).selectedModules =
      toggleSelected moduleId isSelected s.selectedModules := by
  obtain ⟨t, b, l, h⟩ := toggleModuleSelection_frame moduleId isSelected card s
  rw [h]

theorem toggleRun_nodup (calls : List (String × Bool × Nat)) (s : WizardState)
    (h : s.selectedModules.Nodup) : (toggleRun calls s).selectedModules.Nodup := by
  induction calls generalizing s with
  | nil => exact h
  | cons c rest ih =>
    unfold toggleRun
    rw [List.foldl_cons]
    apply ih
    rw [toggleModuleSelection_selectedModules]
    exact toggleSelected_nodup _ _ _ h

theorem toggleSelected_twice (moduleId : String) (isSelected : Bool) (sel : List String)
    (h : sel.Nodup) :
    toggleSelected moduleId isSelected (toggleSelected moduleId isSelected sel) =
      toggleSelected moduleId isSelected sel := by
  cases isSelected with
  | true =>
    simp only [toggleSelected, if_true]
    by_cases hm : moduleId ∈ sel
    · simp [hm]
    · simp [hm]
  | false =>
    simp only [toggleSelected, Bool.false_eq_true, if_false]
    apply List.erase_of_not_mem
    exact fun hmem => (List.Nodup.mem_erase_iff h).mp hmem |>.1 rfl

/-! ## Navigation lemmas -/

theorem requests_stepsInRange {s s' : WizardState} (hr : Requests s s')
    (h : StepsInRange s) : StepsInRange s' := by
  obtain ⟨n, hi, ov, sb, hr⟩ := hr
  rcases hr with hr | ⟨c, k, _, hk, _, hr⟩
  · subst hr; exact h
  · subst hr
    refine ⟨h.1, ?_⟩
    intro p hp
    simp only [List.mem_append, List.mem_singleton] at hp
    rcases hp with hp | hp
    · exact h.2 p hp
    · subst hp; exact hk

theorem step_requests_or (e : Event) (s : WizardState) :
    Requests s (step e s) ∨
    (∃ i p, e = .timeout i ∧ s.pendingSteps.get? i = some p ∧
      step e s = stepTimeout p { s with pendingSteps := s.pendingSteps.eraseIdx i }) ∨
    ((step e s).currentStep = s.currentStep ∧ (step e s).pendingSteps = s.pendingSteps ∧
      (step e s).stepContents = s.stepContents) := by
  cases e with
  | professeurChange opt =>
    obtain ⟨p, b, h⟩ := handleProfesseurChange_frame opt s
    simp only [step, h, true_and, or_true]
  | classeChange opt =>
    obtain ⟨c, t, b, h⟩ := handleClasseChange_frame opt s
    simp only [step, h, true_and, or_true]
  | click id => exact Or.inl (clickButton_requests id s)
  | cardClick i =>
    rcases handleModuleCardClick_frame i s with h | ⟨nodes, c, t, b, l, _, _, h⟩
    · simp only [step, h, true_and, or_true]
    · simp only [step, h, true_and, or_true]
  | keydown key b => exact Or.inl (handleKeyboardShortcuts_requests key b s)
  | submit => exact Or.inl ((submitEvent_requestsWith s).mono (fun _ _ => trivial))
  | callShowStep k => exact Or.inl (showStep_requestsWith k s trivial)
  | timeout i =>
    cases hp : s.pendingSteps.get? i with
    | none =>
      simp only [step, hp]
      exact Or.inl (RequestsWith.same _ s)
    | some p =>
      refine Or.inr (Or.inl ⟨i, p, rfl, hp, ?_⟩)
      simp only [step, hp]
  | response i r =>
    cases hp : s.pendingFetches.get? i with
    | none =>
      simp only [step, hp]
      exact Or.inl (RequestsWith.same _ s)
    | some a =>
      obtain ⟨d, n, md, ml, h⟩ := processResponse_frame r
        { s with pendingFetches := s.pendingFetches.eraseIdx i }
      simp only [step, hp, h, true_and, or_true]

theorem step_stepsInRange (e : Event) (s : WizardState) (h : StepsInRange s) :
    StepsInRange (step e s) := by
  rcases step_requests_or e s with hr | ⟨i, p, _, hp, hs⟩ | ⟨h1, h2, _⟩
  · exact requests_stepsInRange hr h
  · obtain ⟨c, t, r, d, f, hf⟩ := stepTimeout_frame p
      { s with pendingSteps := s.pendingSteps.eraseIdx i }
    rw [hs, hf]
    refine ⟨h.2 p (List.get?_mem hp), ?_⟩
    intro q hq
    exact h.2 q (List.mem_of_mem_eraseIdx hq)
  · unfold StepsInRange
    rw [h1, h2]
    exact h

theorem run_stepsInRange (events : List Event) (s : WizardState) (h : StepsInRange s) :
    StepsInRange (run events s) := by
  induction events generalizing s with
  | nil => exact h
  | cons e rest ih =>
    unfold run
    rw [List.foldl_cons]
    exact ih _ (step_stepsInRange e s h)

theorem validateStep_true_stepValid (k : Int) (s : WizardState)
    (h : (validateStep k s).1 = true) : StepValid k s := by
  unfold validateStep at h
  refine ⟨fun hk hp => ?_, fun hk hp => ?_, fun hk hp => ?_⟩
  · subst hk
    simp [hp] at h
  · subst hk
    simp [hp] at h
  · subst hk
    simp [hp] at h

theorem validateAndShowStep_cases (a b : Int) (s : WizardState) :
    ((validateStep a s).1 = false ∧
      ∃ msg, validateAndShowStep a b s = showNotification msg "warning" s) ∨
    ((validateStep a s).1 = true ∧ validateAndShowStep a b s = showStep b s) := by
  unfold validateAndShowStep
  rcases validateStep_frame a s with ⟨h1, h2⟩ | ⟨h1, msg, h2⟩
  · right
    simp only [h1, h2, if_true, and_self]
  · left
    refine ⟨h1, msg, ?_⟩
    simp only [h1, h2, Bool.false_eq_true, if_false]

theorem timeout_last_currentStep (s : WizardState) (ps : List PendingStep) (c : Nat)
    (k : Int) (hps : s.pendingSteps = ps ++ [⟨c, k⟩]) :
    (step (.timeout ps.length) s).currentStep = k := by
  have hget : s.pendingSteps.get? ps.length = some ⟨c, k⟩ := by
    rw [hps]
    simp
  simp only [step, hget]
  obtain ⟨c', t, r, d, f, hf⟩ := stepTimeout_frame ⟨c, k⟩
    { s with pendingSteps := s.pendingSteps.eraseIdx ps.length }
  rw [hf]

theorem advanceRun_inv (n : Int) (acts : List (Option Nat)) (s : WizardState)
    (h : AdvanceInv n s) : AdvanceInv n (advanceRun n acts s) := by
  induction acts generalizing s with
  | nil => exact h
  | cons a rest ih =>
    unfold advanceRun
    rw [List.foldl_cons]
    apply ih
    cases a with
    | none =>
      dsimp only
      rcases validateAndShowStep_cases n (n + 1) s with ⟨_, msg, h2⟩ | ⟨_, h2⟩
      · rw [h2]; exact h
      · rw [h2]
        rcases showStep_frame (n + 1) s with h3 | ⟨c, _, _, h3⟩
        · rw [h3]; exact h
        · rw [h3]
          refine ⟨h.1, ?_⟩
          intro p hp
          simp only [List.mem_append, List.mem_singleton] at hp
          rcases hp with hp | hp
          · exact h.2 p hp
          · subst hp; rfl
    | some i =>
      dsimp only
      cases hp : s.pendingSteps.get? i with
      | none =>
        simp only [step, hp]
        exact h
      | some p =>
        simp only [step, hp]
        obtain ⟨c', t, r, d, f, hf⟩ := stepTimeout_frame p
          { s with pendingSteps := s.pendingSteps.eraseIdx i }
        rw [hf]
        refine ⟨Or.inr (h.2 p (List.get?_mem hp)), ?_⟩
        intro q hq
        exact h.2 q (List.mem_of_mem_eraseIdx hq)

theorem clickNext_requestsWith (s : WizardState)
    (hr : 1 ≤ s.currentStep ∧ s.currentStep ≤ 4) :
    RequestsWith (fun m => ∀ k, s.currentStep ≤ k → k < m → StepValid k s) s
      (clickButton ("btn-step-" ++ toString s.currentStep ++ "-next") s) := by
  have hcases : s.currentStep = 1 ∨ s.currentStep = 2 ∨ s.currentStep = 3 ∨
      s.currentStep = 4 := by omega
  have key : ∀ n : Int, s.currentStep = n → ∀ k, s.currentStep ≤ k → k < n + 1 →
      (validateStep n s).1 = true → StepValid k s := by
    intro n hn k hk1 hk2 hv
    have : k = n := by omega
    subst this
    exact validateStep_true_stepValid _ s hv
  unfold clickButton
  split
  · rcases hcases with h | h | h | h
    · rw [h]
      have : buttonAction ("btn-step-" ++ toString (1 : Int) ++ "-next") s =
          validateAndShowStep 1 2 s := rfl
      rw [this]
      exact validateAndShowStep_requestsWith 1 2 s
        (fun hv k hk1 hk2 => key 1 h k (h ▸ hk1) hk2 hv)
    · rw [h]
      have : buttonAction ("btn-step-" ++ toString (2 : Int) ++ "-next") s =
          validateAndShowStep 2 3 s := rfl
      rw [this]
      exact validateAndShowStep_requestsWith 2 3 s
        (fun hv k hk1 hk2 => key 2 h k (h ▸ hk1) hk2 hv)
    · rw [h]
      have : buttonAction ("btn-step-" ++ toString (3 : Int) ++ "-next") s =
          validateAndShowStep 3 4 s := rfl
      rw [this]
      exact validateAndShowStep_requestsWith 3 4 s
        (fun hv k hk1 hk2 => key 3 h k (h ▸ hk1) hk2 hv)
    · rw [h]
      have : buttonAction ("btn-step-" ++ toString (4 : Int) ++ "-next") s = s := rfl
      rw [this]
      exact RequestsWith.same _ s
  · exact RequestsWith.same _ s

theorem advanceOp_requestsWith (s : WizardState) (e : Event)
    (hr : 1 ≤ s.currentStep ∧ s.currentStep ≤ 4) (he : IsAdvanceOp s e) :
    RequestsWith (fun m => ∀ k, s.currentStep ≤ k → k < m → StepValid k s) s (step e s) := by
  rcases he with he | ⟨b, he⟩ | he
  · subst he
    exact clickNext_requestsWith s hr
  · subst he
    simp only [step, handleKeyboardShortcuts]
    split
    · exact RequestsWith.same _ s
    · exact clickNext_requestsWith s hr
  · subst he
    exact (submitEvent_requestsWith s).mono
      (fun m hm k hk1 hk2 => hm k (le_trans hr.1 hk1) hk2)

/-! ## Catalog lemmas -/

theorem pushGroup_mem (ueNom : String) (m : Module) (groups : List (String × List Module))
    (g : String × List Module) (hg : g ∈ pushGroup ueNom m groups) (x : Module)
    (hx : x ∈ g.2) : x = m ∨ ∃ g0 ∈ groups, x ∈ g0.2 := by
  induction groups with
  | nil =>
    simp only [pushGroup, List.mem_singleton] at hg
    subst hg
    simp only [List.mem_singleton] at hx
    exact Or.inl hx
  | cons hd tl ih =>
    obtain ⟨k, ms⟩ := hd
    simp only [pushGroup] at hg
    split at hg
    · rcases List.mem_cons.mp hg with hg | hg
      · subst hg
        simp only [List.mem_append, List.mem_singleton] at hx
        rcases hx with hx | hx
        · exact Or.inr ⟨(k, ms), List.mem_cons_self _ _, hx⟩
        · exact Or.inl hx
      · exact Or.inr ⟨g, List.mem_cons_of_mem _ hg, hx⟩
    · rcases List.mem_cons.mp hg with hg | hg
      · subst hg
        exact Or.inr ⟨(k, ms), List.mem_cons_self _ _, hx⟩
      · rcases ih hg with h | ⟨g0, hg0, h⟩
        · exact Or.inl h
        · exact Or.inr ⟨g0, List.mem_cons_of_mem _ hg0, h⟩

theorem groupByUE_mem (modules : List Module) (groups result : List (String × List Module))
    (h : groupByUE modules groups = .ok result) (g : String × List Module) (hg : g ∈ result)
    (x : Module) (hx : x ∈ g.2) : x ∈ modules ∨ ∃ g0 ∈ groups, x ∈ g0.2 := by
  induction modules generalizing groups with
  | nil =>
    simp only [groupByUE, Except.ok.injEq] at h
    subst h
    exact Or.inr ⟨g, hg, hx⟩
  | cons m rest ih =>
    simp only [groupByUE] at h
    split at h
    · exact absurd h (by simp)
    · rcases ih _ h with h1 | ⟨g0, hg0, h1⟩
      · exact Or.inl (List.mem_cons_of_mem _ h1)
      · rcases pushGroup_mem _ _ _ g0 hg0 x h1 with h2 | h2
        · exact Or.inl (h2 ▸ List.mem_cons_self _ _)
        · exact Or.inr h2

theorem objectKeysOrder_mem (groups : List (String × List Module)) (g : String × List Module)
    (hg : g ∈ objectKeysOrder groups) : g ∈ groups := by
  unfold objectKeysOrder at hg
  simp only [List.mem_append, List.mem_map, List.mem_filter] at hg
  rcases hg with ⟨x, hx, rfl⟩ | ⟨hg, _⟩
  · have hx' := (List.perm_insertionSort _ _).mem_iff.mp hx
    simp only [List.mem_filterMap, Option.map_eq_some'] at hx'
    obtain ⟨g0, hg0, n, _, rfl⟩ := hx'
    exact hg0
  · exact hg

theorem renderNodes_modules (modules : List Module) (nodes : List Node)
    (h : renderNodes modules = .ok nodes) (x : Module) (hx : x ∈ nodes.filterMap nodeModule) :
    x ∈ modules := by
  unfold renderNodes at h
  split at h
  · exact absurd h (by simp)
  · rename_i groups hgroups
    simp only [Except.ok.injEq] at h
    subst h
    simp only [List.mem_filterMap, List.mem_flatMap] at hx
    obtain ⟨node, ⟨g, hg, hnode⟩, hx⟩ := hx
    rcases List.mem_cons.mp hnode with hnode | hnode
    · subst hnode
      simp [nodeModule] at hx
    · simp only [List.mem_map] at hnode
      obtain ⟨m, hm, rfl⟩ := hnode
      simp only [nodeModule, createModuleCard, Option.some.injEq] at hx
      subst hx
      rcases groupByUE_mem modules [] groups hgroups g (objectKeysOrder_mem _ _ hg) m hm with
        h1 | ⟨g0, hg0, _⟩
      · exact h1
      · exact absurd hg0 (List.not_mem_nil _)

theorem shownModules_eq (s s' : WizardState) (h : s.modulesList = s'.modulesList) :
    shownModules s = shownModules s' := by
  unfold shownModules
  rw [h]

theorem onFetchData_modulesData (data : Payload) (s : WizardState) :
    (onFetchData data s).modulesData = (deliveredCatalog (.json data)).getD s.modulesData := by
  unfold onFetchData
  split
  · rename_i hs
    split
    · rename_i m ms hm
      have hd : deliveredCatalog (.json data) = some (m :: ms) := by
        simp [deliveredCatalog, hs, hm]
      rw [hd]
      rcases renderModules_frame (m :: ms) { hideLoading s with modulesData := m :: ms } with
        ⟨ml, h⟩ | ⟨e, ml, h⟩
      · simp only [h]
        simp [showModulesContainer, showNotification, hideLoading]
      · simp only [h]
        simp [onFetchError, showEmptyModules, showNotification, hideLoading]
    · rename_i hno
      have hd : deliveredCatalog (.json data) = none := by
        cases hmod : data.modules with
        | none => simp [deliveredCatalog, hs, hmod]
        | some l =>
          cases l with
          | nil => simp [deliveredCatalog, hs, hmod]
          | cons m ms => exact absurd hmod (hno m ms)
      rw [hd]
      simp [showEmptyModules, showNotification, hideLoading]
  · rename_i hs
    have hd : deliveredCatalog (.json data) = none := by
      simp [deliveredCatalog, hs]
    rw [hd]
    simp [showEmptyModules, showNotification, hideLoading]

theorem processResponse_modulesData (r : FetchResult) (s : WizardState) :
    (processResponse r s).modulesData = (deliveredCatalog r).getD s.modulesData := by
  cases r with
  | rejected message =>
    obtain ⟨d, n, h⟩ := onFetchError_frame message s
    simp only [processResponse, h, deliveredCatalog, Option.getD_none]
  | httpError status statusText =>
    obtain ⟨d, n, h⟩ := onFetchError_frame
      ("Erreur HTTP " ++ toString status ++ ": " ++ statusText) s
    simp only [processResponse, h, deliveredCatalog, Option.getD_none]
  | json data => exact onFetchData_modulesData data s

theorem renderModules_shown (modules : List Module) (s : WizardState) (x : Module) :
    (∀ s', renderModules modules s = .ok s' → x ∈ shownModules s' →
      x ∈ shownModules s ∨ x ∈ modules) ∧
    (∀ e s', renderModules modules s = .error (e, s') → x ∈ shownModules s' → False) := by
  unfold renderModules
  constructor
  · intro s' h hx
    split at h
    · simp only [Except.ok.injEq] at h
      subst h
      exact Or.inl hx
    · split at h
      · exact absurd h (by simp)
      · rename_i nodes hn
        simp only [Except.ok.injEq] at h
        subst h
        exact Or.inr (renderNodes_modules modules nodes hn x hx)
  · intro e s' h hx
    split at h
    · exact absurd h (by simp)
    · split at h
      · simp only [Except.error.injEq, Prod.mk.injEq] at h
        obtain ⟨_, h⟩ := h
        subst h
        simp [shownModules] at hx
      · exact absurd h (by simp)

theorem onFetchData_shown (data : Payload) (s : WizardState) (x : Module)
    (hx : x ∈ shownModules (onFetchData data s)) :
    x ∈ shownModules s ∨
      ∃ catalog, deliveredCatalog (.json data) = some catalog ∧ x ∈ catalog := by
  unfold onFetchData at hx
  split at hx
  · rename_i hs
    split at hx
    · rename_i m ms hm
      have hd : deliveredCatalog (.json data) = some (m :: ms) := by
        simp [deliveredCatalog, hs, hm]
      have key := renderModules_shown (m :: ms) { hideLoading s with modulesData := m :: ms } x
      cases hr : renderModules (m :: ms) { hideLoading s with modulesData := m :: ms } with
      | error p =>
        obtain ⟨message, s'⟩ := p
        simp only [hr] at hx
        exfalso
        apply key.2 message s' hr
        obtain ⟨d, n, hf⟩ := onFetchError_frame message s'
        rw [hf] at hx
        exact hx
      | ok s' =>
        simp only [hr] at hx
        have hx' : x ∈ shownModules s' := hx
        rcases key.1 s' hr hx' with h | h
        · exact Or.inl h
        · exact Or.inr ⟨_, hd, h⟩
    · exact Or.inl hx
  · exact Or.inl hx

theorem processResponse_shown (r : FetchResult) (s : WizardState) (x : Module)
    (hx : x ∈ shownModules (processResponse r s)) :
    x ∈ shownModules s ∨ ∃ catalog, deliveredCatalog r = some catalog ∧ x ∈ catalog := by
  cases r with
  | rejected message =>
    obtain ⟨d, n, h⟩ := onFetchError_frame message s
    simp only [processResponse, h] at hx
    exact Or.inl hx
  | httpError status statusText =>
    obtain ⟨d, n, h⟩ := onFetchError_frame
      ("Erreur HTTP " ++ toString status ++ ": " ++ statusText) s
    simp only [processResponse, h] at hx
    exact Or.inl hx
  | json data => exact onFetchData_shown data s x hx

/-! ## Selection invariant -/

theorem toggleSelected_mem (moduleId : String) (isSelected : Bool) (sel : List String)
    (x : String) (hx : x ∈ toggleSelected moduleId isSelected sel) : x ∈ sel ∨ x = moduleId := by
  unfold toggleSelected at hx
  split at hx
  · split at hx
    · exact Or.inl hx
    · simpa using hx
  · exact Or.inl (List.mem_of_mem_erase hx)

theorem filterMap_modify (f : Node → Node) (hf : ∀ n, nodeModule (f n) = nodeModule n)
    (nodes : List Node) (i : Nat) :
    (nodes.modify f i).filterMap nodeModule = nodes.filterMap nodeModule := by
  induction nodes generalizing i with
  | nil => cases i <;> rfl
  | cons hd tl ih =>
    cases i with
    | zero => simp [List.modify, List.filterMap_cons, hf]
    | succ j =>
      simp only [List.modify_succ_cons, List.filterMap_cons]
      rw [ih j]

theorem filterMap_set (nodes : List Node) (i : Nat) (old new : Node)
    (hget : nodes.get? i = some old) (hnew : nodeModule new = nodeModule old) :
    (nodes.set i new).filterMap nodeModule = nodes.filterMap nodeModule := by
  induction nodes generalizing i with
  | nil => cases i <;> rfl
  | cons hd tl ih =>
    cases i with
    | zero =>
      simp only [List.get?_cons_zero, Option.some.injEq] at hget
      subst hget
      simp [List.filterMap_cons, hnew]
    | succ j =>
      simp only [List.get?_cons_succ] at hget
      simp only [List.set_cons_succ, List.filterMap_cons]
      rw [ih j hget]

theorem markCard_module (b : Bool) (n : Node) : nodeModule (markCard b n) = nodeModule n := by
  cases n <;> rfl

theorem selectionFrom_mono {L L' : List (List Module)} {s : WizardState}
    (h : SelectionFrom L s) (hL : ∀ c ∈ L, c ∈ L') : SelectionFrom L' s := by
  refine ⟨fun id hid => ?_, fun m hm => ?_⟩
  · obtain ⟨mods, hmods, h'⟩ := h.1 id hid
    exact ⟨mods, hL mods hmods, h'⟩
  · obtain ⟨mods, hmods, h'⟩ := h.2 m hm
    exact ⟨mods, hL mods hmods, h'⟩

theorem selectionFrom_of_eq {L : List (List Module)} {s s' : WizardState}
    (h : SelectionFrom L s) (h1 : s'.selectedModules = s.selectedModules)
    (h2 : s'.modulesList = s.modulesList) : SelectionFrom L s' := by
  unfold SelectionFrom
  rw [h1, shownModules_eq s' s h2]
  exact h

theorem requestsWith_selection {P : Int → Prop} {s s' : WizardState}
    (h : RequestsWith P s s') :
    s'.selectedModules = s.selectedModules ∧ s'.modulesList = s.modulesList := by
  obtain ⟨n, hi, ov, sb, h⟩ := h
  rcases h with h | ⟨c, k, _, _, _, h⟩ <;> rw [h] <;> exact ⟨rfl, rfl⟩

theorem step_selectionFrom (L : List (List Module)) (e : Event) (s : WizardState)
    (h : SelectionFrom L s) : SelectionFrom (L ++ storedBy e s) (step e s) := by
  have hL : ∀ c ∈ L, c ∈ L ++ storedBy e s := fun c hc => List.mem_append_left _ hc
  cases e with
  | professeurChange opt =>
    obtain ⟨p, b, hf⟩ := handleProfesseurChange_frame opt s
    exact selectionFrom_of_eq (selectionFrom_mono h hL) (by simp only [step, hf])
      (by simp only [step, hf])
  | classeChange opt =>
    obtain ⟨c, t, b, hf⟩ := handleClasseChange_frame opt s
    exact selectionFrom_of_eq (selectionFrom_mono h hL) (by simp only [step, hf])
      (by simp only [step, hf])
  | click id =>
    have := requestsWith_selection (clickButton_requests id s)
    exact selectionFrom_of_eq (selectionFrom_mono h hL) this.1 this.2
  | keydown key b =>
    have := requestsWith_selection (handleKeyboardShortcuts_requests key b s)
    exact selectionFrom_of_eq (selectionFrom_mono h hL) this.1 this.2
  | submit =>
    have := requestsWith_selection (submitEvent_requestsWith s)
    exact selectionFrom_of_eq (selectionFrom_mono h hL) this.1 this.2
  | callShowStep k =>
    have hreq : Requests s (showStep k s) := showStep_requestsWith k s trivial
    have := requestsWith_selection hreq
    exact selectionFrom_of_eq (selectionFrom_mono h hL) this.1 this.2
  | timeout i =>
    cases hp : s.pendingSteps.get? i with
    | none =>
      exact selectionFrom_of_eq (selectionFrom_mono h hL) (by simp only [step, hp])
        (by simp only [step, hp])
    | some p =>
      obtain ⟨c, t, r, d, f, hf⟩ := stepTimeout_frame p
        { s with pendingSteps := s.pendingSteps.eraseIdx i }
      exact selectionFrom_of_eq (selectionFrom_mono h hL) (by simp only [step, hp, hf])
        (by simp only [step, hp, hf])
  | cardClick i =>
    rcases handleModuleCardClick_frame i s with hf | ⟨nodes, c, t, b, l, hn, hc, hf⟩
    · exact selectionFrom_of_eq (selectionFrom_mono h hL) (by simp only [step, hf])
        (by simp only [step, hf])
    · have hshown : shownModules (step (.cardClick i) s) = shownModules s := by
        simp only [step, hf, shownModules, hn]
        rw [filterMap_modify _ (markCard_module _)]
        exact filterMap_set nodes i (.card c) _ hc rfl
      have hcard : c.module ∈ shownModules s := by
        simp only [shownModules, hn, List.mem_filterMap]
        exact ⟨.card c, List.get?_mem hc, rfl⟩
      refine selectionFrom_mono ⟨fun id hid => ?_, fun m hm => ?_⟩ hL
      · simp only [step, hf] at hid
        rcases toggleSelected_mem _ _ _ _ hid with hid | hid
        · exact h.1 id hid
        · obtain ⟨mods, hmods, hm⟩ := h.2 c.module hcard
          exact ⟨mods, hmods, c.module, hm, hid.symm⟩
      · rw [hshown] at hm
        exact h.2 m hm
  | response i r =>
    cases hp : s.pendingFetches.get? i with
    | none =>
      exact selectionFrom_of_eq (selectionFrom_mono h hL) (by simp only [step, hp])
        (by simp only [step, hp])
    | some a =>
      obtain ⟨d, n, md, ml, hf⟩ := processResponse_frame r
        { s with pendingFetches := s.pendingFetches.eraseIdx i }
      refine ⟨fun id hid => ?_, fun m hm => ?_⟩
      · simp only [step, hp, hf] at hid
        obtain ⟨mods, hmods, h'⟩ := h.1 id hid
        exact ⟨mods, hL mods hmods, h'⟩
      · simp only [step, hp] at hm
        rcases processResponse_shown r _ m hm with h1 | ⟨catalog, hcat, h1⟩
        · obtain ⟨mods, hmods, h'⟩ := h.2 m h1
          exact ⟨mods, hL mods hmods, h'⟩
        · refine ⟨catalog, ?_, h1⟩
          simp only [storedBy, hp, hcat, List.mem_append, List.mem_singleton, or_true]

theorem run_selectionFrom (events : List Event) (L : List (List Module)) (s : WizardState)
    (h : SelectionFrom L s) : SelectionFrom (L ++ catalogsStored events s) (run events s) := by
  induction events generalizing L s with
  | nil => simpa [catalogsStored, run] using h
  | cons e rest ih =>
    have := ih (L ++ storedBy e s) (step e s) (step_selectionFrom L e s h)
    simpa [catalogsStored, run, List.append_assoc] using this

/-! ## Element lemmas -/

theorem getById_setById_same {α : Type} (k : String) (v : α) (l : List (String × α)) :
    getById k (setById k v l) = (getById k l).map (fun _ => v) := by
  induction l with
  | nil => rfl
  | cons hd tl ih =>
    obtain ⟨k', w⟩ := hd
    by_cases h : k' = k
    · simp [setById, getById, h]
    · simp [setById, getById, h, ih]

theorem getById_setById_ne {α : Type} (k k' : String) (v : α) (l : List (String × α))
    (hne : k ≠ k') : getById k (setById k' v l) = getById k l := by
  induction l with
  | nil => rfl
  | cons hd tl ih =>
    obtain ⟨k'', w⟩ := hd
    by_cases h : k'' = k'
    · subst h
      have h2 : ¬ k'' = k := fun h2 => hne h2.symm
      simp [setById, getById, h2]
    · by_cases h2 : k'' = k
      · subst h2
        simp [setById, getById, h]
      · simp [setById, getById, h, h2, ih]

theorem showEmptyModules_area (s : WizardState) :
    EmptyShown s.dNone (showEmptyModules s).dNone := by
  simp only [EmptyShown, showEmptyModules]
  refine ⟨?_, ?_, ?_⟩
  · rw [getById_setById_ne _ _ _ _ (by decide), getById_setById_ne _ _ _ _ (by decide),
      getById_setById_same]
  · rw [getById_setById_ne _ _ _ _ (by decide), getById_setById_same,
      getById_setById_ne _ _ _ _ (by decide)]
  · rw [getById_setById_same, getById_setById_ne _ _ _ _ (by decide),
      getById_setById_ne _ _ _ _ (by decide)]

theorem showModulesContainer_area (s : WizardState) :
    ContainerShown s.dNone (showModulesContainer s).dNone := by
  simp only [ContainerShown, showModulesContainer]
  refine ⟨?_, ?_, ?_⟩
  · rw [getById_setById_ne _ _ _ _ (by decide), getById_setById_same,
      getById_setById_ne _ _ _ _ (by decide)]
  · rw [getById_setById_ne _ _ _ _ (by decide), getById_setById_ne _ _ _ _ (by decide),
      getById_setById_same]
  · rw [getById_setById_same, getById_setById_ne _ _ _ _ (by decide),
      getById_setById_ne _ _ _ _ (by decide)]

theorem showLoading_area (s : WizardState) :
    LoadingShown s.dNone (showLoading s).dNone := by
  simp only [LoadingShown, showLoading]
  refine ⟨?_, ?_, ?_⟩
  · rw [getById_setById_ne _ _ _ _ (by decide), getById_setById_ne _ _ _ _ (by decide),
      getById_setById_same]
  · rw [getById_setById_ne _ _ _ _ (by decide), getById_setById_same,
      getById_setById_ne _ _ _ _ (by decide)]
  · rw [getById_setById_same, getById_setById_ne _ _ _ _ (by decide),
      getById_setById_ne _ _ _ _ (by decide)]

theorem hideLoading_area (s : WizardState) :
    getById "modules-loading" (hideLoading s).dNone =
      (getById "modules-loading" s.dNone).map (fun _ => true) ∧
    getById "modules-container" (hideLoading s).dNone = getById "modules-container" s.dNone ∧
    getById "modules-empty" (hideLoading s).dNone = getById "modules-empty" s.dNone := by
  simp only [hideLoading]
  exact ⟨getById_setById_same _ _ _, getById_setById_ne _ _ _ _ (by decide),
    getById_setById_ne _ _ _ _ (by decide)⟩

theorem emptyShown_after_hide {d0 d1 d2 : List (String × Bool)}
    (h1 : getById "modules-loading" d1 = (getById "modules-loading" d0).map (fun _ => true) ∧
      getById "modules-container" d1 = getById "modules-container" d0 ∧
      getById "modules-empty" d1 = getById "modules-empty" d0)
    (h2 : EmptyShown d1 d2) : EmptyShown d0 d2 := by
  obtain ⟨a1, a2, a3⟩ := h1
  obtain ⟨b1, b2, b3⟩ := h2
  refine ⟨?_, ?_, ?_⟩
  · rw [b1, a1, Option.map_map]; rfl
  · rw [b2, a2]
  · rw [b3, a3]

theorem containerShown_after_hide {d0 d1 d2 : List (String × Bool)}
    (h1 : getById "modules-loading" d1 = (getById "modules-loading" d0).map (fun _ => true) ∧
      getById "modules-container" d1 = getById "modules-container" d0 ∧
      getById "modules-empty" d1 = getById "modules-empty" d0)
    (h2 : ContainerShown d1 d2) : ContainerShown d0 d2 := by
  obtain ⟨a1, a2, a3⟩ := h1
  obtain ⟨b1, b2, b3⟩ := h2
  refine ⟨?_, ?_, ?_⟩
  · rw [b1, a1, Option.map_map]; rfl
  · rw [b2, a2]
  · rw [b3, a3]

theorem onFetchError_area (message : String) (s : WizardState) :
    EmptyShown s.dNone (onFetchError message s).dNone := by
  have h1 := hideLoading_area s
  have h2 := showEmptyModules_area (hideLoading s)
  exact emptyShown_after_hide h1 h2

theorem onFetchError_notices (message : String) (s : WizardState) :
    (onFetchError message s).notices =
      s.notices ++ [⟨"Erreur lors du chargement des modules: " ++ message, "danger"⟩] := rfl

/-! ## Response lemmas -/

theorem onFetchData_area (data : Payload) (s : WizardState) :
    EmptyShown s.dNone (onFetchData data s).dNone ∨
      ContainerShown s.dNone (onFetchData data s).dNone := by
  have h1 := hideLoading_area s
  unfold onFetchData
  split
  · split
    · rename_i m ms hm
      cases hr : renderModules (m :: ms) { hideLoading s with modulesData := m :: ms } with
      | error p =>
        obtain ⟨message, s'⟩ := p
        simp only [hr]
        rcases renderModules_frame (m :: ms) { hideLoading s with modulesData := m :: ms } with
          ⟨ml, h⟩ | ⟨e, ml, h⟩
        · rw [h] at hr; exact absurd hr (by simp)
        · rw [h] at hr
          simp only [Except.error.injEq, Prod.mk.injEq] at hr
          obtain ⟨_, hs'⟩ := hr
          subst hs'
          left
          have h2 := onFetchError_area message
            { { hideLoading s with modulesData := m :: ms } with modulesList := ml }
          exact emptyShown_after_hide h1 h2
      | ok s' =>
        simp only [hr]
        rcases renderModules_frame (m :: ms) { hideLoading s with modulesData := m :: ms } with
          ⟨ml, h⟩ | ⟨e, ml, h⟩
        · rw [h] at hr
          simp only [Except.ok.injEq] at hr
          subst hr
          right
          have h2 := showModulesContainer_area
            { { hideLoading s with modulesData := m :: ms } with modulesList := ml }
          exact containerShown_after_hide h1 h2
        · rw [h] at hr; exact absurd hr (by simp)
    · left
      exact emptyShown_after_hide h1 (showEmptyModules_area (hideLoading s))
  · left
    exact emptyShown_after_hide h1 (showEmptyModules_area (hideLoading s))

theorem processResponse_area (r : FetchResult) (s : WizardState) :
    EmptyShown s.dNone (processResponse r s).dNone ∨
      ContainerShown s.dNone (processResponse r s).dNone := by
  cases r with
  | rejected message => exact Or.inl (onFetchError_area message s)
  | httpError status statusText => exact Or.inl (onFetchError_area _ s)
  | json data => exact onFetchData_area data s

theorem visibleCount_of_emptyShown (s s' : WizardState) (hp : ModuleAreaPresent s)
    (h : EmptyShown s.dNone s'.dNone) : visibleCount s' = 1 := by
  obtain ⟨h1, h2, h3⟩ := h
  have p1 := hp "modules-loading" (by decide)
  have p2 := hp "modules-container" (by decide)
  have p3 := hp "modules-empty" (by decide)
  obtain ⟨a, ha⟩ := Option.isSome_iff_exists.mp p1
  obtain ⟨b, hb⟩ := Option.isSome_iff_exists.mp p2
  obtain ⟨c, hc⟩ := Option.isSome_iff_exists.mp p3
  rw [ha] at h1
  rw [hb] at h2
  rw [hc] at h3
  simp [visibleCount, moduleAreaIds, h1, h2, h3]

theorem visibleCount_of_containerShown (s s' : WizardState) (hp : ModuleAreaPresent s)
    (h : ContainerShown s.dNone s'.dNone) : visibleCount s' = 1 := by
  obtain ⟨h1, h2, h3⟩ := h
  have p1 := hp "modules-loading" (by decide)
  have p2 := hp "modules-container" (by decide)
  have p3 := hp "modules-empty" (by decide)
  obtain ⟨a, ha⟩ := Option.isSome_iff_exists.mp p1
  obtain ⟨b, hb⟩ := Option.isSome_iff_exists.mp p2
  obtain ⟨c, hc⟩ := Option.isSome_iff_exists.mp p3
  rw [ha] at h1
  rw [hb] at h2
  rw [hc] at h3
  simp [visibleCount, moduleAreaIds, h1, h2, h3]

theorem visibleCount_of_loadingShown (s s' : WizardState) (hp : ModuleAreaPresent s)
    (h : LoadingShown s.dNone s'.dNone) : visibleCount s' = 1 := by
  obtain ⟨h1, h2, h3⟩ := h
  have p1 := hp "modules-loading" (by decide)
  have p2 := hp "modules-container" (by decide)
  have p3 := hp "modules-empty" (by decide)
  obtain ⟨a, ha⟩ := Option.isSome_iff_exists.mp p1
  obtain ⟨b, hb⟩ := Option.isSome_iff_exists.mp p2
  obtain ⟨c, hc⟩ := Option.isSome_iff_exists.mp p3
  rw [ha] at h1
  rw [hb] at h2
  rw [hc] at h3
  simp [visibleCount, moduleAreaIds, h1, h2, h3]

theorem visibleCount_hide_after_loading (s : WizardState) :
    visibleCount (hideLoading (showLoading s)) = 0 := by
  have h := showLoading_area s
  have h' := hideLoading_area (showLoading s)
  obtain ⟨h1, h2, h3⟩ := h
  obtain ⟨g1, g2, g3⟩ := h'
  rw [h1] at g1
  rw [h2] at g2
  rw [h3] at g3
  have e1 : getById "modules-loading" (hideLoading (showLoading s)).dNone ≠ some false := by
    rw [g1]; cases getById "modules-loading" s.dNone <;> simp
  have e2 : getById "modules-container" (hideLoading (showLoading s)).dNone ≠ some false := by
    rw [g2]; cases getById "modules-container" s.dNone <;> simp
  have e3 : getById "modules-empty" (hideLoading (showLoading s)).dNone ≠ some false := by
    rw [g3]; cases getById "modules-empty" s.dNone <;> simp
  simp [visibleCount, moduleAreaIds, e1, e2, e3]

/-! ## Totals lemmas -/

theorem foldl_found_sum (f : Module → Nat) (data : List Module) (sel : List String)
    (acc : Nat) :
    sel.foldl (fun acc moduleId =>
        match findModule data moduleId with
        | some m => acc + f m
        | none => acc) acc =
      acc + ((sel.filterMap (findModule data)).map f).sum := by
  induction sel generalizing acc with
  | nil => simp
  | cons id rest ih =>
    rw [List.foldl_cons, ih]
    cases h : findModule data id with
    | none => simp [List.filterMap_cons, h]
    | some m => simp [List.filterMap_cons, h, Nat.add_assoc]

theorem totalHours_eq_sum (sel : List String) (data : List Module) :
    totalHours sel data = ((sel.filterMap (findModule data)).map moduleHours).sum := by
  unfold totalHours
  have := foldl_found_sum moduleHours data sel 0
  simpa [moduleHours] using this

theorem totalAmount_eq_sum (sel : List String) (data : List Module) :
    totalAmount sel data =
      ((sel.filterMap (findModule data)).map calculateModuleMontant).sum := by
  unfold totalAmount
  have := foldl_found_sum calculateModuleMontant data sel 0
  simpa using this

theorem totalHours_perm {sel sel' : List String} (h : sel.Perm sel') (data : List Module) :
    totalHours sel data = totalHours sel' data := by
  rw [totalHours_eq_sum, totalHours_eq_sum]
  exact ((h.filterMap _).map _).sum_eq

theorem totalAmount_perm {sel sel' : List String} (h : sel.Perm sel') (data : List Module) :
    totalAmount sel data = totalAmount sel' data := by
  rw [totalAmount_eq_sum, totalAmount_eq_sum]
  exact ((h.filterMap _).map _).sum_eq

theorem toggleSelected_comm (a b : String) (fa fb : Bool) (sel : List String) (hab : a ≠ b) :
    (toggleSelected a fa (toggleSelected b fb sel)).Perm
      (toggleSelected b fb (toggleSelected a fa sel)) := by
  have hba : b ≠ a := fun h => hab h.symm
  cases fa <;> cases fb
  · simp only [toggleSelected, Bool.false_eq_true, if_false]
    rw [List.erase_comm]
  · simp only [toggleSelected, Bool.false_eq_true, if_false, if_true]
    by_cases hb : b ∈ sel
    · have hb' : b ∈ sel.erase a := (List.mem_erase_of_ne hba).mpr hb
      simp [hb, hb']
    · have hb' : b ∉ sel.erase a := fun h => hb (List.mem_of_mem_erase h)
      simp only [hb, hb', if_false]
      by_cases ha : a ∈ sel
      · rw [List.erase_append_left _ ha]
      · rw [List.erase_append_right _ ha, List.erase_of_not_mem ha]
        simp [List.erase_cons_tail, hba]
  · simp only [toggleSelected, Bool.false_eq_true, if_false, if_true]
    by_cases ha : a ∈ sel
    · have ha' : a ∈ sel.erase b := (List.mem_erase_of_ne hab).mpr ha
      simp [ha, ha']
    · have ha' : a ∉ sel.erase b := fun h => ha (List.mem_of_mem_erase h)
      simp only [ha, ha', if_false]
      by_cases hb : b ∈ sel
      · rw [List.erase_append_left _ hb]
      · rw [List.erase_append_right _ hb, List.erase_of_not_mem hb]
        simp [List.erase_cons_tail, hab]
  · simp only [toggleSelected, if_true]
    by_cases ha : a ∈ sel <;> by_cases hb : b ∈ sel
    · simp [ha, hb]
    · simp [ha, hb]
    · simp [ha, hb]
    · simp only [ha, hb, if_false, List.mem_append, List.mem_singleton,
        hab, hba, or_self]
      rw [List.append_assoc, List.append_assoc]
      exact List.Perm.append_left _ (List.Perm.swap _ _ _)

theorem updateModuleSelection_summary (s : WizardState) :
    summaryTexts (updateModuleSelection s) =
      [(getById "selected-count" s.texts).map (fun _ => toString s.selectedModules.length),
       (getById "summary-total-hours" s.texts).map
          (fun _ => toFixed1 (totalHours s.selectedModules s.modulesData)),
       (getById "summary-total-amount" s.texts).map
          (fun _ => formatMoney (totalAmount s.selectedModules s.modulesData) false)] := by
  have key : (updateModuleSelection s).texts =
      setById "summary-total-amount"
        (formatMoney (totalAmount s.selectedModules s.modulesData) false)
        (setById "summary-total-hours"
          (toFixed1 (totalHours s.selectedModules s.modulesData))
          (setById "selected-count" (toString s.selectedModules.length) s.texts)) := by
    simp only [updateModuleSelection, updateSelectedCount, updateSelectedList,
      updateTotalHours, updateTotalAmount, safeSetText, enableButton, disableButton]
    split <;> split <;> (try split) <;> rfl
  simp only [summaryTexts, key]
  rw [getById_setById_ne _ _ _ _ (by decide), getById_setById_ne _ _ _ _ (by decide),
    getById_setById_same, getById_setById_ne _ _ _ _ (by decide), getById_setById_same,
    getById_setById_ne _ _ _ _ (by decide), getById_setById_same,
    getById_setById_ne _ _ _ _ (by decide), getById_setById_ne _ _ _ _ (by decide)]

theorem toggleModuleSelection_modulesData (moduleId : String) (isSelected : Bool)
    (card : Nat) (s : WizardState) :
    (toggleModuleSelection moduleId isSelected card s).modulesData = s.modulesData := by
  obtain ⟨t, b, l, h⟩ := toggleModuleSelection_frame moduleId isSelected card s
  rw [h]

theorem toggleModuleSelection_summary (moduleId : String) (isSelected : Bool) (card : Nat)
    (s : WizardState) :
    summaryTexts (toggleModuleSelection moduleId isSelected card s) =
      [(getById "selected-count" s.texts).map
          (fun _ => toString (toggleSelected moduleId isSelected s.selectedModules).length),
       (getById "summary-total-hours" s.texts).map
          (fun _ => toFixed1
            (totalHours (toggleSelected moduleId isSelected s.selectedModules) s.modulesData)),
       (getById "summary-total-amount" s.texts).map
          (fun _ => formatMoney
            (totalAmount (toggleSelected moduleId isSelected s.selectedModules) s.modulesData)
            false)] := by
  unfold toggleModuleSelection
  rw [updateModuleSelection_summary]

theorem findModule_some {data : List Module} {id : String} {m : Module}
    (h : findModule data id = some m) : m ∈ data ∧ m.id.toJsString = id := by
  unfold findModule at h
  refine ⟨List.mem_of_find?_eq_some h, ?_⟩
  have := List.find?_some h
  simpa using this

theorem findModule_of_mem {data : List Module} (hd : DistinctIds data) {m : Module}
    (hm : m ∈ data) : findModule data m.id.toJsString = some m := by
  cases h : findModule data m.id.toJsString with
  | none =>
    unfold findModule at h
    rw [List.find?_eq_none] at h
    have := h m hm
    simp at this
  | some m' =>
    obtain ⟨hm', hid⟩ := findModule_some h
    have := List.inj_on_of_nodup_map hd hm' hm hid
    rw [this]

theorem found_perm_specSelected (sel : List String) (data : List Module)
    (hd : DistinctIds data) (hs : sel.Nodup) :
    (sel.filterMap (findModule data)).Perm (specSelected sel data) := by
  have hdata : data.Nodup := List.Nodup.of_map _ hd
  apply (List.perm_ext_iff_of_nodup ?_ ?_).mpr
  · intro m
    simp only [List.mem_filterMap, specSelected, List.mem_filter, decide_eq_true_eq]
    constructor
    · rintro ⟨id, hid, hf⟩
      obtain ⟨hm, he⟩ := findModule_some hf
      exact ⟨hm, he ▸ hid⟩
    · rintro ⟨hm, hid⟩
      exact ⟨_, hid, findModule_of_mem hd hm⟩
  · refine List.Nodup.filterMap ?_ hs
    intro a a' b hb hb'
    have h1 := (findModule_some (Option.mem_def.mp hb)).2
    have h2 := (findModule_some (Option.mem_def.mp hb')).2
    rw [← h1, ← h2]
  · exact hdata.filter _

theorem totalHours_eq_spec (sel : List String) (data : List Module)
    (hd : DistinctIds data) (hs : sel.Nodup) :
    totalHours sel data = specTotalHours sel data := by
  rw [totalHours_eq_sum]
  exact ((found_perm_specSelected sel data hd hs).map _).sum_eq

theorem totalAmount_eq_spec (sel : List String) (data : List Module)
    (hd : DistinctIds data) (hs : sel.Nodup) :
    totalAmount sel data = specTotalAmount sel data := by
  rw [totalAmount_eq_sum]
  exact ((found_perm_specSelected sel data hd hs).map _).sum_eq

theorem digitChar_ne_separator (d : Nat) (hd : d < 10) :
    Nat.digitChar d ≠ Char.ofNat 8239 := by
  interval_cases d <;> decide

theorem toDigitsCore_no_separator (fuel n : Nat) (ds : List Char)
    (hds : ∀ c ∈ ds, c ≠ Char.ofNat 8239) :
    ∀ c ∈ Nat.toDigitsCore 10 fuel n ds, c ≠ Char.ofNat 8239 := by
  induction fuel generalizing n ds with
  | zero => simpa [Nat.toDigitsCore] using hds
  | succ fuel ih =>
    have hcons : ∀ c ∈ Nat.digitChar (n % 10) :: ds, c ≠ Char.ofNat 8239 := by
      intro c hc
      rcases List.mem_cons.mp hc with hc | hc
      · rw [hc]; exact digitChar_ne_separator _ (Nat.mod_lt _ (by decide))
      · exact hds c hc
    simp only [Nat.toDigitsCore]
    split
    · exact hcons
    · exact ih _ _ hcons

theorem toString_no_separator (n : Nat) :
    ∀ c ∈ (toString n).data, c ≠ Char.ofNat 8239 := by
  intro c hc
  have : (toString n).data = Nat.toDigits 10 n := rfl
  rw [this] at hc
  exact toDigitsCore_no_separator _ _ [] (fun _ h => absurd h (List.not_mem_nil _)) c hc

theorem groupRev_filter (l : List Char) :
    (groupRev l).filter (fun c => decide (c ≠ Char.ofNat 8239)) =
      l.filter (fun c => decide (c ≠ Char.ofNat 8239)) := by
  induction l using groupRev.induct with
  | case1 a b c d rest ih =>
    have e1 : groupRev (a :: b :: c :: d :: rest) =
        [a, b, c] ++ ([Char.ofNat 8239] ++ groupRev (d :: rest)) := by
      rw [groupRev]
      rfl
    have e2 : a :: b :: c :: d :: rest = [a, b, c] ++ (d :: rest) := rfl
    have e3 : List.filter (fun c => decide (c ≠ Char.ofNat 8239)) [Char.ofNat 8239] = [] := by
      decide
    rw [e1, e2, List.filter_append, List.filter_append, List.filter_append, ih, e3]
    rfl
  | case2 l h =>
    unfold groupRev
    split
    · rename_i a b c d rest
      exact absurd rfl (h a b c d rest)
    · rfl

theorem formatMoney_digits (n : Nat) :
    (formatMoney n false).data.filter (fun c => decide (c ≠ Char.ofNat 8239)) =
      (toString n).data := by
  simp only [formatMoney, Bool.false_eq_true, if_false]
  rw [List.filter_reverse, groupRev_filter, ← List.filter_reverse, List.reverse_reverse]
  exact List.filter_eq_self.mpr (fun c hc => by simpa using toString_no_separator n c hc)

/-! ## Grouping lemmas -/

theorem mem_firstOccurrences (l : List String) (x : String) :
    x ∈ firstOccurrences l ↔ x ∈ l := by
  induction l with
  | nil => simp [firstOccurrences]
  | cons a t ih =>
    simp only [firstOccurrences, List.mem_cons, List.mem_filter, decide_eq_true_eq, ih]
    constructor
    · rintro (h | ⟨h, _⟩)
      · exact Or.inl h
      · exact Or.inr h
    · intro h
      by_cases hx : x = a
      · exact Or.inl hx
      · rcases h with h | h
        · exact absurd h hx
        · exact Or.inr ⟨h, hx⟩

theorem nodup_firstOccurrences (l : List String) : (firstOccurrences l).Nodup := by
  induction l with
  | nil => simp [firstOccurrences]
  | cons a t ih =>
    simp only [firstOccurrences, List.nodup_cons, List.mem_filter, decide_eq_true_eq]
    exact ⟨fun h => h.2 rfl, ih.filter _⟩

theorem firstOccurrences_snoc (l : List String) (a : String) :
    firstOccurrences (l ++ [a]) =
      if a ∈ l then firstOccurrences l else firstOccurrences l ++ [a] := by
  induction l with
  | nil => simp [firstOccurrences]
  | cons b t ih =>
    rw [List.cons_append, firstOccurrences, firstOccurrences, ih]
    by_cases hat : a ∈ t
    · simp [hat]
    · by_cases hab : a = b
      · subst hab
        simp [hat, List.filter_append]
      · have hba : ¬ b = a := fun h => hab h.symm
        simp [hat, hab, hba, List.filter_append]

theorem pushGroup_map (us : List String) (f : String → List Module) (k : String)
    (m : Module) (hus : us.Nodup) :
    pushGroup k m (us.map (fun u => (u, f u))) =
      if k ∈ us then us.map (fun u => (u, if u = k then f u ++ [m] else f u))
      else us.map (fun u => (u, f u)) ++ [(k, [m])] := by
  induction us with
  | nil => simp [pushGroup]
  | cons u t ih =>
    obtain ⟨hu, ht⟩ := List.nodup_cons.mp hus
    simp only [List.map_cons, pushGroup]
    by_cases huk : u = k
    · subst huk
      simp only [if_true, List.mem_cons, true_or]
      congr 1
      apply List.map_congr_left
      intro x hx
      have : x ≠ u := fun h => hu (h ▸ hx)
      simp [this]
    · have hku : ¬ k = u := fun h => huk h.symm
      simp only [huk, if_false, ih ht, List.mem_cons, hku, false_or]
      by_cases hkt : k ∈ t
      · simp [hkt]
      · simp [hkt]

theorem pushGroup_groupsOf (pre : List Module) (m : Module) :
    pushGroup (ueNomOf m) m (groupsOf pre) = groupsOf (pre ++ [m]) := by
  unfold groupsOf
  rw [pushGroup_map _ _ _ _ (nodup_firstOccurrences _), List.map_append, List.map_singleton,
    firstOccurrences_snoc]
  simp only [mem_firstOccurrences]
  by_cases hk : ueNomOf m ∈ pre.map ueNomOf
  · simp only [hk, if_true]
    apply List.map_congr_left
    intro u _
    by_cases hu : u = ueNomOf m
    · subst hu
      simp [List.filter_append]
    · have hu' : ¬ ueNomOf m = u := fun h => hu h.symm
      simp [List.filter_append, hu, hu']
  · simp only [hk, if_false, List.map_append, List.map_singleton]
    congr 1
    · apply List.map_congr_left
      intro u hu
      have hne : ¬ ueNomOf m = u := by
        intro h
        rw [mem_firstOccurrences] at hu
        exact hk (h ▸ hu)
      simp [List.filter_append, hne]
    · have hnone : pre.filter (fun x => decide (ueNomOf x = ueNomOf m)) = [] := by
        rw [List.filter_eq_nil_iff]
        intro x hx
        simp only [decide_eq_true_eq]
        intro h
        exact hk (List.mem_map.mpr ⟨x, hx, h⟩)
      simp [List.filter_append, hnone]

theorem groupByUE_groupsOf (rest pre : List Module)
    (h : ∀ m ∈ rest, ueNomOf m ∉ objectPrototypeKeys) :
    groupByUE rest (groupsOf pre) = .ok (groupsOf (pre ++ rest)) := by
  induction rest generalizing pre with
  | nil => simp [groupByUE]
  | cons m t ih =>
    have hm := h m (List.mem_cons_self _ _)
    simp only [groupByUE, hm, if_false]
    rw [pushGroup_groupsOf, ih _ (fun x hx => h x (List.mem_cons_of_mem _ hx))]
    simp

theorem objectKeysOrder_plain (groups : List (String × List Module))
    (h : ∀ g ∈ groups, arrayIndex g.1 = none) : objectKeysOrder groups = groups := by
  unfold objectKeysOrder
  have h1 : groups.filterMap (fun g => (arrayIndex g.1).map (fun n => (n, g))) = [] := by
    rw [List.filterMap_eq_nil_iff]
    intro g hg
    simp [h g hg]
  have h2 : groups.filter (fun g => (arrayIndex g.1).isNone) = groups := by
    rw [List.filter_eq_self]
    intro g hg
    simp [h g hg]
  simp only [h1, h2]
  rfl

theorem renderNodes_plain (modules : List Module) (h : PlainUnitNames modules) :
    renderNodes modules = .ok (specRender modules) := by
  have hg : groupByUE modules [] = .ok (groupsOf modules) := by
    have := groupByUE_groupsOf modules [] (fun m hm => (h m hm).1)
    simpa [groupsOf, firstOccurrences] using this
  have hplain : ∀ g ∈ groupsOf modules, arrayIndex g.1 = none := by
    intro g hg'
    simp only [groupsOf, List.mem_map, mem_firstOccurrences] at hg'
    obtain ⟨u, ⟨m, hm, hu⟩, rfl⟩ := hg'
    rw [← hu]
    exact (h m hm).2
  simp only [renderNodes, hg, objectKeysOrder_plain _ hplain]
  simp only [groupsOf, specRender, List.flatMap_def, List.map_map]
  rfl

theorem filter_mem_cons_perm (l : List Module) (a : String) (t : List String)
    (ha : a ∉ t) :
    (l.filter (fun m => decide (ueNomOf m = a ∨ ueNomOf m ∈ t))).Perm
      (l.filter (fun m => decide (ueNomOf m = a)) ++
        l.filter (fun m => decide (ueNomOf m ∈ t))) := by
  induction l with
  | nil => simp
  | cons m rest ih =>
    by_cases h1 : ueNomOf m = a
    · have h2 : ueNomOf m ∉ t := h1 ▸ ha
      rw [List.filter_cons_of_pos (by simp [h1]), List.filter_cons_of_pos (by simp [h1]),
        List.filter_cons_of_neg (by simp [h2]), List.cons_append]
      exact List.Perm.cons _ ih
    · by_cases h2 : ueNomOf m ∈ t
      · rw [List.filter_cons_of_pos (by simp [h2]), List.filter_cons_of_neg (by simp [h1]),
          List.filter_cons_of_pos (by simp [h2])]
        exact (List.Perm.cons _ ih).trans List.perm_middle.symm
      · rw [List.filter_cons_of_neg (by simp [h1, h2]),
          List.filter_cons_of_neg (by simp [h1]), List.filter_cons_of_neg (by simp [h2])]
        exact ih

theorem flatMap_filter_perm (l : List Module) (us : List String) (hus : us.Nodup) :
    (us.flatMap (fun u => l.filter (fun m => decide (ueNomOf m = u)))).Perm
      (l.filter (fun m => decide (ueNomOf m ∈ us))) := by
  induction us with
  | nil => simp
  | cons a t ih =>
    obtain ⟨ha, ht⟩ := List.nodup_cons.mp hus
    have e : (fun m => decide (ueNomOf m ∈ a :: t)) =
        (fun m => decide (ueNomOf m = a ∨ ueNomOf m ∈ t)) := by
      funext m
      simp
    rw [List.flatMap_cons, e]
    exact ((ih ht).append_left _).trans (filter_mem_cons_perm l a t ha).symm

theorem specRender_modules (modules : List Module) :
    (specRender modules).filterMap nodeModule =
      (firstOccurrences (modules.map ueNomOf)).flatMap
        (fun u => modules.filter (fun m => decide (ueNomOf m = u))) := by
  unfold specRender
  induction firstOccurrences (modules.map ueNomOf) with
  | nil => rfl
  | cons u t ih =>
    rw [List.flatMap_cons, List.flatMap_cons, List.filterMap_append, ih]
    congr 1
    simp only [List.filterMap_cons, nodeModule, List.filterMap_map]
    have : (nodeModule ∘ fun m => Node.card (createModuleCard m)) = some := by
      funext m
      rfl
    rw [this, List.filterMap_some]

theorem specRender_perm (modules : List Module) :
    ((specRender modules).filterMap nodeModule).Perm modules := by
  rw [specRender_modules]
  refine (flatMap_filter_perm modules _ (nodup_firstOccurrences _)).trans ?_
  have : modules.filter (fun m => decide (ueNomOf m ∈ firstOccurrences (modules.map ueNomOf))) =
      modules := by
    rw [List.filter_eq_self]
    intro m hm
    simp only [decide_eq_true_eq, mem_firstOccurrences]
    exact List.mem_map.mpr ⟨m, hm, rfl⟩
  rw [this]

/-! ## Decoding lemmas -/

theorem hexValue_digitChar (k : Nat) (hk : k < 16) : hexValue (Nat.digitChar k) = some k := by
  interval_cases k <;> rfl

theorem parse_raw (c : Char) (items : List String) (cur rest : List Char)
    (h1 : c ≠ Char.ofNat 34) (h2 : c ≠ Char.ofNat 92) (h3 : ¬ c.toNat < 32) :
    parseJsonStrings .inString items cur (c :: rest) =
      parseJsonStrings .inString items (c :: cur) rest := by
  rw [parseJsonStrings.eq_def]
  simp only [h1, h2, h3, if_false]

theorem parse_escape (e x : Char) (items : List String) (cur rest : List Char)
    (he : e ≠ 'u') (hx : unescapeChar e = some x) :
    parseJsonStrings .inString items cur (Char.ofNat 92 :: e :: rest) =
      parseJsonStrings .inString items (x :: cur) rest := by
  rw [parseJsonStrings.eq_def]
  simp only [he, hx, if_false, if_true]
  rw [if_neg (by decide)]

theorem parse_unicode (h1 h2 h3 h4 : Char) (n : Nat) (items : List String)
    (cur rest : List Char) (hn : hexValue4 h1 h2 h3 h4 = some n) :
    parseJsonStrings .inString items cur
        (Char.ofNat 92 :: 'u' :: h1 :: h2 :: h3 :: h4 :: rest) =
      parseJsonStrings .inString items (Char.ofNat n :: cur) rest := by
  rw [parseJsonStrings.eq_def]
  simp only [hn, if_true]
  rw [if_neg (by decide)]

theorem parse_escaped_char (c : Char) (items : List String) (cur rest : List Char) :
    parseJsonStrings .inString items cur ((jsonEscapeChar c).data ++ rest) =
      parseJsonStrings .inString items (c :: cur) rest := by
  unfold jsonEscapeChar
  split_ifs with c1 c2 c3 c4 c5 c6 c7 c8
  · rw [c1]; exact parse_escape _ _ items cur rest (by decide) (by decide)
  · rw [c2]; exact parse_escape _ _ items cur rest (by decide) (by decide)
  · rw [c3]; exact parse_escape _ _ items cur rest (by decide) (by decide)
  · rw [c4]; exact parse_escape _ _ items cur rest (by decide) (by decide)
  · rw [c5]; exact parse_escape _ _ items cur rest (by decide) (by decide)
  · rw [c6]; exact parse_escape _ _ items cur rest (by decide) (by decide)
  · rw [c7]; exact parse_escape _ _ items cur rest (by decide) (by decide)
  · have hd1 : c.toNat / 16 < 16 := by omega
    have hd2 : c.toNat % 16 < 16 := Nat.mod_lt _ (by decide)
    have hv : hexValue4 '0' '0' (Nat.digitChar (c.toNat / 16))
        (Nat.digitChar (c.toNat % 16)) = some c.toNat := by
      have h0 : hexValue '0' = some 0 := rfl
      simp only [hexValue4, h0, hexValue_digitChar _ hd1, hexValue_digitChar _ hd2,
        Option.some.injEq]
      omega
    have := parse_unicode '0' '0' (Nat.digitChar (c.toNat / 16))
      (Nat.digitChar (c.toNat % 16)) c.toNat items cur rest hv
    rw [Char.ofNat_toNat] at this
    exact this
  · exact parse_raw c items cur rest c1 c2 c8

theorem parse_string_body (x : List Char) (items : List String) (cur tail : List Char) :
    parseJsonStrings .inString items cur (escapedData x ++ Char.ofNat 34 :: tail) =
      parseJsonStrings .afterString (items ++ [String.mk (cur.reverse ++ x)]) [] tail := by
  induction x generalizing cur with
  | nil =>
    simp only [escapedData, List.map_nil, List.flatten_nil, List.nil_append, List.append_nil]
    rw [parseJsonStrings.eq_def]
    simp
  | cons c t ih =>
    have e : escapedData (c :: t) = (jsonEscapeChar c).data ++ escapedData t := by
      simp [escapedData]
    rw [e, List.append_assoc, parse_escaped_char, ih]
    simp

theorem parse_item (x : String) (items : List String) (tail : List Char) :
    parseJsonStrings .inString items [] (escapedData x.data ++ Char.ofNat 34 :: tail) =
      parseJsonStrings .afterString (items ++ [x]) [] tail := by
  rw [parse_string_body]
  simp

theorem parse_start (items : List String) (cur rest : List Char) :
    parseJsonStrings .start items cur ('[' :: rest) =
      parseJsonStrings .first items cur rest := by
  rw [parseJsonStrings.eq_def]
  simp

theorem parse_first_close (items : List String) (cur rest : List Char) :
    parseJsonStrings .first items cur (']' :: rest) =
      parseJsonStrings .closed items cur rest := by
  rw [parseJsonStrings.eq_def]
  simp

theorem parse_first_quote (items : List String) (cur rest : List Char) :
    parseJsonStrings .first items cur (Char.ofNat 34 :: rest) =
      parseJsonStrings .inString items [] rest := by
  rw [parseJsonStrings.eq_def]
  simp only [if_true]
  rw [if_neg (by decide)]

theorem parse_comma (items : List String) (cur rest : List Char) :
    parseJsonStrings .afterString items cur (',' :: rest) =
      parseJsonStrings .afterComma items cur rest := by
  rw [parseJsonStrings.eq_def]
  simp

theorem parse_comma_quote (items : List String) (cur rest : List Char) :
    parseJsonStrings .afterComma items cur (Char.ofNat 34 :: rest) =
      parseJsonStrings .inString items [] rest := by
  rw [parseJsonStrings.eq_def]
  simp

theorem parse_close (items : List String) (cur rest : List Char) :
    parseJsonStrings .afterString items cur (']' :: rest) =
      parseJsonStrings .closed items cur rest := by
  rw [parseJsonStrings.eq_def]
  simp only [if_true]
  rw [if_neg (by decide)]

theorem parse_closed_nil (items : List String) (cur : List Char) :
    parseJsonStrings .closed items cur [] = some items := by
  rw [parseJsonStrings.eq_def]
  simp

theorem itemData_append (a : String) (rest : List Char) :
    itemData a ++ rest = Char.ofNat 34 :: (escapedData a.data ++ Char.ofNat 34 :: rest) := by
  simp [itemData]

theorem parse_more_items (xs : List String) (items : List String) :
    parseJsonStrings .afterString items []
        (xs.flatMap (fun a => ',' :: itemData a) ++ [']']) = some (items ++ xs) := by
  induction xs generalizing items with
  | nil =>
    simp only [List.flatMap_nil, List.nil_append, List.append_nil]
    rw [parse_close, parse_closed_nil]
  | cons a t ih =>
    rw [List.flatMap_cons, List.append_assoc, List.cons_append, parse_comma,
      itemData_append, parse_comma_quote, parse_item, ih]
    simp

theorem intercalate_go_data (sep acc : String) (l : List String) :
    (String.intercalate.go acc sep l).data =
      acc.data ++ l.flatMap (fun b => sep.data ++ b.data) := by
  induction l generalizing acc with
  | nil => simp [String.intercalate.go]
  | cons a t ih =>
    rw [String.intercalate.go, ih]
    simp [List.append_assoc]

theorem jsonStringify_data (ids : List String) :
    (jsonStringify ids).data =
      '[' :: (match ids with
        | [] => []
        | x :: xs => itemData x ++ xs.flatMap (fun a => ',' :: itemData a)) ++ [']'] := by
  have hitem : ∀ x : String,
      (String.singleton (Char.ofNat 34) ++ String.join (x.data.map jsonEscapeChar) ++
        String.singleton (Char.ofNat 34)).data = itemData x := by
    intro x
    simp [itemData, escapedData, String.data_join, String.singleton, List.map_map,
      Function.comp_def]
  cases ids with
  | nil => rfl
  | cons x xs =>
    simp only [jsonStringify, String.data_append, List.map_cons, String.intercalate,
      intercalate_go_data, hitem]
    have : (List.map (fun x => String.singleton (Char.ofNat 34) ++
          String.join (x.data.map jsonEscapeChar) ++ String.singleton (Char.ofNat 34)) xs).flatMap
          (fun b => ",".data ++ b.data) =
        xs.flatMap (fun a => ',' :: itemData a) := by
      induction xs with
      | nil => rfl
      | cons y ys ih =>
        rw [List.map_cons, List.flatMap_cons, List.flatMap_cons, ih, hitem]
        rfl
    rw [this]
    rfl

theorem jsonParseStrings_jsonStringify (ids : List String) :
    jsonParseStrings (jsonStringify ids) = some ids := by
  unfold jsonParseStrings
  rw [jsonStringify_data]
  cases ids with
  | nil =>
    rw [List.cons_append, List.nil_append, parse_start, parse_first_close, parse_closed_nil]
  | cons x xs =>
    rw [List.cons_append, List.append_assoc, parse_start, itemData_append,
      parse_first_quote, parse_item, parse_more_items]
    simp

theorem validateForm_cases (s : WizardState) :
    ((validateForm s).1 = true ∧ (validateForm s).2 = s) ∨
    ((validateForm s).1 = false ∧
      ∃ k msg, (validateForm s).2 = showStep k (showNotification msg "danger" s)) := by
  unfold validateForm
  split_ifs
  · exact Or.inr ⟨rfl, 1, "Professeur non sélectionné", rfl⟩
  · exact Or.inr ⟨rfl, 2, "Classe non sélectionnée", rfl⟩
  · exact Or.inr ⟨rfl, 3, "Aucun module sélectionné", rfl⟩
  · exact Or.inl ⟨rfl, rfl⟩

theorem showStep_hiddenInput (k : Int) (s : WizardState) :
    (showStep k s).hiddenInput = s.hiddenInput := by
  rcases showStep_frame k s with h | ⟨c, _, _, h⟩ <;> rw [h]

/-! ## Missing elements and recap lemmas -/

theorem setById_absent {α : Type} (k : String) (v : α) (l : List (String × α))
    (h : getById k l = none) : setById k v l = l := by
  induction l with
  | nil => rfl
  | cons hd tl ih =>
    obtain ⟨k', w⟩ := hd
    by_cases hk : k' = k
    · simp [getById, hk] at h
    · simp only [getById, hk, if_false] at h
      simp [setById, hk, ih h]

theorem getById_setById_none {α : Type} (e k : String) (v : α) (l : List (String × α))
    (h : getById e l = none) : getById e (setById k v l) = none := by
  by_cases hek : e = k
  · subst hek
    rw [getById_setById_same, h]
    rfl
  · rw [getById_setById_ne _ _ _ _ hek, h]

theorem foldl_add_eq_sum (l : List Nat) : l.foldl (· + ·) 0 = l.sum := by
  have : ∀ (acc : Nat), l.foldl (· + ·) acc = acc + l.sum := by
    induction l with
    | nil => simp
    | cons a t ih =>
      intro acc
      rw [List.foldl_cons, ih, List.sum_cons, Nat.add_assoc]
  simpa using this 0

theorem generateRecapModules_eq (s : WizardState) (h : s.recapRows ≠ none) :
    generateRecapModules s =
      { s with
        recapRows := some ((selectedFound s).map recapRow),
        texts :=
          setById "recap-total-montant" (formatMoney (recapTotalMontant s) false)
            (setById "recap-total-td" (toFixed1 (recapTotalTD s))
              (setById "recap-total-cm" (toFixed1 (recapTotalCM s))
                (setById "recap-modules-count" (toString s.selectedModules.length)
                  s.texts))) } := by
  unfold generateRecapModules
  cases hr : s.recapRows with
  | none => exact absurd hr h
  | some rows => rfl

theorem recapTotals_sum (s : WizardState) :
    recapTotalCM s + recapTotalTD s = totalHours s.selectedModules s.modulesData ∧
    recapTotalMontant s = totalAmount s.selectedModules s.modulesData := by
  unfold recapTotalCM recapTotalTD recapTotalMontant selectedFound
  rw [foldl_add_eq_sum, foldl_add_eq_sum, foldl_add_eq_sum, totalHours_eq_sum,
    totalAmount_eq_sum]
  refine ⟨?_, rfl⟩
  induction s.selectedModules.filterMap (findModule s.modulesData) with
  | nil => rfl
  | cons m t ih =>
    simp only [List.map_cons, List.sum_cons, moduleHours] at ih ⊢
    omega

/-! ## Submission lemmas -/

theorem validateForm_submitBtn (s : WizardState) :
    (validateForm s).2.submitBtn = s.submitBtn := by
  rcases validateForm_cases s with ⟨_, h⟩ | ⟨_, k, msg, h⟩
  · rw [h]
  · rw [h]
    rcases showStep_frame k (showNotification msg "danger" s) with h2 | ⟨c, _, _, h2⟩ <;>
      rw [h2] <;> rfl

/-! ## String lemmas -/

theorem utf16Length_dropWhile_le (p : Char → Bool) (l : List Char) :
    utf16Length (l.dropWhile p) ≤ utf16Length l := by
  induction l with
  | nil => exact Nat.le_refl _
  | cons a t ih =>
    simp only [List.dropWhile]
    split
    · have : utf16Length (a :: t) = (if a.toNat < 65536 then 1 else 2) + utf16Length t := by
        simp [utf16Length]
      omega
    · exact Nat.le_refl _

theorem utf16Length_reverse (l : List Char) : utf16Length l.reverse = utf16Length l := by
  simp [utf16Length, List.sum_reverse]

theorem utf16Length_jsTrim_le (l : List Char) : utf16Length (jsTrim l) ≤ utf16Length l := by
  unfold jsTrim
  rw [utf16Length_reverse]
  have h1 := utf16Length_dropWhile_le jsIsSpace (l.dropWhile jsIsSpace).reverse
  rw [utf16Length_reverse] at h1
  exact Nat.le_trans h1 (utf16Length_dropWhile_le jsIsSpace l)

theorem utf16Length_eq_zero (l : List Char) : utf16Length l = 0 ↔ l = [] := by
  cases l with
  | nil => simp [utf16Length]
  | cons a t =>
    simp only [utf16Length, List.map_cons, List.sum_cons]
    constructor
    · intro h
      split at h <;> omega
    · intro h
      exact absurd h (List.cons_ne_nil _ _)

theorem jsTrim_replicate_space (n : Nat) : jsTrim (List.replicate n ' ') = [] := by
  have h : (List.replicate n ' ').dropWhile jsIsSpace = [] := by
    induction n with
    | zero => rfl
    | succ k ih =>
      rw [List.replicate_succ, List.dropWhile_cons_of_pos (by decide)]
      exact ih
  simp [jsTrim, h]

/-! ## Filter lemmas -/

theorem Maquette.jsIncludes_iff (text part : String) :
    Maquette.jsIncludes text part = true ↔ Contains text part := by
  unfold Maquette.jsIncludes Contains
  rw [List.any_eq_true]
  constructor
  · rintro ⟨l, hl, hp⟩
    rw [List.mem_tails] at hl
    rw [List.isPrefixOf_iff_prefix] at hp
    obtain ⟨a, ha⟩ := hl
    obtain ⟨b, hb⟩ := hp
    refine ⟨String.mk a, String.mk b, ?_⟩
    apply String.ext
    simp only [String.data_append]
    rw [← ha, ← hb, List.append_assoc]
  · rintro ⟨a, b, h⟩
    refine ⟨part.data ++ b.data, ?_, ?_⟩
    · rw [List.mem_tails]
      refine ⟨a.data, ?_⟩
      rw [h]
      simp only [String.data_append, List.append_assoc]
    · rw [List.isPrefixOf_iff_prefix]
      exact ⟨b.data, rfl⟩

theorem Maquette.elementShown_eq (p : Maquette.Page) (e : Maquette.Element)
    (h : p.searchTerm ≠ "" → Maquette.hasSearchAttributes e = true) :
    Maquette.elementShown p e = some (Maquette.specShown p e) := by
  unfold Maquette.elementShown Maquette.specShown
  by_cases hterm : p.searchTerm = ""
  · simp [hterm]
  · have hall := h hterm
    simp only [Maquette.hasSearchAttributes, Bool.and_eq_true] at hall
    obtain ⟨⟨h1, h2⟩, h3⟩ := hall
    obtain ⟨nom, hnom⟩ := Option.isSome_iff_exists.mp h1
    obtain ⟨code, hcode⟩ := Option.isSome_iff_exists.mp h2
    obtain ⟨ue, hue⟩ := Option.isSome_iff_exists.mp h3
    simp only [hnom, hcode, hue, hterm]
    by_cases hf : p.currentFilter = some "all"
    · by_cases i1 : Maquette.jsIncludes nom p.searchTerm = true
      · simp [hf, i1, hnom, hcode, hue]
      · by_cases i2 : Maquette.jsIncludes code p.searchTerm = true
        · simp [hf, i1, i2, hnom, hcode, hue, hterm]
        · simp [hf, i1, i2, hnom, hcode, hue, hterm]
    · by_cases hs : Maquette.getAttribute e "data-semestre" = p.currentFilter
      · by_cases i1 : Maquette.jsIncludes nom p.searchTerm = true
        · simp [hf, hs, i1, hnom, hcode, hue]
        · by_cases i2 : Maquette.jsIncludes code p.searchTerm = true
          · simp [hf, hs, i1, i2, hnom, hcode, hue, hterm]
          · simp [hf, hs, i1, i2, hnom, hcode, hue, hterm]
      · simp [hf, hs, hnom, hcode, hue]

theorem Maquette.filterElements_eq (p : Maquette.Page) (l : List Maquette.Element)
    (h : p.searchTerm ≠ "" → ∀ e ∈ l, Maquette.hasSearchAttributes e = true) :
    Maquette.filterElements p l =
      some (l.map (fun e => Maquette.withDisplay (Maquette.specShown p e) e),
        (l.filter (Maquette.specShown p)).length) := by
  induction l with
  | nil => rfl
  | cons e rest ih =>
    have he : Maquette.elementShown p e = some (Maquette.specShown p e) :=
      Maquette.elementShown_eq p e (fun ht => h ht e (List.mem_cons_self _ _))
    have hrest := ih (fun ht x hx => h ht x (List.mem_cons_of_mem _ hx))
    simp only [Maquette.filterElements, he, hrest, List.map_cons, List.filter_cons]
    cases hshown : Maquette.specShown p e <;> simp [Maquette.withDisplay]

theorem Maquette.isVisible_withDisplay (shown : Bool) (e : Maquette.Element) :
    Maquette.isVisible (Maquette.withDisplay shown e) = shown := by
  cases shown <;> simp [Maquette.isVisible, Maquette.withDisplay]

/-! ## CSV lemmas -/

theorem toDigitsCore_isDigit (fuel n : Nat) (ds : List Char)
    (hds : ∀ c ∈ ds, c.isDigit = true) :
    ∀ c ∈ Nat.toDigitsCore 10 fuel n ds, c.isDigit = true := by
  induction fuel generalizing n ds with
  | zero => simpa [Nat.toDigitsCore] using hds
  | succ fuel ih =>
    have hcons : ∀ c ∈ Nat.digitChar (n % 10) :: ds, c.isDigit = true := by
      intro c hc
      rcases List.mem_cons.mp hc with hc | hc
      · rw [hc]
        have hlt : n % 10 < 10 := Nat.mod_lt _ (by decide)
        generalize n % 10 = d at hlt
        interval_cases d <;> decide
      · exact hds c hc
    simp only [Nat.toDigitsCore]
    split
    · exact hcons
    · exact ih _ _ hcons

theorem toString_isDigit (n : Nat) : ∀ c ∈ (toString n).data, c.isDigit = true := by
  intro c hc
  have : (toString n).data = Nat.toDigits 10 n := rfl
  rw [this] at hc
  exact toDigitsCore_isDigit _ _ [] (fun _ h => absurd h (List.not_mem_nil _)) c hc

theorem isDigit_not_space (c : Char) (h : c.isDigit = true) :
    c ≠ Char.ofNat 10 ∧ c ≠ Char.ofNat 34 ∧ c ≠ ',' := by
  refine ⟨?_, ?_, ?_⟩ <;> (intro hc; subst hc; revert h; decide)

theorem Maquette.collapseSpaces_mem (inSpace : Bool) (l : List Char) :
    ∀ c ∈ Maquette.collapseSpaces inSpace l, c = ' ' ∨ jsIsSpace c = false := by
  induction l generalizing inSpace with
  | nil => intro c hc; exact absurd hc (List.not_mem_nil _)
  | cons a t ih =>
    intro c hc
    simp only [Maquette.collapseSpaces] at hc
    by_cases ha : jsIsSpace a = true
    · simp only [ha, if_true] at hc
      cases inSpace with
      | true =>
        simp only [if_true] at hc
        exact ih true c hc
      | false =>
        simp only [Bool.false_eq_true, if_false] at hc
        rcases List.mem_cons.mp hc with hc | hc
        · exact Or.inl hc
        · exact ih true c hc
    · simp only [ha, if_false] at hc
      rcases List.mem_cons.mp hc with hc | hc
      · right
        rw [hc]
        simpa using ha
      · exact ih false c hc

theorem Maquette.escapeQuotes_mem (l : List Char) :
    ∀ c ∈ Maquette.escapeQuotes l, c ∈ l := by
  intro c hc
  simp only [Maquette.escapeQuotes, List.mem_flatMap] at hc
  obtain ⟨a, ha, hca⟩ := hc
  split at hca
  · rename_i h
    simp only [List.mem_cons, List.mem_singleton, or_self, List.not_mem_nil, or_false] at hca
    rw [hca, ← h]
    exact ha
  · simp only [List.mem_singleton] at hca
    rw [hca]
    exact ha

theorem Maquette.cleanCellText_no_lf (cell : Option Maquette.Cell) :
    Char.ofNat 10 ∉ (Maquette.cleanCellText cell).data := by
  cases cell with
  | none => exact List.not_mem_nil _
  | some c =>
    intro h
    have h2 := Maquette.collapseSpaces_mem false _ _ (Maquette.escapeQuotes_mem _ _ h)
    revert h2
    decide

theorem Maquette.matchCode_mem (l code : List Char) (h : Maquette.matchCode l = some code) :
    ∀ c ∈ code, jsIsSpace c = false := by
  induction l with
  | nil => simp [Maquette.matchCode] at h
  | cons a t ih =>
    simp only [Maquette.matchCode] at h
    split at h
    · split at h
      · intro c hc
        simp only [Option.some.injEq] at h
        rw [← h] at hc
        have := List.mem_takeWhile_imp hc
        simpa using this
      · exact ih h
    · exact ih h

theorem Maquette.extractCode_no_lf (cell : Option Maquette.Cell) :
    Char.ofNat 10 ∉ (Maquette.extractCode cell).data := by
  cases cell with
  | none => exact List.not_mem_nil _
  | some c =>
    simp only [Maquette.extractCode]
    cases hm : Maquette.matchCode c.textContent.data with
    | none => exact List.not_mem_nil _
    | some code =>
      intro h
      have := Maquette.matchCode_mem _ _ hm _ h
      revert this
      decide

theorem Maquette.rowData_no_lf (n : Nat) (row : Maquette.Element) :
    ∀ v ∈ Maquette.rowData n row, Char.ofNat 10 ∉ v.data := by
  intro v hv
  simp only [Maquette.rowData, List.mem_cons, List.mem_singleton, List.not_mem_nil,
    or_false] at hv
  rcases hv with h | h | h | h | h | h | h | h | h | h | h | h <;> rw [h]
  · intro hc
    exact (isDigit_not_space _ (toString_isDigit n _ hc)).1 rfl
  all_goals first
    | exact Maquette.cleanCellText_no_lf _
    | exact Maquette.extractCode_no_lf _

theorem Maquette.joinFields_mem (fields : List (List Char)) :
    ∀ c ∈ Maquette.joinFields fields, c = ',' ∨ ∃ f ∈ fields, c ∈ f := by
  induction fields with
  | nil => intro c hc; exact absurd hc (List.not_mem_nil _)
  | cons x rest ih =>
    cases rest with
    | nil =>
      intro c hc
      exact Or.inr ⟨x, List.mem_singleton.mpr rfl, hc⟩
    | cons y rest2 =>
      intro c hc
      simp only [Maquette.joinFields, List.mem_append, List.mem_cons] at hc
      rcases hc with hc | hc | hc
      · exact Or.inr ⟨x, List.mem_cons_self _ _, hc⟩
      · exact Or.inl hc
      · rcases ih c hc with h | ⟨f, hf, hcf⟩
        · exact Or.inl h
        · exact Or.inr ⟨f, List.mem_cons_of_mem _ hf, hcf⟩

theorem Maquette.rowLine_no_lf (n : Nat) (row : Maquette.Element) :
    Char.ofNat 10 ∉ Maquette.rowLine n row := by
  intro h
  rcases Maquette.joinFields_mem _ _ h with h | ⟨f, hf, hcf⟩
  · revert h
    decide
  · simp only [List.mem_map] at hf
    obtain ⟨v, hv, hfv⟩ := hf
    rw [← hfv] at hcf
    simp only [Maquette.quoteField, List.mem_cons, List.mem_append, List.mem_singleton] at hcf
    rcases hcf with (hc | hc) | hc
    · revert hc
      decide
    · exact Maquette.rowData_no_lf n row v hv hc
    · revert hc
      decide

theorem Maquette.splitLines_line (line rest : List Char) (h : Char.ofNat 10 ∉ line) :
    Maquette.splitLines (line ++ Char.ofNat 10 :: rest) = line :: Maquette.splitLines rest := by
  induction line with
  | nil => simp [Maquette.splitLines]
  | cons a t ih =>
    have ha : a ≠ Char.ofNat 10 := fun hc => h (hc ▸ List.mem_cons_self _ _)
    have ht : Char.ofNat 10 ∉ t := fun hc => h (List.mem_cons_of_mem _ hc)
    rw [List.cons_append, Maquette.splitLines, if_neg ha, ih ht]

theorem Maquette.splitLines_lines (lines : List (List Char))
    (h : ∀ l ∈ lines, Char.ofNat 10 ∉ l) :
    Maquette.splitLines (lines.map (fun l => l ++ [Char.ofNat 10])).flatten = lines ++ [[]] := by
  induction lines with
  | nil => rfl
  | cons l rest ih =>
    simp only [List.map_cons, List.flatten_cons, List.append_assoc, List.singleton_append]
    rw [Maquette.splitLines_line _ _ (h l (List.mem_cons_self _ _)),
      ih (fun x hx => h x (List.mem_cons_of_mem _ hx))]
    rfl

theorem Maquette.exportRows_eq (n : Nat) (rows : List Maquette.Element) :
    Maquette.exportRows n rows =
      (((rows.filter Maquette.isVisible).enumFrom n).map
        (fun ir => Maquette.rowLine ir.1 ir.2 ++ [Char.ofNat 10])).flatten := by
  induction rows generalizing n with
  | nil => rfl
  | cons r rest ih =>
    by_cases hv : r.display = "none"
    · have hvis : Maquette.isVisible r = false := by simp [Maquette.isVisible, hv]
      simp only [Maquette.exportRows, hv, ne_eq, not_true_eq_false, if_false,
        List.filter_cons, hvis, Bool.false_eq_true]
      exact ih n
    · have hvis : Maquette.isVisible r = true := by simp [Maquette.isVisible, hv]
      simp only [Maquette.exportRows, hv, ne_eq, not_false_eq_true, if_true,
        List.filter_cons, hvis, List.enumFrom_cons, List.map_cons, List.flatten_cons]
      rw [ih (n + 1)]
      rfl

/-! ## CSV reading lemmas -/

theorem Maquette.parseCsv_fieldStart_quote (done : List String) (rest : List Char) :
    Maquette.parseCsv .fieldStart [] done (Char.ofNat 34 :: rest) =
      Maquette.parseCsv .quoted [] done rest := by
  rw [Maquette.parseCsv]
  simp

theorem Maquette.parseCsv_quoted_quote (field : List Char) (done : List String)
    (rest : List Char) :
    Maquette.parseCsv .quoted field done (Char.ofNat 34 :: rest) =
      Maquette.parseCsv .afterQuote field done rest := by
  rw [Maquette.parseCsv]
  simp

theorem Maquette.parseCsv_quoted_other (field : List Char) (done : List String) (c : Char)
    (rest : List Char) (hc : c ≠ Char.ofNat 34) :
    Maquette.parseCsv .quoted field done (c :: rest) =
      Maquette.parseCsv .quoted (field ++ [c]) done rest := by
  rw [Maquette.parseCsv]
  simp [hc]

theorem Maquette.parseCsv_afterQuote_quote (field : List Char) (done : List String)
    (rest : List Char) :
    Maquette.parseCsv .afterQuote field done (Char.ofNat 34 :: rest) =
      Maquette.parseCsv .quoted (field ++ [Char.ofNat 34]) done rest := by
  rw [Maquette.parseCsv]
  simp

theorem Maquette.parseCsv_afterQuote_comma (field : List Char) (done : List String)
    (rest : List Char) :
    Maquette.parseCsv .afterQuote field done (',' :: rest) =
      Maquette.parseCsv .fieldStart [] (done ++ [String.mk field]) rest := by
  rw [Maquette.parseCsv]
  simp

theorem Maquette.parseCsv_afterQuote_end (field : List Char) (done : List String) :
    Maquette.parseCsv .afterQuote field done [] = some (done ++ [String.mk field]) := by
  rw [Maquette.parseCsv]
  simp

theorem Maquette.parseCsv_quoted_content (x field : List Char) (done : List String)
    (rest : List Char) :
    Maquette.parseCsv .quoted field done
        (Maquette.escapeQuotes x ++ Char.ofNat 34 :: rest) =
      Maquette.parseCsv .afterQuote (field ++ x) done rest := by
  induction x generalizing field with
  | nil =>
    rw [List.append_nil]
    exact Maquette.parseCsv_quoted_quote field done rest
  | cons c t ih =>
    have hcons : Maquette.escapeQuotes (c :: t) =
        (if c = Char.ofNat 34 then [Char.ofNat 34, Char.ofNat 34] else [c]) ++
          Maquette.escapeQuotes t := by
      simp [Maquette.escapeQuotes]
    rw [hcons]
    by_cases hc : c = Char.ofNat 34
    · rw [if_pos hc, hc]
      show Maquette.parseCsv .quoted field done
        (Char.ofNat 34 :: Char.ofNat 34 :: (Maquette.escapeQuotes t ++ Char.ofNat 34 :: rest)) = _
      rw [Maquette.parseCsv_quoted_quote, Maquette.parseCsv_afterQuote_quote, ih]
      simp
    · rw [if_neg hc]
      show Maquette.parseCsv .quoted field done
        (c :: (Maquette.escapeQuotes t ++ Char.ofNat 34 :: rest)) = _
      rw [Maquette.parseCsv_quoted_other _ _ _ _ hc, ih]
      simp

/-- A value between double quotes, its double quotes doubled. -/
theorem Maquette.parseCsv_fields (values : List String) (hne : values ≠ [])
    (done : List String) :
    Maquette.parseCsv .fieldStart [] done
        (Maquette.joinFields (values.map
          (fun v => Char.ofNat 34 :: Maquette.escapeQuotes v.data ++ [Char.ofNat 34]))) =
      some (done ++ values) := by
  induction values generalizing done with
  | nil => exact absurd rfl hne
  | cons x rest ih =>
    cases rest with
    | nil =>
      simp only [List.map_cons, List.map_nil, Maquette.joinFields, List.cons_append]
      rw [Maquette.parseCsv_fieldStart_quote, Maquette.parseCsv_quoted_content,
        Maquette.parseCsv_afterQuote_end]
      rfl
    | cons y rest2 =>
      have ih2 := ih (List.cons_ne_nil _ _) (done ++ [x])
      simp only [List.map_cons, Maquette.joinFields, List.cons_append, List.append_assoc,
        List.singleton_append] at ih2 ⊢
      have hx : String.mk x.data = x := rfl
      rw [Maquette.parseCsv_fieldStart_quote, Maquette.parseCsv_quoted_content]
      simp only [List.nil_append]
      rw [Maquette.parseCsv_afterQuote_comma, hx, ih2]
      simp

theorem Maquette.escapeQuotes_of_not_mem (l : List Char) (h : Char.ofNat 34 ∉ l) :
    Maquette.escapeQuotes l = l := by
  induction l with
  | nil => rfl
  | cons c t ih =>
    have hc : c ≠ Char.ofNat 34 := fun hc => h (hc ▸ List.mem_cons_self _ _)
    have ht : Char.ofNat 34 ∉ t := fun hm => h (List.mem_cons_of_mem _ hm)
    have hcons : Maquette.escapeQuotes (c :: t) =
        (if c = Char.ofNat 34 then [Char.ofNat 34, Char.ofNat 34] else [c]) ++
          Maquette.escapeQuotes t := by
      simp [Maquette.escapeQuotes]
    rw [hcons, if_neg hc, ih ht]
    rfl

theorem Maquette.quoteField_cleanCellText (cell : Option Maquette.Cell) :
    Maquette.quoteField (Maquette.cleanCellText cell) =
      Char.ofNat 34 :: Maquette.escapeQuotes (Maquette.normalisedText cell).data ++
        [Char.ofNat 34] := by
  cases cell with
  | none => rfl
  | some c => rfl

theorem Maquette.quoteField_of_not_mem (v : String) (h : Char.ofNat 34 ∉ v.data) :
    Maquette.quoteField v =
      Char.ofNat 34 :: Maquette.escapeQuotes v.data ++ [Char.ofNat 34] := by
  rw [Maquette.escapeQuotes_of_not_mem _ h]
  rfl

theorem Maquette.rowLine_eq (n : Nat) (row : Maquette.Element)
    (h : Char.ofNat 34 ∉ (Maquette.extractCode (row.cells.get? 1)).data) :
    Maquette.rowLine n row =
      Maquette.joinFields ((Maquette.specFields n row).map
        (fun v => Char.ofNat 34 :: Maquette.escapeQuotes v.data ++ [Char.ofNat 34])) := by
  have hn : Char.ofNat 34 ∉ (toString n).data := fun hc =>
    (isDigit_not_space _ (toString_isDigit n _ hc)).2.1 rfl
  simp only [Maquette.rowLine, Maquette.rowData, Maquette.specFields, List.map_cons,
    List.map_nil, Maquette.quoteField_cleanCellText, Maquette.quoteField_of_not_mem _ hn,
    Maquette.quoteField_of_not_mem _ h]

/-! ## Sort lemmas -/

theorem Maquette.insertSorted_total {α : Type} (cmp : α → α → Option Int) (f : α → α → Int)
    (h : ∀ a b, cmp a b = some (f a b)) (a : α) (l : List α) :
    Maquette.insertSorted cmp a l =
      some (List.orderedInsert (fun x y => f x y ≤ 0) a l) := by
  induction l with
  | nil => rfl
  | cons b t ih =>
    simp only [Maquette.insertSorted, h, List.orderedInsert]
    split_ifs
    · rfl
    · rw [ih]
      rfl

theorem Maquette.jsSort_total {α : Type} (cmp : α → α → Option Int) (f : α → α → Int)
    (h : ∀ a b, cmp a b = some (f a b)) (l : List α) :
    Maquette.jsSort cmp l = some (List.insertionSort (fun x y => f x y ≤ 0) l) := by
  induction l with
  | nil => rfl
  | cons a t ih =>
    simp only [Maquette.jsSort, ih, List.insertionSort]
    exact Maquette.insertSorted_total cmp f h a _

theorem Maquette.differenceSign_le {N : Type} [LinearOrder N] (x y : N) :
    Maquette.differenceSign x y ≤ 0 ↔ x ≤ y := by
  unfold Maquette.differenceSign
  split_ifs with h1 h2
  · simp only [not_le.mpr h1, iff_false]
    decide
  · simp only [le_of_lt h2, iff_true]
    decide
  · simp only [not_lt.mp h1, iff_true]
    decide

theorem Maquette.sortFunction_numeric {N : Type} [LinearOrder N] [Zero N]
    (localeCompare : String → String → Int) (parseFloat : String → Option N) (key : String)
    (hkey : key ∈ ["coefficient", "volume", "cout"]) (a b : Maquette.Element) :
    Maquette.sortFunction localeCompare parseFloat (some key) a b =
      some (Maquette.differenceSign (Maquette.sortKey parseFloat key b)
        (Maquette.sortKey parseFloat key a)) := by
  simp only [List.mem_cons, List.mem_singleton, List.not_mem_nil, or_false] at hkey
  rcases hkey with h | h | h <;> subst h <;>
    simp [Maquette.sortFunction, Maquette.sortKey]

theorem Maquette.jsSort_numeric {N : Type} [LinearOrder N] [Zero N]
    (localeCompare : String → String → Int) (parseFloat : String → Option N) (key : String)
    (hkey : key ∈ ["coefficient", "volume", "cout"]) (l : List Maquette.Element) :
    ∃ l', Maquette.jsSort (Maquette.sortFunction localeCompare parseFloat (some key)) l =
        some l' ∧
      l'.Perm l ∧
      l'.Pairwise (fun a b =>
        Maquette.sortKey parseFloat key b ≤ Maquette.sortKey parseFloat key a) := by
  have htotal := Maquette.jsSort_total
    (Maquette.sortFunction localeCompare parseFloat (some key))
    (fun a b => Maquette.differenceSign (Maquette.sortKey parseFloat key b)
      (Maquette.sortKey parseFloat key a))
    (Maquette.sortFunction_numeric localeCompare parseFloat key hkey) l
  refine ⟨_, htotal, List.perm_insertionSort _ l, ?_⟩
  haveI : IsTotal Maquette.Element (fun x y =>
      Maquette.differenceSign (Maquette.sortKey parseFloat key y)
        (Maquette.sortKey parseFloat key x) ≤ 0) :=
    ⟨fun a b => by
      simp only [Maquette.differenceSign_le]
      exact le_total _ _⟩
  haveI : IsTrans Maquette.Element (fun x y =>
      Maquette.differenceSign (Maquette.sortKey parseFloat key y)
        (Maquette.sortKey parseFloat key x) ≤ 0) :=
    ⟨fun a b c => by
      simp only [Maquette.differenceSign_le]
      exact fun h1 h2 => le_trans h2 h1⟩
  have hsorted := List.sorted_insertionSort (fun x y =>
      Maquette.differenceSign (Maquette.sortKey parseFloat key y)
        (Maquette.sortKey parseFloat key x) ≤ 0) l
  exact List.Pairwise.imp (fun h => (Maquette.differenceSign_le _ _).mp h) hsorted

theorem Maquette.insertSorted_perm {α : Type} (cmp : α → α → Option Int) (a : α)
    (l l' : List α) (h : Maquette.insertSorted cmp a l = some l') : l'.Perm (a :: l) := by
  induction l generalizing l' with
  | nil =>
    simp only [Maquette.insertSorted, Option.some.injEq] at h
    rw [← h]
  | cons b t ih =>
    simp only [Maquette.insertSorted] at h
    cases hc : cmp a b with
    | none => simp [hc] at h
    | some c =>
      simp only [hc] at h
      split_ifs at h
      · simp only [Option.some.injEq] at h
        rw [← h]
      · cases hr : Maquette.insertSorted cmp a t with
        | none => simp [hr] at h
        | some l2 =>
          simp only [hr, Option.map_some', Option.some.injEq] at h
          rw [← h]
          exact ((ih l2 hr).cons b).trans (List.Perm.swap a b t)

theorem Maquette.jsSort_perm {α : Type} (cmp : α → α → Option Int) (l l' : List α)
    (h : Maquette.jsSort cmp l = some l') : l'.Perm l := by
  induction l generalizing l' with
  | nil =>
    simp only [Maquette.jsSort, Option.some.injEq] at h
    rw [← h]
  | cons a t ih =>
    simp only [Maquette.jsSort] at h
    cases hr : Maquette.jsSort cmp t with
    | none => simp [hr] at h
    | some sorted =>
      simp only [hr] at h
      exact (Maquette.insertSorted_perm cmp a sorted l' h).trans ((ih sorted hr).cons a)

theorem Maquette.insertSorted_isSome {α : Type} (cmp : α → α → Option Int) (a : α)
    (l : List α) (h : ∀ b, ∃ c, cmp a b = some c) :
    ∃ l', Maquette.insertSorted cmp a l = some l' := by
  induction l with
  | nil => exact ⟨_, rfl⟩
  | cons b t ih =>
    obtain ⟨c, hc⟩ := h b
    obtain ⟨l2, hl2⟩ := ih
    simp only [Maquette.insertSorted, hc, hl2]
    split_ifs
    · exact ⟨_, rfl⟩
    · exact ⟨_, rfl⟩

theorem Maquette.jsSort_isSome {α : Type} (cmp : α → α → Option Int) (l : List α)
    (h : ∀ a ∈ l, ∀ b, ∃ c, cmp a b = some c) :
    ∃ l', Maquette.jsSort cmp l = some l' := by
  induction l with
  | nil => exact ⟨_, rfl⟩
  | cons a t ih =>
    obtain ⟨sorted, hs⟩ := ih (fun x hx => h x (List.mem_cons_of_mem _ hx))
    simp only [Maquette.jsSort, hs]
    exact Maquette.insertSorted_isSome cmp a sorted (h a (List.mem_cons_self _ _))

theorem Maquette.sortFunction_semestre_none {N : Type} [LinearOrder N] [Zero N]
    (localeCompare : String → String → Int) (parseFloat : String → Option N)
    (a b : Maquette.Element) (ha : Maquette.noSemester a = true) :
    Maquette.sortFunction localeCompare parseFloat (some "semestre") a b = some 1 := by
  simp only [Maquette.noSemester, beq_iff_eq] at ha
  simp [Maquette.sortFunction, ha]

theorem Maquette.sortFunction_semestre_before {N : Type} [LinearOrder N] [Zero N]
    (localeCompare : String → String → Int) (parseFloat : String → Option N)
    (a b : Maquette.Element) (ha : Maquette.noSemester a = false)
    (hb : Maquette.noSemester b = true) :
    Maquette.sortFunction localeCompare parseFloat (some "semestre") a b = some (-1) := by
  simp only [Maquette.noSemester, beq_iff_eq, beq_eq_false_iff_ne, ne_eq] at ha hb
  simp [Maquette.sortFunction, ha, hb]

theorem Maquette.sortFunction_semestre_isSome {N : Type} [LinearOrder N] [Zero N]
    (localeCompare : String → String → Int) (parseFloat : String → Option N)
    (a b : Maquette.Element) (ha : (Maquette.getAttribute a "data-semestre").isSome = true) :
    ∃ c, Maquette.sortFunction localeCompare parseFloat (some "semestre") a b = some c := by
  obtain ⟨v, hv⟩ := Option.isSome_iff_exists.mp ha
  simp only [Maquette.sortFunction, hv]
  simp only [show (some "semestre" = some "nom") = False from by decide, if_false, if_true]
  split_ifs
  · exact ⟨_, rfl⟩
  · exact ⟨_, rfl⟩
  · exact ⟨_, rfl⟩

theorem Maquette.insertSorted_nonesLast {N : Type} [LinearOrder N] [Zero N]
    (localeCompare : String → String → Int) (parseFloat : String → Option N)
    (a : Maquette.Element) (l l' : List Maquette.Element)
    (hl : l.Pairwise (fun x y => Maquette.noSemester x = true → Maquette.noSemester y = true))
    (h : Maquette.insertSorted
      (Maquette.sortFunction localeCompare parseFloat (some "semestre")) a l = some l') :
    l'.Pairwise (fun x y => Maquette.noSemester x = true → Maquette.noSemester y = true) := by
  induction l generalizing l' with
  | nil =>
    simp only [Maquette.insertSorted, Option.some.injEq] at h
    rw [← h]
    exact List.pairwise_singleton _ _
  | cons b t ih =>
    simp only [Maquette.insertSorted] at h
    cases hc : Maquette.sortFunction localeCompare parseFloat (some "semestre") a b with
    | none => simp [hc] at h
    | some c =>
      simp only [hc] at h
      split_ifs at h with hle
      · simp only [Option.some.injEq] at h
        rw [← h]
        refine List.pairwise_cons.mpr ⟨?_, hl⟩
        intro y _ hay
        rw [Maquette.sortFunction_semestre_none localeCompare parseFloat a b hay] at hc
        simp only [Option.some.injEq] at hc
        omega
      · cases hr : Maquette.insertSorted
            (Maquette.sortFunction localeCompare parseFloat (some "semestre")) a t with
        | none => simp [hr] at h
        | some l2 =>
          simp only [hr, Option.map_some', Option.some.injEq] at h
          rw [← h]
          have htail := (List.pairwise_cons.mp hl).2
          have hhead := (List.pairwise_cons.mp hl).1
          refine List.pairwise_cons.mpr ⟨?_, ih l2 htail hr⟩
          intro y hy hb
          have hmem := (Maquette.insertSorted_perm _ a t l2 hr).subset hy
          rcases List.mem_cons.mp hmem with hya | hyt
          · rw [hya]
            by_contra hna
            have hna2 : Maquette.noSemester a = false := by simpa using hna
            rw [Maquette.sortFunction_semestre_before localeCompare parseFloat a b hna2 hb]
              at hc
            simp only [Option.some.injEq] at hc
            omega
          · exact hhead y hyt hb

theorem Maquette.jsSort_nonesLast {N : Type} [LinearOrder N] [Zero N]
    (localeCompare : String → String → Int) (parseFloat : String → Option N)
    (l l' : List Maquette.Element)
    (h : Maquette.jsSort
      (Maquette.sortFunction localeCompare parseFloat (some "semestre")) l = some l') :
    l'.Pairwise (fun x y => Maquette.noSemester x = true → Maquette.noSemester y = true) := by
  induction l generalizing l' with
  | nil =>
    simp only [Maquette.jsSort, Option.some.injEq] at h
    rw [← h]
    exact List.Pairwise.nil
  | cons a t ih =>
    simp only [Maquette.jsSort] at h
    cases hr : Maquette.jsSort
        (Maquette.sortFunction localeCompare parseFloat (some "semestre")) t with
    | none => simp [hr] at h
    | some sorted =>
      simp only [hr] at h
      exact Maquette.insertSorted_nonesLast localeCompare parseFloat a sorted l'
        (ih sorted hr) h

theorem Maquette.setNumber_attrs (n : Nat) (e : Maquette.Element) :
    (Maquette.setNumber n e).attrs = e.attrs ∧
    Maquette.rowContent (Maquette.setNumber n e) = Maquette.rowContent e := by
  unfold Maquette.setNumber Maquette.rowContent
  cases hcells : e.cells with
  | nil => simp [hcells]
  | cons c rest => simp

theorem Maquette.renumber_map_attrs (n : Nat) (l : List Maquette.Element) :
    (Maquette.renumber n l).map (fun e => e.attrs) = l.map (fun e => e.attrs) ∧
    (Maquette.renumber n l).map Maquette.rowContent = l.map Maquette.rowContent := by
  induction l generalizing n with
  | nil => exact ⟨rfl, rfl⟩
  | cons a t ih =>
    simp only [Maquette.renumber, List.map_cons, (ih (n + 1)).1, (ih (n + 1)).2,
      (Maquette.setNumber_attrs n a).1, (Maquette.setNumber_attrs n a).2, and_self]

theorem Maquette.pairwise_of_map_attrs (R : List (String × String) → List (String × String) → Prop)
    (l l' : List Maquette.Element)
    (h : l'.map (fun e => e.attrs) = l.map (fun e => e.attrs))
    (hl : l.Pairwise (fun a b => R a.attrs b.attrs)) :
    l'.Pairwise (fun a b => R a.attrs b.attrs) := by
  have h1 : (l.map (fun e => e.attrs)).Pairwise R := List.pairwise_map.mpr hl
  rw [← h] at h1
  exact List.pairwise_map.mp h1

/-! ## The claims -/

/-- C1 (counterexample). Module M1 of class C1 is selected, class C2 is chosen
instead and its catalog is loaded: the selection still holds M1, which is not an
id of the catalog just fetched for the selected class C2. -/
theorem selection_outside_current_catalog :
    ((run runSecondCatalog (init examplePage)).classe.map (fun c => c.id)) = some "C2" ∧
    (run runSecondCatalog (init examplePage)).modulesData = [moduleM2] ∧
    "M1" ∈ (run runSecondCatalog (init examplePage)).selectedModules ∧
    ¬ ∃ m ∈ (run runSecondCatalog (init examplePage)).modulesData, m.id.toJsString = "M1" := by
  decide

/-- C1 (amended). On a page that shows no module card when the script starts,
in every state reached through events every id in `selectedModules` is the
id, as a string, of a module of a catalog that a response has stored in
`modulesData` earlier in the run, whichever class was selected then. -/
theorem selection_from_stored_catalogs (page : WizardState) (events : List Event)
    (hpage : NoCards page) :
    ∀ id ∈ (run events (init page)).selectedModules,
      IdAmong (catalogsStored events (init page)) id := by
  have h0 : SelectionFrom [] (init page) := by
    refine ⟨fun id hid => absurd hid (List.not_mem_nil _), fun m hm => ?_⟩
    have : shownModules (init page) = [] := hpage
    rw [this] at hm
    exact absurd hm (List.not_mem_nil _)
  have := run_selectionFrom events [] (init page) h0
  simpa using this.1

/-- Witness of C1 (amended): the run that selects M1 and then loads the
catalog of class C2. -/
theorem selection_from_stored_catalogs_witness :
    NoCards examplePage ∧
    ∀ id ∈ (run runSecondCatalog (init examplePage)).selectedModules,
      IdAmong (catalogsStored runSecondCatalog (init examplePage)) id :=
  ⟨by unfold NoCards; decide,
    selection_from_stored_catalogs examplePage runSecondCatalog (by unfold NoCards; decide)⟩

/-- C2 (counterexample). With module M1 selected and the catalog of C1 loaded,
a change to class C2, and a change to no class, both leave `selectedModules`
and `modulesData` non-empty. -/
theorem handleClasseChange_keeps_selection :
    (handleClasseChange (some optionC2)
      (run runSelectM1 (init examplePage))).selectedModules = ["M1"] ∧
    (handleClasseChange (some optionC2)
      (run runSelectM1 (init examplePage))).modulesData = [moduleM1] ∧
    (handleClasseChange none (run runSelectM1 (init examplePage))).selectedModules = ["M1"] ∧
    (handleClasseChange none (run runSelectM1 (init examplePage))).modulesData = [moduleM1] := by
  decide

/-- C2 (amended). Handling a class-selection change sets `formData.classe` to
the chosen class, or to null when no class is chosen, and leaves
`selectedModules`, `modulesData`, the rendered module list and the pending
requests as they were. -/
theorem handleClasseChange_only_sets_classe (opt : Option SelectOption) (s : WizardState) :
    (handleClasseChange opt s).selectedModules = s.selectedModules ∧
    (handleClasseChange opt s).modulesData = s.modulesData ∧
    (handleClasseChange opt s).modulesList = s.modulesList ∧
    (handleClasseChange opt s).pendingFetches = s.pendingFetches ∧
    (handleClasseChange opt s).classe =
      (match opt with
       | some o =>
         if o.value ≠ "" then
           some ⟨o.value, o.text, orElseStr o.dataNiveau "", orElseStr o.dataFiliere ""⟩
         else none
       | none => none) := by
  obtain ⟨c, t, b, h⟩ := handleClasseChange_frame opt s
  refine ⟨by rw [h], by rw [h], by rw [h], by rw [h], ?_⟩
  unfold handleClasseChange
  cases opt with
  | none => simp [disableButton]
  | some o =>
    by_cases hv : o.value = ""
    · simp [hv, disableButton]
    · simp [hv, enableButton, displayClasseInfo, safeSetText]

/-- C3 (counterexample). The request for class C1 is still pending when class C2
is chosen; its response then replaces the catalog, the rendered list and the
visibility of the module area. -/
theorem stale_response_overwrites :
    ((run runStaleRequest (init examplePage)).classe.map (fun c => c.id)) = some "C2" ∧
    (run runStaleRequest (init examplePage)).pendingFetches = ["C1"] ∧
    (step (.response 0 (.json (okPayload "C1" [moduleM1])))
        (run runStaleRequest (init examplePage))).modulesData ≠
      (run runStaleRequest (init examplePage)).modulesData ∧
    (step (.response 0 (.json (okPayload "C1" [moduleM1])))
        (run runStaleRequest (init examplePage))).modulesList ≠
      (run runStaleRequest (init examplePage)).modulesList ∧
    (step (.response 0 (.json (okPayload "C1" [moduleM1])))
        (run runStaleRequest (init examplePage))).dNone ≠
      (run runStaleRequest (init examplePage)).dNone := by
  decide

/-- C3 (amended). A response is processed without regard to the class its
request was issued for: whatever class is selected now, it leaves the
selection (`selectedModules`, teacher, class), `currentStep` and the buttons as
they were, and `modulesData` becomes the catalog it delivers, or stays as it
was when it delivers none. -/
theorem response_applied_for_any_class (s : WizardState) (i : Nat) (issuedFor : String)
    (r : FetchResult) (h : s.pendingFetches.get? i = some issuedFor) :
    (step (.response i r) s).selectedModules = s.selectedModules ∧
    (step (.response i r) s).professeur = s.professeur ∧
    (step (.response i r) s).classe = s.classe ∧
    (step (.response i r) s).currentStep = s.currentStep ∧
    (step (.response i r) s).buttons = s.buttons ∧
    (step (.response i r) s).modulesData = (deliveredCatalog r).getD s.modulesData := by
  obtain ⟨d, n, md, ml, hf⟩ := processResponse_frame r
    { s with pendingFetches := s.pendingFetches.eraseIdx i }
  have hm := processResponse_modulesData r
    { s with pendingFetches := s.pendingFetches.eraseIdx i }
  refine ⟨?_, ?_, ?_, ?_, ?_, ?_⟩
  · simp only [step, h, hf]
  · simp only [step, h, hf]
  · simp only [step, h, hf]
  · simp only [step, h, hf]
  · simp only [step, h, hf]
  · simp only [step, h]
    exact hm

/-- Witness of C3 (amended): the response to the request issued for C1 while
C2 is selected. -/
theorem response_applied_for_any_class_witness :
    (run runStaleRequest (init examplePage)).pendingFetches.get? 0 = some "C1" ∧
    (step (.response 0 (.json (okPayload "C1" [moduleM1])))
        (run runStaleRequest (init examplePage))).modulesData =
      (deliveredCatalog (.json (okPayload "C1" [moduleM1]))).getD
        (run runStaleRequest (init examplePage)).modulesData :=
  ⟨by decide,
    (response_applied_for_any_class (run runStaleRequest (init examplePage)) 0 "C1"
      (.json (okPayload "C1" [moduleM1])) (by decide)).2.2.2.2.2⟩

/-- C4. Starting from `currentStep = 1`, after any sequence of events (calls of
`showStep` with any integer, button clicks, Escape and Enter, submit events,
timers and responses) `currentStep` is between 1 and 4. -/
theorem currentStep_in_range (page : WizardState) (events : List Event) :
    1 ≤ (run events (init page)).currentStep ∧ (run events (init page)).currentStep ≤ 4 :=
  (run_stepsInRange events (init page)
    ⟨⟨le_refl 1, by show (1 : Int) ≤ 4; decide⟩, fun _ hp => absurd hp (List.not_mem_nil _)⟩).1

/-- C5. Failing run: on step 2, the previous and the next button are clicked
before the first timer runs; after both timers the contents of steps 1 and 3
are both active while `currentStep` is 3. The same happens with two direct
calls `showStep(2)`, `showStep(3)` from step 1. -/
theorem overlapping_showStep_two_active :
    activeSteps (run runOverlap (init examplePage)) = [1, 3] ∧
    (run runOverlap (init examplePage)).currentStep = 3 ∧
    activeSteps (run [.callShowStep 2, .callShowStep 3, .timeout 0, .timeout 0]
      (init examplePage)) = [2, 3] := by
  decide

/-- C6. For `n` in 1, 2, 3: when `validateStep(n)` fails, `validateAndShowStep(n, n + 1)`
only adds a warning notice (the current step, the selection and the step
contents stay as they are); when it succeeds and the content of the current
step is on the page, the call leaves a continuation whose run makes `n + 1` the
current step; and from step `n` with no continuation pending, any number of
calls, interleaved in any way with the runs of their continuations, never
gives a step beyond `n + 1`. -/
theorem validateAndShowStep_no_skip (n : Int) (s : WizardState)
    (hn : n = 1 ∨ n = 2 ∨ n = 3) :
    ((validateStep n s).1 = false →
      ∃ msg, validateAndShowStep n (n + 1) s = showNotification msg "warning" s) ∧
    ((validateStep n s).1 = true →
      (queryStepContent s.currentStep s.stepContents).isSome = true →
      (step (.timeout s.pendingSteps.length)
        (validateAndShowStep n (n + 1) s)).currentStep = n + 1) ∧
    (s.currentStep = n → s.pendingSteps = [] →
      ∀ acts, (advanceRun n acts s).currentStep ≤ n + 1) := by
  refine ⟨fun hf => ?_, fun ht hc => ?_, fun hs hp acts => ?_⟩
  · rcases validateAndShowStep_cases n (n + 1) s with ⟨_, h2⟩ | ⟨h1, _⟩
    · exact h2
    · rw [hf] at h1; exact absurd h1 (by decide)
  · rcases validateAndShowStep_cases n (n + 1) s with ⟨h1, _⟩ | ⟨_, h2⟩
    · rw [ht] at h1; exact absurd h1 (by decide)
    · rw [h2]
      rcases showStep_frame (n + 1) s with h3 | ⟨c, _, _, h3⟩
      · exfalso
        unfold showStep totalSteps at h3
        rw [if_neg (by omega)] at h3
        cases hq : queryStepContent s.currentStep s.stepContents with
        | none => rw [hq] at hc; exact absurd hc (by decide)
        | some c =>
          rw [hq] at h3
          have := congrArg (fun x => x.pendingSteps.length) h3
          simp at this
      · exact timeout_last_currentStep _ s.pendingSteps c (n + 1) (by rw [h3])
  · have h := advanceRun_inv n acts s
      ⟨Or.inl hs, by rw [hp]; intro p hp; exact absurd hp (List.not_mem_nil _)⟩
    rcases h.1 with h1 | h1 <;> omega

/-- Witness of C6: on step 1 of the example page with teacher T1 chosen. -/
theorem validateAndShowStep_no_skip_witness :
    (1 = 1 ∨ 1 = 2 ∨ (1 : Int) = 3) ∧
    (validateStep 1 (run [.professeurChange (some optionT1)] (init examplePage))).1 = true ∧
    (step (.timeout 0)
      (validateAndShowStep 1 (1 + 1)
        (run [.professeurChange (some optionT1)] (init examplePage)))).currentStep = 1 + 1 :=
  ⟨Or.inl rfl, by decide,
    (validateAndShowStep_no_skip 1 (run [.professeurChange (some optionT1)] (init examplePage))
      (Or.inl rfl)).2.1 (by decide) (by decide)⟩

/-- C7. `validateStep(1)` fails exactly when no teacher is chosen, `validateStep(2)`
exactly when no class is chosen, `validateStep(3)` exactly when `selectedModules`
is empty, and no other step fails (step 4 included); a failing call adds one
notice of type warning, a succeeding call leaves the state as it is. -/
theorem validateStep_fails_iff (k : Int) (s : WizardState) :
    ((validateStep k s).1 = false ↔
      (k = 1 ∧ s.professeur = none) ∨ (k = 2 ∧ s.classe = none) ∨
      (k = 3 ∧ s.selectedModules = [])) ∧
    (validateStep 4 s).1 = true ∧
    ((validateStep k s).1 = false ↔
      ∃ msg, (validateStep k s).2.notices = s.notices ++ [⟨msg, "warning"⟩]) ∧
    ((validateStep k s).1 = true ↔ (validateStep k s).2 = s) := by
  have hne : ∀ (msg : String), s.notices ++ [(⟨msg, "warning"⟩ : Notice)] ≠ s.notices := by
    intro msg h
    have := congrArg List.length h
    simp at this
  have hne2 : ∀ (msg : String), showNotification msg "warning" s ≠ s := by
    intro msg h
    have := congrArg WizardState.notices h
    exact hne msg this
  refine ⟨?_, rfl, ?_, ?_⟩
  · unfold validateStep
    split_ifs with h1 h2 h3 h4 h5 h6 <;> simp_all [Option.isNone_iff_eq_none]
  · rcases validateStep_frame k s with ⟨h1, h2⟩ | ⟨h1, msg, h2⟩
    · rw [h1, h2]
      simp only [Bool.true_eq_false, false_iff, not_exists]
      intro msg h
      exact hne msg h.symm
    · rw [h1, h2]
      simp only [true_iff]
      exact ⟨msg, rfl⟩
  · rcases validateStep_frame k s with ⟨h1, h2⟩ | ⟨h1, msg, h2⟩
    · rw [h1, h2]; simp
    · rw [h1, h2]
      simp only [Bool.false_eq_true, false_iff]
      exact hne2 msg

/-- C8. In a state reached from the initial one, when a click on the next
button of the current step, the Enter key or a submit event requests a step:
the current step `n` is not changed by the event itself, at most one
continuation is added, its run sets `currentStep` to the requested step `m`,
and the validation predicate of every step `k` with `n ≤ k < m` holds in the
state in which the request is made. -/
theorem later_step_requires_valid_steps (page : WizardState) (events : List Event)
    (s : WizardState) (e : Event) (hs : s = run events (init page))
    (he : IsAdvanceOp s e) :
    (step e s).currentStep = s.currentStep ∧
    ((step e s).pendingSteps = s.pendingSteps ∨
      ∃ c m, (step e s).pendingSteps = s.pendingSteps ++ [⟨c, m⟩] ∧
        (step (.timeout s.pendingSteps.length) (step e s)).currentStep = m ∧
        ∀ k, s.currentStep ≤ k → k < m → StepValid k s) := by
  have hr : 1 ≤ s.currentStep ∧ s.currentStep ≤ 4 := by
    rw [hs]
    exact (run_stepsInRange events (init page)
      ⟨⟨le_refl 1, by show (1 : Int) ≤ 4; decide⟩,
        fun _ hp => absurd hp (List.not_mem_nil _)⟩).1
  obtain ⟨n, hi, ov, sb, h⟩ := advanceOp_requestsWith s e hr he
  rcases h with h | ⟨c, m, hP, _, _, h⟩
  · rw [h]
    exact ⟨rfl, Or.inl rfl⟩
  · refine ⟨by rw [h], Or.inr ⟨c, m, by rw [h], ?_, hP⟩⟩
    exact timeout_last_currentStep _ s.pendingSteps c m (by rw [h])

/-- Witness of C8: the next button of step 1 once teacher T1 is chosen. -/
theorem later_step_requires_valid_steps_witness :
    IsAdvanceOp (run [.professeurChange (some optionT1)] (init examplePage))
      (.click "btn-step-1-next") ∧
    ((step (.click "btn-step-1-next")
        (run [.professeurChange (some optionT1)] (init examplePage))).pendingSteps =
      (run [.professeurChange (some optionT1)] (init examplePage)).pendingSteps ∨
      ∃ c m, (step (.click "btn-step-1-next")
          (run [.professeurChange (some optionT1)] (init examplePage))).pendingSteps =
          (run [.professeurChange (some optionT1)] (init examplePage)).pendingSteps ++
            [⟨c, m⟩] ∧
        (step (.timeout
            (run [.professeurChange (some optionT1)] (init examplePage)).pendingSteps.length)
          (step (.click "btn-step-1-next")
            (run [.professeurChange (some optionT1)] (init examplePage)))).currentStep = m ∧
        ∀ k, (run [.professeurChange (some optionT1)] (init examplePage)).currentStep ≤ k →
          k < m → StepValid k (run [.professeurChange (some optionT1)] (init examplePage))) :=
  ⟨Or.inl (by decide),
    (later_step_requires_valid_steps examplePage [.professeurChange (some optionT1)]
      (run [.professeurChange (some optionT1)] (init examplePage)) (.click "btn-step-1-next")
      rfl (Or.inl (by decide))).2⟩

/-- C9. Starting from the empty selection of a freshly loaded script, after any
sequence of calls of `toggleModuleSelection` no id occurs twice in
`selectedModules`. -/
theorem selectedModules_nodup_after_toggles (page : WizardState)
    (calls : List (String × Bool × Nat)) :
    (toggleRun calls (init page)).selectedModules.Nodup :=
  toggleRun_nodup calls (init page) List.nodup_nil

/-- C10. On a selection without duplicates (the only ones the script can hold),
calling `toggleModuleSelection(id, flag)` twice in a row gives the same
`selectedModules` as calling it once; adding an id that is present and removing
an id that is absent leave `selectedModules` as it is. The function is total:
no call fails. -/
theorem toggleModuleSelection_idempotent (moduleId : String) (isSelected : Bool)
    (card : Nat) (s : WizardState) (h : s.selectedModules.Nodup) :
    (toggleModuleSelection moduleId isSelected card
        (toggleModuleSelection moduleId isSelected card s)).selectedModules =
      (toggleModuleSelection moduleId isSelected card s).selectedModules ∧
    (moduleId ∈ s.selectedModules →
      (toggleModuleSelection moduleId true card s).selectedModules = s.selectedModules) ∧
    (moduleId ∉ s.selectedModules →
      (toggleModuleSelection moduleId false card s).selectedModules = s.selectedModules) := by
  simp only [toggleModuleSelection_selectedModules]
  refine ⟨toggleSelected_twice _ _ _ h, ?_, ?_⟩
  · intro hm
    simp [toggleSelected, hm]
  · intro hm
    simp only [toggleSelected, Bool.false_eq_true, if_false]
    exact List.erase_of_not_mem hm

/-- Witness of C10 on the state in which module M1 is selected. -/
theorem toggleModuleSelection_idempotent_witness :
    (run runSelectM1 (init examplePage)).selectedModules.Nodup ∧
    ((toggleModuleSelection "M1" false 1
        (toggleModuleSelection "M1" false 1
          (run runSelectM1 (init examplePage)))).selectedModules =
      (toggleModuleSelection "M1" false 1
          (run runSelectM1 (init examplePage))).selectedModules ∧
    ("M1" ∈ (run runSelectM1 (init examplePage)).selectedModules →
      (toggleModuleSelection "M1" true 1
          (run runSelectM1 (init examplePage))).selectedModules =
        (run runSelectM1 (init examplePage)).selectedModules) ∧
    ("M1" ∉ (run runSelectM1 (init examplePage)).selectedModules →
      (toggleModuleSelection "M1" false 1
          (run runSelectM1 (init examplePage))).selectedModules =
        (run runSelectM1 (init examplePage)).selectedModules)) :=
  ⟨by decide, toggleModuleSelection_idempotent "M1" false 1
    (run runSelectM1 (init examplePage)) (by decide)⟩

/-- C11. For two calls of `toggleModuleSelection` on distinct ids, either order
gives the same selected ids (the two lists are permutations of each other),
hence the same selected count, total hours and total cost, and the same texts
in the three summary elements. -/
theorem toggles_on_distinct_ids_commute (a b : String) (fa fb : Bool) (ca cb : Nat)
    (s : WizardState) (hab : a ≠ b) :
    (toggleModuleSelection a fa ca (toggleModuleSelection b fb cb s)).selectedModules.Perm
      (toggleModuleSelection b fb cb (toggleModuleSelection a fa ca s)).selectedModules ∧
    (toggleModuleSelection a fa ca (toggleModuleSelection b fb cb s)).selectedModules.length =
      (toggleModuleSelection b fb cb
        (toggleModuleSelection a fa ca s)).selectedModules.length ∧
    totalHours
        (toggleModuleSelection a fa ca (toggleModuleSelection b fb cb s)).selectedModules
        (toggleModuleSelection a fa ca (toggleModuleSelection b fb cb s)).modulesData =
      totalHours
        (toggleModuleSelection b fb cb (toggleModuleSelection a fa ca s)).selectedModules
        (toggleModuleSelection b fb cb (toggleModuleSelection a fa ca s)).modulesData ∧
    totalAmount
        (toggleModuleSelection a fa ca (toggleModuleSelection b fb cb s)).selectedModules
        (toggleModuleSelection a fa ca (toggleModuleSelection b fb cb s)).modulesData =
      totalAmount
        (toggleModuleSelection b fb cb (toggleModuleSelection a fa ca s)).selectedModules
        (toggleModuleSelection b fb cb (toggleModuleSelection a fa ca s)).modulesData ∧
    summaryTexts (toggleModuleSelection a fa ca (toggleModuleSelection b fb cb s)) =
      summaryTexts (toggleModuleSelection b fb cb (toggleModuleSelection a fa ca s)) := by
  have hperm := toggleSelected_comm a b fa fb s.selectedModules hab
  have hlen := hperm.length_eq
  have hh := totalHours_perm hperm s.modulesData
  have ha := totalAmount_perm hperm s.modulesData
  simp only [toggleModuleSelection_selectedModules, toggleModuleSelection_modulesData,
    toggleModuleSelection_summary, Option.map_map]
  refine ⟨hperm, hlen, hh, ha, ?_⟩
  have hb := toggleModuleSelection_summary b fb cb s
  have ha' := toggleModuleSelection_summary a fa ca s
  simp only [summaryTexts, List.cons.injEq, and_true] at hb ha'
  obtain ⟨b1, b2, b3⟩ := hb
  obtain ⟨a1, a2, a3⟩ := ha'
  rw [hlen, hh, ha, b1, b2, b3, a1, a2, a3]
  simp only [Option.map_map, Function.comp_def]

/-- Witness of C11: selecting M2 and deselecting M1 in either order, from the
state in which M1 is selected. -/
theorem toggles_on_distinct_ids_commute_witness :
    "M2" ≠ "M1" ∧
    summaryTexts (toggleModuleSelection "M2" true 0
        (toggleModuleSelection "M1" false 1 (run runSelectM1 (init examplePage)))) =
      summaryTexts (toggleModuleSelection "M1" false 1
        (toggleModuleSelection "M2" true 0 (run runSelectM1 (init examplePage)))) :=
  ⟨by decide,
    (toggles_on_distinct_ids_commute "M2" "M1" true false 0 1
      (run runSelectM1 (init examplePage)) (by decide)).2.2.2.2⟩

/-- C12 (counterexample). Module M1 of the loaded catalog is selected and the
total is 30 hours and 280000; toggling M1 on (nothing changes, it is already
selected) and then off leaves the totals at 0. The same happens through two
clicks on the card of M1 after the catalog has been rendered again. -/
theorem on_then_off_changes_totals :
    totalHours (run runSelectM1 (init examplePage)).selectedModules
      (run runSelectM1 (init examplePage)).modulesData = 30 ∧
    totalAmount (run runSelectM1 (init examplePage)).selectedModules
      (run runSelectM1 (init examplePage)).modulesData = 280000 ∧
    totalHours
      (toggleModuleSelection "M1" false 1
        (toggleModuleSelection "M1" true 1
          (run runSelectM1 (init examplePage)))).selectedModules
      (toggleModuleSelection "M1" false 1
        (toggleModuleSelection "M1" true 1
          (run runSelectM1 (init examplePage)))).modulesData = 0 ∧
    totalAmount
      (toggleModuleSelection "M1" false 1
        (toggleModuleSelection "M1" true 1
          (run runSelectM1 (init examplePage)))).selectedModules
      (toggleModuleSelection "M1" false 1
        (toggleModuleSelection "M1" true 1
          (run runSelectM1 (init examplePage)))).modulesData = 0 ∧
    summaryTexts (run runReenterStep3 (init examplePage)) =
      [some "1", some "30.0", some (formatMoney 280000 false)] ∧
    summaryTexts (run (runReenterStep3 ++ [.cardClick 1]) (init examplePage)) =
      [some "1", some "30.0", some (formatMoney 280000 false)] ∧
    summaryTexts (run (runReenterStep3 ++ [.cardClick 1, .cardClick 1])
      (init examplePage)) = [some "0", some "0.0", some "0"] := by
  decide

/-- C12 (amended). For every wizard state in which the module is not selected,
toggling it on and then off gives back the selection of before, hence total
hours and total cost exactly equal to their values before the two toggles. -/
theorem on_then_off_round_trip (moduleId : String) (c1 c2 : Nat) (s : WizardState)
    (h : moduleId ∉ s.selectedModules) :
    (toggleModuleSelection moduleId false c2
        (toggleModuleSelection moduleId true c1 s)).selectedModules = s.selectedModules ∧
    totalHours
        (toggleModuleSelection moduleId false c2
          (toggleModuleSelection moduleId true c1 s)).selectedModules
        (toggleModuleSelection moduleId false c2
          (toggleModuleSelection moduleId true c1 s)).modulesData =
      totalHours s.selectedModules s.modulesData ∧
    totalAmount
        (toggleModuleSelection moduleId false c2
          (toggleModuleSelection moduleId true c1 s)).selectedModules
        (toggleModuleSelection moduleId false c2
          (toggleModuleSelection moduleId true c1 s)).modulesData =
      totalAmount s.selectedModules s.modulesData := by
  have hsel : toggleSelected moduleId false (toggleSelected moduleId true s.selectedModules) =
      s.selectedModules := by
    simp only [toggleSelected, h, if_false, if_true, Bool.false_eq_true]
    rw [List.erase_append_right _ h]
    simp
  simp only [toggleModuleSelection_selectedModules, toggleModuleSelection_modulesData, hsel,
    and_self]

/-- Witness of C12 (amended): module M2 in the state in which only M1 is
selected. -/
theorem on_then_off_round_trip_witness :
    "M2" ∉ (run runSelectM1 (init examplePage)).selectedModules ∧
    (toggleModuleSelection "M2" false 0
        (toggleModuleSelection "M2" true 0
          (run runSelectM1 (init examplePage)))).selectedModules =
      (run runSelectM1 (init examplePage)).selectedModules :=
  ⟨by decide,
    (on_then_off_round_trip "M2" 0 0 (run runSelectM1 (init examplePage)) (by decide)).1⟩

/-- C13. For a catalog with distinct ids and a selection drawn from it, the
total computed by `updateTotalHours` is the sum over the selected modules of
lecture hours plus tutorial hours, a missing volume counting as 0, and this is
the number written (with one decimal) in the element of the total hours; a
single selected module with 20 lecture and 10 tutorial hours gives 30. -/
theorem total_hours_matches_spec (s : WizardState) (hd : DistinctIds s.modulesData)
    (hs : DrawnFrom s.selectedModules s.modulesData) :
    totalHours s.selectedModules s.modulesData =
      specTotalHours s.selectedModules s.modulesData ∧
    getById "summary-total-hours" (updateTotalHours s).texts =
      (getById "summary-total-hours" s.texts).map
        (fun _ => toFixed1 (specTotalHours s.selectedModules s.modulesData)) ∧
    (∀ m : Module, m.volume_cm = some 20 → m.volume_td = some 10 →
      totalHours [m.id.toJsString] [m] = 30) := by
  have h := totalHours_eq_spec s.selectedModules s.modulesData hd hs.1
  refine ⟨h, ?_, ?_⟩
  · simp only [updateTotalHours, safeSetText]
    rw [getById_setById_same, h]
  · intro m h1 h2
    simp [totalHours, findModule, h1, h2]

/-- Witness of C13: the state in which module M1 (20 and 10 hours) is selected. -/
theorem total_hours_matches_spec_witness :
    DistinctIds (run runSelectM1 (init examplePage)).modulesData ∧
    DrawnFrom (run runSelectM1 (init examplePage)).selectedModules
      (run runSelectM1 (init examplePage)).modulesData ∧
    totalHours (run runSelectM1 (init examplePage)).selectedModules
        (run runSelectM1 (init examplePage)).modulesData =
      specTotalHours (run runSelectM1 (init examplePage)).selectedModules
        (run runSelectM1 (init examplePage)).modulesData :=
  ⟨by unfold DistinctIds; decide, by unfold DrawnFrom; decide,
    (total_hours_matches_spec (run runSelectM1 (init examplePage))
      (by unfold DistinctIds; decide) (by unfold DrawnFrom; decide)).1⟩

/-- C14. For a catalog with distinct ids and a selection drawn from it, the
total computed by `updateTotalAmount` is the sum over the selected modules of
lecture hours times 10000 plus tutorial hours times 8000; the text written in
the element of the total amount is the formatting of that sum, and without its
group separators it is the decimal numeral of the sum (a whole amount, which
rounding to the nearest unit leaves as it is). -/
theorem total_amount_matches_spec (s : WizardState) (hd : DistinctIds s.modulesData)
    (hs : DrawnFrom s.selectedModules s.modulesData) :
    totalAmount s.selectedModules s.modulesData =
      specTotalAmount s.selectedModules s.modulesData ∧
    getById "summary-total-amount" (updateTotalAmount s).texts =
      (getById "summary-total-amount" s.texts).map
        (fun _ => formatMoney (specTotalAmount s.selectedModules s.modulesData) false) ∧
    (formatMoney (specTotalAmount s.selectedModules s.modulesData) false).data.filter
        (fun c => decide (c ≠ Char.ofNat 8239)) =
      (toString (specTotalAmount s.selectedModules s.modulesData)).data := by
  have h := totalAmount_eq_spec s.selectedModules s.modulesData hd hs.1
  refine ⟨h, ?_, formatMoney_digits _⟩
  simp only [updateTotalAmount, safeSetText]
  rw [getById_setById_same, h]

/-- Witness of C14: the state in which module M1 is selected; the amount shown
is 280000. -/
theorem total_amount_matches_spec_witness :
    DistinctIds (run runSelectM1 (init examplePage)).modulesData ∧
    DrawnFrom (run runSelectM1 (init examplePage)).selectedModules
      (run runSelectM1 (init examplePage)).modulesData ∧
    specTotalAmount (run runSelectM1 (init examplePage)).selectedModules
      (run runSelectM1 (init examplePage)).modulesData = 280000 ∧
    totalAmount (run runSelectM1 (init examplePage)).selectedModules
        (run runSelectM1 (init examplePage)).modulesData =
      specTotalAmount (run runSelectM1 (init examplePage)).selectedModules
        (run runSelectM1 (init examplePage)).modulesData :=
  ⟨by unfold DistinctIds; decide, by unfold DrawnFrom; decide, by decide,
    (total_amount_matches_spec (run runSelectM1 (init examplePage))
      (by unfold DistinctIds; decide) (by unfold DrawnFrom; decide)).1⟩

/-- C15 (counterexample). Class C2 is chosen while the catalog of C1 is loaded;
the successful response for C2 returns the empty sequence, and `modulesData`
is still the catalog of C1 afterwards. -/
theorem empty_success_keeps_catalog :
    (run runSecondRequest (init examplePage)).pendingFetches = ["C2"] ∧
    (step (.response 0 (.json (okPayload "C2" [])))
      (run runSecondRequest (init examplePage))).modulesData = [moduleM1] ∧
    (step (.response 0 (.json (okPayload "C2" [])))
      (run runSecondRequest (init examplePage))).modulesData ≠ [] := by
  decide

/-- C15 (amended). After `loadModules` has processed a successful response,
`modulesData` is the returned module sequence, in the returned order, when that
sequence is not empty; when it is empty or missing, `modulesData` is left as it
was. -/
theorem successful_response_catalog (s : WizardState) (classe : Option String)
    (modules : Option (List Module)) (count : Option Nat) (error : Option String) :
    (processResponse (.json ⟨true, classe, modules, count, error⟩) s).modulesData =
      (match modules with
       | some (m :: ms) => m :: ms
       | _ => s.modulesData) := by
  rw [processResponse_modulesData]
  cases modules with
  | none => rfl
  | some l =>
    cases l with
    | nil => rfl
    | cons m ms => rfl

/-- C16 (counterexample). With the unit names 2 then 1, the group of unit 1 is
output before the group of unit 2, against the order of first occurrence; with
a unit name inherited from `Object.prototype`, rendering throws and no module
is output. -/
theorem renderModules_group_order_differs :
    (∃ nodes, renderNodes numeralUnits = .ok nodes ∧ headerNames nodes = ["1", "2"] ∧
      nodes ≠ specRender numeralUnits) ∧
    (numeralUnits.map ueNomOf = ["2", "1"] ∧
      headerNames (specRender numeralUnits) = ["2", "1"]) ∧
    renderNodes inheritedUnit = .error "modulesByUE[ueNom].push is not a function" :=
  ⟨⟨_, rfl, by decide, by decide⟩, by decide, rfl⟩

/-- C16 (amended). For every module list whose unit names are neither array
indices nor names inherited from `Object.prototype`, `renderModules` outputs
every input module exactly once, grouped by unit name (a module without unit
name going to the group Sans UE): each group is one header followed by the
cards of the modules of that unit in input order, and the groups are in the
order in which their unit names first occur in the input. -/
theorem renderModules_groups_by_unit (modules : List Module) (s : WizardState)
    (h : PlainUnitNames modules) :
    renderNodes modules = .ok (specRender modules) ∧
    ((specRender modules).filterMap nodeModule).Perm modules ∧
    (s.modulesList ≠ none →
      renderModules modules s = .ok { s with modulesList := some (specRender modules) }) := by
  have hr := renderNodes_plain modules h
  refine ⟨hr, specRender_perm modules, ?_⟩
  intro hl
  unfold renderModules
  cases hm : s.modulesList with
  | none => exact absurd hm hl
  | some old => simp only [hr]

/-- Witness of C16 (amended): two modules of the units UE1 and UE2. -/
theorem renderModules_groups_by_unit_witness :
    PlainUnitNames [moduleM1, moduleM2] ∧
    renderNodes [moduleM1, moduleM2] = .ok (specRender [moduleM1, moduleM2]) :=
  ⟨by unfold PlainUnitNames; decide,
    (renderModules_groups_by_unit [moduleM1, moduleM2] examplePage
      (by unfold PlainUnitNames; decide)).1⟩

/-- C17. For a failed catalog load (a response that is not ok, or a payload
with `success` false and error text `e`), processing the response leaves the
empty-state panel shown and the loading indicator and the module container
hidden, adds one notice of type danger whose text contains the reason (the
status, or `e`), and leaves `selectedModules` and the buttons, the advance
button of step 3 among them, as they were. -/
theorem failed_load_shows_empty_state (s : WizardState) (r : FetchResult) (reason : String)
    (h : FailsWith r reason) :
    EmptyShown s.dNone (processResponse r s).dNone ∧
    (∃ msg, (processResponse r s).notices = s.notices ++ [⟨msg, "danger"⟩] ∧
      Contains msg reason) ∧
    (processResponse r s).selectedModules = s.selectedModules ∧
    (processResponse r s).buttons = s.buttons ∧
    getById "btn-step-3-next" (processResponse r s).buttons =
      getById "btn-step-3-next" s.buttons := by
  obtain ⟨d, n, md, ml, hf⟩ := processResponse_frame r s
  have hsel : (processResponse r s).selectedModules = s.selectedModules := by rw [hf]
  have hbtn : (processResponse r s).buttons = s.buttons := by rw [hf]
  refine ⟨?_, ?_, hsel, hbtn, by rw [hbtn]⟩
  · rcases h with ⟨status, statusText, hr, _⟩ | ⟨data, hr, hs, _⟩
    · subst hr
      exact onFetchError_area _ s
    · subst hr
      have h1 := hideLoading_area s
      simp only [processResponse, onFetchData, hs, Bool.false_eq_true, if_false]
      exact emptyShown_after_hide h1 (showEmptyModules_area (hideLoading s))
  · rcases h with ⟨status, statusText, hr, hreason⟩ | ⟨data, hr, hs, he⟩
    · subst hr
      refine ⟨_, onFetchError_notices _ s, ?_⟩
      refine ⟨"Erreur lors du chargement des modules: Erreur HTTP ", ": " ++ statusText, ?_⟩
      rw [hreason]
      simp only [String.append_assoc]
      rfl
    · subst hr
      simp only [processResponse, onFetchData, hs, he, Bool.false_eq_true, if_false]
      by_cases hempty : reason = ""
      · refine ⟨_, rfl, ?_⟩
        simp only [hempty, if_true]
        exact ⟨"Erreur: Erreur inconnue", "", by decide⟩
      · refine ⟨_, rfl, ?_⟩
        simp only [hempty, if_false]
        exact ⟨"Erreur: ", "", by simp⟩

/-- Witness of C17: the payload of the spec scenario, `success` false with the
error text not found. -/
theorem failed_load_shows_empty_state_witness :
    FailsWith (.json ⟨false, none, none, none, some "not found"⟩) "not found" ∧
    ∃ msg, (processResponse (.json ⟨false, none, none, none, some "not found"⟩)
        (run runSecondRequest (init examplePage))).notices =
        (run runSecondRequest (init examplePage)).notices ++ [⟨msg, "danger"⟩] ∧
      Contains msg "not found" :=
  ⟨Or.inr ⟨_, rfl, rfl, rfl⟩,
    (failed_load_shows_empty_state (run runSecondRequest (init examplePage))
      (.json ⟨false, none, none, none, some "not found"⟩) "not found"
      (Or.inr ⟨_, rfl, rfl, rfl⟩)).2.1⟩

/-- C18 (counterexample). With the request for C2 pending and the loading
indicator shown, the first step of the response handler, `hideLoading`, leaves
none of the three elements visible. -/
theorem none_visible_after_hideLoading :
    (run runSecondRequest (init examplePage)).pendingFetches = ["C2"] ∧
    visibleCount (run runSecondRequest (init examplePage)) = 1 ∧
    visibleCount (hideLoading (run runSecondRequest (init examplePage))) = 0 := by
  decide

/-- C18 (amended). On a page with the three elements of the module area:
after `showLoading` (so once `loadModules` has started a request), after
`showModulesContainer`, after `showEmptyModules` and after the whole processing
of any response (success, empty result or failure) exactly one of the three
elements is visible; after `hideLoading` alone, the first step of the response
handler, none is visible. -/
theorem module_area_one_visible (s : WizardState) (hp : ModuleAreaPresent s) :
    visibleCount (showLoading s) = 1 ∧
    (∀ c, s.classe = some c → c.id ≠ "" →
      (loadModules s).pendingFetches = s.pendingFetches ++ [c.id] ∧
      visibleCount (loadModules s) = 1) ∧
    visibleCount (showModulesContainer s) = 1 ∧
    visibleCount (showEmptyModules s) = 1 ∧
    (∀ r, visibleCount (processResponse r s) = 1) ∧
    visibleCount (hideLoading (showLoading s)) = 0 := by
  refine ⟨visibleCount_of_loadingShown s _ hp (showLoading_area s), ?_,
    visibleCount_of_containerShown s _ hp (showModulesContainer_area s),
    visibleCount_of_emptyShown s _ hp (showEmptyModules_area s), ?_,
    visibleCount_hide_after_loading s⟩
  · intro c hc hid
    have hl : loadModules s =
        { showLoading s with pendingFetches := (showLoading s).pendingFetches ++ [c.id] } := by
      simp only [loadModules, hc, hid, if_false]
    rw [hl]
    exact ⟨rfl, visibleCount_of_loadingShown s _ hp (showLoading_area s)⟩
  · intro r
    rcases processResponse_area r s with h | h
    · exact visibleCount_of_emptyShown s _ hp h
    · exact visibleCount_of_containerShown s _ hp h

/-- Witness of C18 (amended): the example page once the request for C2 is
pending. -/
theorem module_area_one_visible_witness :
    ModuleAreaPresent (run runSecondRequest (init examplePage)) ∧
    ∀ r, visibleCount (processResponse r (run runSecondRequest (init examplePage))) = 1 :=
  ⟨by unfold ModuleAreaPresent; decide,
    (module_area_one_visible (run runSecondRequest (init examplePage))
      (by unfold ModuleAreaPresent; decide)).2.2.2.2.1⟩

/-- C19. `validateForm` returns true exactly when a teacher is chosen, a class
is chosen and `selectedModules` is not empty; when it returns false it has
added one notice and called `showStep(k)` for the smallest step `k` of 1, 2, 3
whose guard fails, and `handleFormSubmit` then prevents the submission. -/
theorem validateForm_routes_to_first_failing_step (s : WizardState) :
    ((validateForm s).1 = true ↔
      s.professeur ≠ none ∧ s.classe ≠ none ∧ s.selectedModules ≠ []) ∧
    ((validateForm s).1 = false →
      (handleFormSubmit s).1 = true ∧
      ∃ k msg, (k = 1 ∨ k = 2 ∨ k = 3) ∧ ¬ StepValid k s ∧
        (∀ j, 1 ≤ j → j < k → StepValid j s) ∧
        (validateForm s).2 = showStep k (showNotification msg "danger" s) ∧
        (handleFormSubmit s).2 = showStep k (showNotification msg "danger" s)) := by
  unfold handleFormSubmit validateForm
  by_cases h1 : s.professeur = none
  · simp only [h1, Option.isNone_none, if_true]
    refine ⟨by simp, fun _ => ⟨by first | rfl | trivial, 1, _, Or.inl rfl, ?_, ?_, rfl, rfl⟩⟩
    · intro h; exact h.1 rfl h1
    · intro j hj1 hj2; omega
  · have h1' : s.professeur.isNone = false := by
      cases hp : s.professeur with
      | none => exact absurd hp h1
      | some p => rfl
    by_cases h2 : s.classe = none
    · simp only [h1', h2, Option.isNone_none, if_true, Bool.false_eq_true, if_false]
      refine ⟨by simp, fun _ => ⟨by first | rfl | trivial, 2, _, Or.inr (Or.inl rfl), ?_, ?_, rfl, rfl⟩⟩
      · intro h; exact h.2.1 rfl h2
      · intro j hj1 hj2
        have : j = 1 := by omega
        subst this
        exact ⟨fun _ => h1, fun h => absurd h (by decide), fun h => absurd h (by decide)⟩
    · have h2' : s.classe.isNone = false := by
        cases hp : s.classe with
        | none => exact absurd hp h2
        | some p => rfl
      by_cases h3 : s.selectedModules = []
      · simp only [h1', h2', h3, List.length_nil, if_true, Bool.false_eq_true, if_false]
        refine ⟨by simp, fun _ => ⟨by first | rfl | trivial, 3, _, Or.inr (Or.inr rfl), ?_, ?_, rfl, rfl⟩⟩
        · intro h; exact h.2.2 rfl h3
        · intro j hj1 hj2
          have : j = 1 ∨ j = 2 := by omega
          rcases this with hj | hj <;> subst hj
          · exact ⟨fun _ => h1, fun h => absurd h (by decide), fun h => absurd h (by decide)⟩
          · exact ⟨fun h => absurd h (by decide), fun _ => h2, fun h => absurd h (by decide)⟩
      · have h3' : ¬ s.selectedModules.length = 0 := by
          intro h; exact h3 (List.length_eq_zero.mp h)
        simp only [h1', h2', h3', if_false, Bool.false_eq_true]
        exact ⟨by simp [h1, h2, h3], fun h => absurd h (by decide)⟩

/-- C20. When `handleFormSubmit` accepts a submission (it does not call
`preventDefault`), the value of the hidden field is the JSON array text of
`selectedModules` in selection order, and decoding that text gives back exactly
the list of selected ids; when it blocks the submission, the hidden field is
left as it was. -/
theorem handleFormSubmit_hidden_field (s : WizardState) :
    ((handleFormSubmit s).1 = false →
      (handleFormSubmit s).2.hiddenInput =
        s.hiddenInput.map (fun _ => jsonStringify s.selectedModules) ∧
      jsonParseStrings (jsonStringify s.selectedModules) = some s.selectedModules) ∧
    ((handleFormSubmit s).1 = true →
      (handleFormSubmit s).2.hiddenInput = s.hiddenInput) := by
  unfold handleFormSubmit
  rcases validateForm_cases s with ⟨h1, h2⟩ | ⟨h1, k, msg, h2⟩
  · simp only [h1, h2, Bool.true_eq_false, if_false, showSubmitLoading]
    exact ⟨fun _ => ⟨by first | rfl | trivial, jsonParseStrings_jsonStringify _⟩, by first | trivial | simp⟩
  · simp only [h1, h2, if_true]
    refine ⟨fun h => absurd h (by decide), fun _ => ?_⟩
    rw [showStep_hiddenInput]
    rfl

/-- The submission of the state that is ready to submit is accepted and the
hidden field then holds the text of the one selected id. -/
theorem handleFormSubmit_example :
    (handleFormSubmit (run runReadyToSubmit (init examplePage))).1 = false ∧
    (handleFormSubmit (run runReadyToSubmit (init examplePage))).2.hiddenInput =
      some (jsonStringify ["M1"]) := by
  decide

/-- C21. Each helper that looks an element up by id skips the update when the
element is absent and returns the state it was given: `safeSetText`,
`safeSetHTML` (on the contents by id), `enableButton`, `disableButton`,
`hideLoading`, and with the three module-area elements absent `showLoading`,
`showModulesContainer` and `showEmptyModules`; `updateSelectedList` without the
list element and `generateRecapModules` without the table body. In the three
functions that address several elements an absent one stays absent. -/
theorem absent_element_is_skipped (s : WizardState) (id text : String)
    (elements : List (String × String)) :
    (getById id s.texts = none → safeSetText id text s = s) ∧
    (getById id elements = none → safeSetHTML id text elements = elements) ∧
    (getById id s.buttons = none → enableButton id s = s ∧ disableButton id s = s) ∧
    (getById "modules-loading" s.dNone = none → hideLoading s = s) ∧
    (getById "modules-loading" s.dNone = none →
      getById "modules-container" s.dNone = none →
      getById "modules-empty" s.dNone = none →
      showLoading s = s ∧ showModulesContainer s = s ∧ showEmptyModules s = s) ∧
    (getById id s.dNone = none →
      getById id (showLoading s).dNone = none ∧
      getById id (showModulesContainer s).dNone = none ∧
      getById id (showEmptyModules s).dNone = none) ∧
    (s.selectedList = none → updateSelectedList s = s) ∧
    (s.recapRows = none → generateRecapModules s = s) := by
  refine ⟨?_, ?_, ?_, ?_, ?_, ?_, ?_, ?_⟩
  · intro h
    simp only [safeSetText, setById_absent _ _ _ h]
  · intro h
    exact setById_absent _ _ _ h
  · intro h
    simp only [enableButton, disableButton, setById_absent _ _ _ h, and_self]
  · intro h
    simp only [hideLoading, setById_absent _ _ _ h]
  · intro hl hc he
    simp only [showLoading, showModulesContainer, showEmptyModules,
      setById_absent _ _ _ hl, setById_absent _ _ _ hc, setById_absent _ _ _ he, and_self]
  · intro h
    refine ⟨?_, ?_, ?_⟩
    · exact getById_setById_none _ _ _ _ (getById_setById_none _ _ _ _
        (getById_setById_none _ _ _ _ h))
    · exact getById_setById_none _ _ _ _ (getById_setById_none _ _ _ _
        (getById_setById_none _ _ _ _ h))
    · exact getById_setById_none _ _ _ _ (getById_setById_none _ _ _ _
        (getById_setById_none _ _ _ _ h))
  · intro h
    simp only [updateSelectedList, h]
  · intro h
    simp only [generateRecapModules, h]

/-- Witness of C21: on the page without elements every helper returns the
state it was given. -/
theorem absent_element_is_skipped_witness :
    safeSetText "selected-count" "1" barePage = barePage ∧
    enableButton "btn-step-3-next" barePage = barePage ∧
    disableButton "btn-step-3-next" barePage = barePage ∧
    hideLoading barePage = barePage ∧
    showLoading barePage = barePage ∧
    showModulesContainer barePage = barePage ∧
    showEmptyModules barePage = barePage ∧
    updateSelectedList barePage = barePage ∧
    generateRecapModules barePage = barePage :=
  ⟨(absent_element_is_skipped barePage "selected-count" "1" []).1 rfl,
   ((absent_element_is_skipped barePage "btn-step-3-next" "1" []).2.2.1 rfl).1,
   ((absent_element_is_skipped barePage "btn-step-3-next" "1" []).2.2.1 rfl).2,
   (absent_element_is_skipped barePage "x" "1" []).2.2.2.1 rfl,
   ((absent_element_is_skipped barePage "x" "1" []).2.2.2.2.1 rfl rfl rfl).1,
   ((absent_element_is_skipped barePage "x" "1" []).2.2.2.2.1 rfl rfl rfl).2.1,
   ((absent_element_is_skipped barePage "x" "1" []).2.2.2.2.1 rfl rfl rfl).2.2,
   (absent_element_is_skipped barePage "x" "1" []).2.2.2.2.2.2.1 rfl,
   (absent_element_is_skipped barePage "x" "1" []).2.2.2.2.2.2.2 rfl⟩

/-- C22. Failing case: nothing stored and a system that prefers dark. The load
handlers of mobile/script.js and bases/script.js apply the system hint, and all
three scripts apply a stored light or dark preference; `initTheme` of
bases/rebase.js applies light whatever the system hint is. -/
theorem rebase_initTheme_ignores_system_hint :
    Theme.initTheme ⟨none, true⟩ = "light" ∧
    (∀ hint : Bool, Theme.initTheme ⟨none, hint⟩ = "light") ∧
    (∀ hint : Bool, Theme.themeName (Theme.mobileLoad ⟨none, hint⟩ true false) =
      Theme.themeName hint) ∧
    (∀ hint : Bool, Theme.themeName (Theme.scriptLoad ⟨none, hint⟩ false) =
      Theme.themeName hint) ∧
    (∀ (hint : Bool) (v : String), v = "dark" ∨ v = "light" →
      Theme.initTheme ⟨some v, hint⟩ = v ∧
      Theme.themeName (Theme.mobileLoad ⟨some v, hint⟩ true false) = v ∧
      Theme.themeName (Theme.scriptLoad ⟨some v, hint⟩ false) = v) := by
  refine ⟨rfl, fun _ => rfl, ?_, ?_, ?_⟩
  · intro hint
    cases hint <;> decide
  · intro hint
    cases hint <;> decide
  · intro hint v hv
    rcases hv with hv | hv <;> subst hv <;> cases hint <;> decide

/-- C23. The text built by `exportToCSV` is the header (preceded by the byte
order mark) followed by the lines of the visible rows, each ended by a line
feed: cut at its line feeds, the text gives the header line, then one line per
visible row in document order, hidden rows giving none, then nothing. The first
field of the line of the visible row in position `i`, counted from 1, is `i`
between double quotes. -/
theorem exportToCSV_lines (p : Maquette.Page) :
    (Maquette.exportToCSV p).data =
      Maquette.csvHeader ++
        (((Maquette.visibleRows p).enumFrom 1).map
          (fun ir => Maquette.rowLine ir.1 ir.2 ++ [Char.ofNat 10])).flatten ∧
    Maquette.splitLines (Maquette.exportToCSV p).data =
      Maquette.csvHeaderLine ::
        (((Maquette.visibleRows p).enumFrom 1).map (fun ir => Maquette.rowLine ir.1 ir.2) ++
          [[]]) ∧
    ((Maquette.visibleRows p).enumFrom 1).map (fun ir => ir.1) =
      List.range' 1 (Maquette.visibleRows p).length ∧
    (∀ (n : Nat) (row : Maquette.Element), ∃ rest,
      Maquette.rowLine n row = Maquette.quoteField (toString n) ++ ',' :: rest) ∧
    (Maquette.visibleRows p).Sublist p.rows ∧
    (∀ row, row ∈ Maquette.visibleRows p ↔ row ∈ p.rows ∧ row.display ≠ "none") := by
  have hdata : (Maquette.exportToCSV p).data =
      Maquette.csvHeader ++
        (((Maquette.visibleRows p).enumFrom 1).map
          (fun ir => Maquette.rowLine ir.1 ir.2 ++ [Char.ofNat 10])).flatten := by
    show Maquette.csvHeader ++ Maquette.exportRows 1 p.rows = _
    rw [Maquette.exportRows_eq]
    rfl
  refine ⟨hdata, ?_, ?_, ?_, List.filter_sublist _, ?_⟩
  · rw [hdata]
    have hheader : Char.ofNat 10 ∉ Maquette.csvHeaderLine := by decide
    have hsplit := Maquette.splitLines_lines
      (((Maquette.visibleRows p).enumFrom 1).map (fun ir => Maquette.rowLine ir.1 ir.2))
      (by
        intro l hl
        simp only [List.mem_map] at hl
        obtain ⟨ir, _, hir⟩ := hl
        rw [← hir]
        exact Maquette.rowLine_no_lf _ _)
    rw [List.map_map] at hsplit
    show Maquette.splitLines ((Maquette.csvHeaderLine ++ [Char.ofNat 10]) ++ _) = _
    rw [List.append_assoc, List.singleton_append, Maquette.splitLines_line _ _ hheader]
    exact congrArg _ hsplit
  · rw [List.enumFrom_map_fst]
  · intro n row
    exact ⟨_, rfl⟩
  · intro row
    simp only [Maquette.visibleRows, List.mem_filter, Maquette.isVisible,
      decide_eq_true_eq]

/-- C24. Failing case: a submit event on a page with the form and an enabled
submit button, in a state that `validateForm` rejects. The submission is
prevented, yet the listener installed by `setupFormValidation` still disables
the button and replaces its label; from then on every submit event on a state
with that button is prevented, whatever the selection. -/
theorem blocked_submit_disables_button (s : WizardState) (b : SubmitButton)
    (hform : s.form = true) (hbtn : s.submitBtn = some b) (henabled : b.disabled = false)
    (hblocked : (validateForm s).1 = false) :
    (submitEvent s).1 = true ∧
    (submitEvent s).2.submitBtn =
      some ⟨true, "<i class=\"bi bi-hourglass-split\"></i> Création en cours..."⟩ ∧
    ∀ u : WizardState, u.form = true → u.submitBtn = (submitEvent s).2.submitBtn →
      (submitEvent u).1 = true := by
  have hv : (validateForm s).2.submitBtn = some b := by
    rw [validateForm_submitBtn, hbtn]
  have hs : (submitEvent s).2.submitBtn =
      some ⟨true, "<i class=\"bi bi-hourglass-split\"></i> Création en cours..."⟩ := by
    simp only [submitEvent, hform, if_true, handleFormSubmit, hblocked, submitListener, hv,
      henabled, Bool.false_eq_true, if_false]
  refine ⟨?_, hs, ?_⟩
  · simp only [submitEvent, hform, if_true, handleFormSubmit, hblocked, Bool.true_or]
  · intro u hu hub
    rw [hs] at hub
    have hu2 : (handleFormSubmit u).2.submitBtn = u.submitBtn := by
      unfold handleFormSubmit
      dsimp only
      split_ifs
      · exact validateForm_submitBtn u
      · simp only [showSubmitLoading]
        exact validateForm_submitBtn u
    simp only [submitEvent, hu, if_true, submitListener, hu2, hub, Bool.or_true]

/-- Witness of C24: after `runNoModule` no module is selected and the submit
event is prevented with the button disabled; after `runAfterBlockedSubmit` the
form is valid and the submit event is prevented all the same. -/
theorem blocked_submit_disables_button_witness :
    (validateForm (run runNoModule (init examplePage))).1 = false ∧
    (run runNoModule (init examplePage)).submitBtn = some ⟨false, "Créer"⟩ ∧
    (submitEvent (run runNoModule (init examplePage))).1 = true ∧
    (submitEvent (run runNoModule (init examplePage))).2.submitBtn =
      some ⟨true, "<i class=\"bi bi-hourglass-split\"></i> Création en cours..."⟩ ∧
    (validateForm (run runAfterBlockedSubmit (init examplePage))).1 = true ∧
    (submitEvent (run runAfterBlockedSubmit (init examplePage))).1 = true ∧
    (submitEvent (run runReadyToSubmit (init examplePage))).1 = false :=
  ⟨by decide, by decide,
   (blocked_submit_disables_button (run runNoModule (init examplePage)) ⟨false, "Créer"⟩
      (by decide) (by decide) rfl (by decide)).1,
   (blocked_submit_disables_button (run runNoModule (init examplePage)) ⟨false, "Créer"⟩
      (by decide) (by decide) rfl (by decide)).2.1,
   by decide,
   (blocked_submit_disables_button (run runNoModule (init examplePage)) ⟨false, "Créer"⟩
      (by decide) (by decide) rfl (by decide)).2.2
      (run runAfterBlockedSubmit (init examplePage)) (by decide) (by decide),
   by decide⟩

/-- C25. Failing run: module M1 is selected on step 3 (its card is checked and
marked selected), then step 2 is shown and step 3 entered again. The catalog is
rendered anew by `renderModules`: the card of M1 is neither checked nor marked
selected although `selectedModules` still holds M1 and the summary still
counts it. -/
theorem rerender_leaves_selected_card_unchecked :
    cardsInSync (run runSelectM1 (init examplePage)) = true ∧
    (run runReenterStep3 (init examplePage)).selectedModules = ["M1"] ∧
    (run runReenterStep3 (init examplePage)).modulesList =
      some [.header "UE1", .card ⟨moduleM1, false, false⟩] ∧
    getById "selected-count" (run runReenterStep3 (init examplePage)).texts = some "1" ∧
    cardsInSync (run runReenterStep3 (init examplePage)) = false := by
  decide

/-- C26. Failing row: a row whose name cell (cell 1) holds a code with the
characters double quote, comma, double quote. `extractCode` gives the code as
it stands, `exportToCSV` puts it between double quotes without doubling those
inside, and the line reads as 13 fields, the header as 12. For every row whose
extracted code holds no double quote the line reads as the twelve fields of
the claim. -/
theorem exportToCSV_code_not_escaped :
    Maquette.extractCode (Maquette.rowQuoted.cells.get? 1) =
      String.mk ['A', Char.ofNat 34, ',', Char.ofNat 34, 'B'] ∧
    (Maquette.parseCsvLine (Maquette.rowLine 4 Maquette.rowQuoted)).map List.length =
      some 13 ∧
    (Maquette.parseCsvLine Maquette.csvHeaderLine).map List.length = some 12 ∧
    (∀ (n : Nat) (row : Maquette.Element), (Maquette.specFields n row).length = 12) ∧
    (∀ (n : Nat) (row : Maquette.Element),
      Char.ofNat 34 ∉ (Maquette.extractCode (row.cells.get? 1)).data →
      Maquette.parseCsvLine (Maquette.rowLine n row) = some (Maquette.specFields n row)) := by
  refine ⟨by decide, by decide, by decide, fun _ _ => rfl, ?_⟩
  intro n row h
  rw [Maquette.rowLine_eq n row h]
  exact Maquette.parseCsv_fields _ (List.cons_ne_nil _ _) []

/-- Witness of C26: the line of the third example subject, whose code holds no
double quote, reads as its twelve fields. -/
theorem exportToCSV_code_not_escaped_witness :
    Char.ofNat 34 ∉ (Maquette.extractCode (Maquette.rowAlgo.cells.get? 1)).data ∧
    Maquette.parseCsvLine (Maquette.rowLine 3 Maquette.rowAlgo) =
      some ["3", "Algorithmique Code: INF101", "INF101", "informatique", "semestre-1", "3",
        "20", "10000", "20", "8000", "40", "360000"] :=
  ⟨by decide, exportToCSV_code_not_escaped.2.2.2.2 3 Maquette.rowAlgo (by decide)⟩

/-- C27. When the table body of the recap exists, `generateRecapModules`
lists one row per selected module found, with amounts whose sum is the total
of `updateTotalAmount`; the text it writes for the total amount is the text
`updateTotalAmount` writes for the summary; and the lecture and tutorial hour
totals it writes add up to the total of `updateTotalHours`. -/
theorem recap_agrees_with_summary (s : WizardState) (h : s.recapRows ≠ none) :
    ∃ amounts : List Nat,
      (generateRecapModules s).recapRows = some ((selectedFound s).map recapRow) ∧
      ((selectedFound s).map recapRow).map (fun r => r.montant) =
        amounts.map (fun a => formatMoney a false) ∧
      amounts.sum = totalAmount s.selectedModules s.modulesData ∧
      getById "recap-total-montant" (generateRecapModules s).texts =
        (getById "recap-total-montant" s.texts).map (fun _ => formatMoney amounts.sum false) ∧
      getById "summary-total-amount" (updateTotalAmount s).texts =
        (getById "summary-total-amount" s.texts).map
          (fun _ => formatMoney amounts.sum false) ∧
      ∃ cm td : Nat,
        cm + td = totalHours s.selectedModules s.modulesData ∧
        getById "recap-total-cm" (generateRecapModules s).texts =
          (getById "recap-total-cm" s.texts).map (fun _ => toFixed1 cm) ∧
        getById "recap-total-td" (generateRecapModules s).texts =
          (getById "recap-total-td" s.texts).map (fun _ => toFixed1 td) ∧
        getById "summary-total-hours" (updateTotalHours s).texts =
          (getById "summary-total-hours" s.texts).map (fun _ => toFixed1 (cm + td)) := by
  have hsum := recapTotals_sum s
  have hm : ((selectedFound s).map calculateModuleMontant).sum = recapTotalMontant s := by
    unfold recapTotalMontant
    rw [foldl_add_eq_sum]
  refine ⟨(selectedFound s).map calculateModuleMontant, ?_, ?_, ?_, ?_, ?_,
    recapTotalCM s, recapTotalTD s, hsum.1, ?_, ?_, ?_⟩
  · rw [generateRecapModules_eq s h]
  · simp only [List.map_map]
    rfl
  · rw [hm, hsum.2]
  · rw [generateRecapModules_eq s h, hm]
    simp only
    rw [getById_setById_same, getById_setById_ne _ _ _ _ (by decide),
      getById_setById_ne _ _ _ _ (by decide), getById_setById_ne _ _ _ _ (by decide)]
  · rw [hm, hsum.2]
    simp only [updateTotalAmount, safeSetText]
    rw [getById_setById_same]
  · rw [generateRecapModules_eq s h]
    simp only
    rw [getById_setById_ne _ _ _ _ (by decide), getById_setById_ne _ _ _ _ (by decide),
      getById_setById_same, getById_setById_ne _ _ _ _ (by decide)]
  · rw [generateRecapModules_eq s h]
    simp only
    rw [getById_setById_ne _ _ _ _ (by decide), getById_setById_same,
      getById_setById_ne _ _ _ _ (by decide), getById_setById_ne _ _ _ _ (by decide)]
  · rw [hsum.1]
    simp only [updateTotalHours, safeSetText]
    rw [getById_setById_same]

/-- Witness of C27: with module M1 (20 h of lectures, 10 h of tutorials)
selected on a page that has the recap elements, the recap lists one row and
the totals 20.0, 10.0 and 280 000, the summary 30.0 and 280 000. -/
theorem recap_agrees_with_summary_witness :
    (run runSelectM1 (init recapPage)).recapRows ≠ none ∧
    ∃ amounts : List Nat,
      (generateRecapModules (run runSelectM1 (init recapPage))).recapRows =
        some [recapRow moduleM1] ∧
      [(recapRow moduleM1).montant] = amounts.map (fun a => formatMoney a false) ∧
      amounts.sum = 280000 ∧
      getById "recap-total-montant"
          (generateRecapModules (run runSelectM1 (init recapPage))).texts =
        some (formatMoney amounts.sum false) ∧
      getById "summary-total-amount"
          (updateTotalAmount (run runSelectM1 (init recapPage))).texts =
        some (formatMoney amounts.sum false) ∧
      ∃ cm td : Nat,
        cm + td = 30 ∧
        getById "recap-total-cm"
            (generateRecapModules (run runSelectM1 (init recapPage))).texts =
          some (toFixed1 cm) ∧
        getById "recap-total-td"
            (generateRecapModules (run runSelectM1 (init recapPage))).texts =
          some (toFixed1 td) ∧
        getById "summary-total-hours"
            (updateTotalHours (run runSelectM1 (init recapPage))).texts =
          some (toFixed1 (cm + td)) :=
  ⟨by decide,
   recap_agrees_with_summary (run runSelectM1 (init recapPage)) (by decide)⟩

/-- C28. On a page that has the table body and the cards view, `sortMatieres`
with `sortBy` one of coefficient, volume, cout ends without error and leaves
the rows (attributes, cells after the number cell, display) a permutation of
the rows before, in non-increasing order of the number read from the
attribute, a missing attribute or a text that is no number reading as 0; the
cards likewise. With `sortBy` semestre, whenever it ends without error the rows
are a permutation of the rows before in which no row with a semester comes
after a row whose semester is semestre-none, and it ends without error when
every row and card has the semester attribute. The sort is the stable insertion
sort `jsSort`; the last part holds for every arrangement that the comparison
function does not contradict. -/
theorem sortMatieres_orders_rows {N : Type} [LinearOrder N] [Zero N]
    (localeCompare : String → String → Int) (parseFloat : String → Option N)
    (p : Maquette.Page) (hbody : p.tableBody = true) (hcards : p.cardsView = true) :
    (∀ key ∈ ["coefficient", "volume", "cout"], p.sortBy = some key →
      ∃ p', Maquette.sortMatieres localeCompare parseFloat p = some p' ∧
        (p'.rows.map Maquette.rowContent).Perm (p.rows.map Maquette.rowContent) ∧
        p'.rows.Pairwise (fun a b =>
          Maquette.sortKey parseFloat key b ≤ Maquette.sortKey parseFloat key a) ∧
        p'.cards.Perm p.cards ∧
        p'.cards.Pairwise (fun a b =>
          Maquette.sortKey parseFloat key b ≤ Maquette.sortKey parseFloat key a)) ∧
    (∀ (key : String) (e : Maquette.Element),
      (Maquette.getAttribute e ("data-" ++ key) = none ∨
        ∃ text, Maquette.getAttribute e ("data-" ++ key) = some text ∧
          parseFloat text = none) →
      Maquette.sortKey parseFloat key e = 0) ∧
    (p.sortBy = some "semestre" →
      (∀ p', Maquette.sortMatieres localeCompare parseFloat p = some p' →
        (p'.rows.map Maquette.rowContent).Perm (p.rows.map Maquette.rowContent) ∧
        p'.rows.Pairwise (fun a b =>
          Maquette.noSemester a = true → Maquette.noSemester b = true) ∧
        p'.cards.Perm p.cards ∧
        p'.cards.Pairwise (fun a b =>
          Maquette.noSemester a = true → Maquette.noSemester b = true)) ∧
      ((∀ e ∈ p.rows ++ p.cards,
          (Maquette.getAttribute e "data-semestre").isSome = true) →
        ∃ p', Maquette.sortMatieres localeCompare parseFloat p = some p')) ∧
    (∀ l : List Maquette.Element,
      l.Pairwise (fun a b => ∀ c,
        Maquette.sortFunction localeCompare parseFloat (some "semestre") b a = some c →
          0 ≤ c) →
      l.Pairwise (fun a b =>
        Maquette.noSemester a = true → Maquette.noSemester b = true)) := by
  have hguard : ¬(p.tableBody = false ∨ p.cardsView = false) := by
    rw [hbody, hcards]
    decide
  refine ⟨?_, ?_, ?_, ?_⟩
  · intro key hkey hsort
    obtain ⟨rows, hrows, hrperm, hrsorted⟩ :=
      Maquette.jsSort_numeric localeCompare parseFloat key hkey p.rows
    obtain ⟨cards, hcs, hcperm, hcsorted⟩ :=
      Maquette.jsSort_numeric localeCompare parseFloat key hkey p.cards
    refine ⟨{ p with rows := Maquette.renumber 1 rows, cards := cards }, ?_, ?_, ?_,
      hcperm, hcsorted⟩
    · simp only [Maquette.sortMatieres, if_neg hguard, hsort, hrows, hcs]
    · show ((Maquette.renumber 1 rows).map Maquette.rowContent).Perm _
      rw [(Maquette.renumber_map_attrs 1 rows).2]
      exact hrperm.map _
    · exact Maquette.pairwise_of_map_attrs
        (fun x y => Maquette.readNumber parseFloat (getById ("data-" ++ key) y) ≤
          Maquette.readNumber parseFloat (getById ("data-" ++ key) x))
        rows _ (Maquette.renumber_map_attrs 1 rows).1 hrsorted
  · intro key e h
    rcases h with h | ⟨text, h, hpf⟩
    · simp only [Maquette.sortKey, h, Maquette.readNumber]
    · simp only [Maquette.sortKey, h, Maquette.readNumber, hpf, Option.getD_none]
  · intro hsort
    refine ⟨?_, ?_⟩
    · intro p' hp'
      simp only [Maquette.sortMatieres, if_neg hguard, hsort] at hp'
      cases hrows : Maquette.jsSort
          (Maquette.sortFunction localeCompare parseFloat (some "semestre")) p.rows with
      | none => simp [hrows] at hp'
      | some rows =>
        cases hcs : Maquette.jsSort
            (Maquette.sortFunction localeCompare parseFloat (some "semestre")) p.cards with
        | none => simp [hrows, hcs] at hp'
        | some cards =>
          simp only [hrows, hcs, Option.some.injEq] at hp'
          rw [← hp']
          refine ⟨?_, ?_, Maquette.jsSort_perm _ _ _ hcs,
            Maquette.jsSort_nonesLast localeCompare parseFloat _ _ hcs⟩
          · show ((Maquette.renumber 1 rows).map Maquette.rowContent).Perm _
            rw [(Maquette.renumber_map_attrs 1 rows).2]
            exact (Maquette.jsSort_perm _ _ _ hrows).map _
          · exact Maquette.pairwise_of_map_attrs
              (fun x y => (getById "data-semestre" x == some "semestre-none") = true →
                (getById "data-semestre" y == some "semestre-none") = true)
              rows _ (Maquette.renumber_map_attrs 1 rows).1
              (Maquette.jsSort_nonesLast localeCompare parseFloat _ _ hrows)
    · intro hall
      obtain ⟨rows, hrows⟩ := Maquette.jsSort_isSome
        (Maquette.sortFunction localeCompare parseFloat (some "semestre")) p.rows
        (fun a ha b => Maquette.sortFunction_semestre_isSome localeCompare parseFloat a b
          (hall a (List.mem_append_left _ ha)))
      obtain ⟨cards, hcs⟩ := Maquette.jsSort_isSome
        (Maquette.sortFunction localeCompare parseFloat (some "semestre")) p.cards
        (fun a ha b => Maquette.sortFunction_semestre_isSome localeCompare parseFloat a b
          (hall a (List.mem_append_right _ ha)))
      refine ⟨{ p with rows := Maquette.renumber 1 rows, cards := cards }, ?_⟩
      simp only [Maquette.sortMatieres, if_neg hguard, hsort, hrows, hcs]
  · intro l hl
    refine List.Pairwise.imp ?_ hl
    intro a b hab ha
    by_contra hb
    have hb2 : Maquette.noSemester b = false := by simpa using hb
    have := hab _ (Maquette.sortFunction_semestre_before localeCompare parseFloat b a hb2 ha)
    omega

/-- Witness of C28: the example table sorted by coefficient gives the subjects
with coefficients 5, 3, 2, numbered 1 to 3; sorted by semester it gives the two
subjects with a semester, then the one without. -/
theorem sortMatieres_orders_rows_witness :
    Maquette.exampleTable.tableBody = true ∧ Maquette.exampleTable.cardsView = true ∧
    (∃ p', Maquette.sortMatieres Maquette.exampleCompare Maquette.parseDigits
        { Maquette.exampleTable with sortBy := some "coefficient" } = some p' ∧
      p'.rows.Pairwise (fun a b =>
        Maquette.sortKey Maquette.parseDigits "coefficient" b ≤
          Maquette.sortKey Maquette.parseDigits "coefficient" a)) ∧
    (Maquette.sortMatieres Maquette.exampleCompare Maquette.parseDigits
        { Maquette.exampleTable with sortBy := some "coefficient" }).map
      (fun p' => p'.rows.map (fun e =>
        (Maquette.getAttribute e "data-nom", e.cells.head?.map (fun c => c.textContent)))) =
      some [(some "analyse", some "1"), (some "algorithmique", some "2"),
        (some "droit", some "3")] ∧
    (Maquette.sortMatieres Maquette.exampleCompare Maquette.parseDigits
        { Maquette.exampleTable with sortBy := some "semestre" }).map
      (fun p' => p'.rows.map (fun e => Maquette.getAttribute e "data-nom")) =
      some [some "algorithmique", some "analyse", some "droit"] := by
  refine ⟨rfl, rfl, ?_, by decide, by decide⟩
  obtain ⟨p', h1, _, h3, _⟩ := (sortMatieres_orders_rows Maquette.exampleCompare
    Maquette.parseDigits { Maquette.exampleTable with sortBy := some "coefficient" }
    rfl rfl).1 "coefficient" (by decide) rfl
  exact ⟨p', h1, h3⟩

/-- C29. When the search attributes are there (they are read only for a search
term that is not empty), `applyFilters` ends without error; every row and every
card gets the display of a shown element exactly when it passes the filter and
the search as the claim words them, so it is visible if and only if it does; a
card with the attributes of a row gets the visibility of the row; the result
count, where the page shows one, is the number of visible rows; the rest of
the page stays as it was. -/
theorem applyFilters_matches_spec (p : Maquette.Page)
    (h : p.searchTerm ≠ "" → ∀ e ∈ p.rows ++ p.cards, Maquette.hasSearchAttributes e = true) :
    ∃ p', Maquette.applyFilters p = some p' ∧
      p'.rows = p.rows.map (fun e => Maquette.withDisplay (Maquette.specShown p e) e) ∧
      p'.cards = p.cards.map (fun e => Maquette.withDisplay (Maquette.specShown p e) e) ∧
      (∀ e, Maquette.isVisible (Maquette.withDisplay (Maquette.specShown p e) e) =
        Maquette.specShown p e) ∧
      (∀ r c : Maquette.Element, c.attrs = r.attrs →
        Maquette.specShown p c = Maquette.specShown p r) ∧
      p'.resultCount = p.resultCount.map (fun _ => (p'.rows.filter Maquette.isVisible).length) ∧
      (∀ text, Maquette.jsIncludes text p.searchTerm = true ↔ Contains text p.searchTerm) ∧
      p'.currentFilter = p.currentFilter ∧ p'.searchTerm = p.searchTerm ∧
      p'.sortBy = p.sortBy := by
  have hrows := Maquette.filterElements_eq p p.rows
    (fun ht e he => h ht e (List.mem_append_left _ he))
  have hcards := Maquette.filterElements_eq p p.cards
    (fun ht e he => h ht e (List.mem_append_right _ he))
  refine ⟨Maquette.updateResultCount (p.rows.filter (Maquette.specShown p)).length
      { p with
        rows := p.rows.map (fun e => Maquette.withDisplay (Maquette.specShown p e) e),
        cards := p.cards.map (fun e => Maquette.withDisplay (Maquette.specShown p e) e) },
    by simp only [Maquette.applyFilters, hrows, hcards], rfl, rfl,
    fun e => Maquette.isVisible_withDisplay _ e, ?_, ?_,
    fun text => Maquette.jsIncludes_iff text p.searchTerm, rfl, rfl, rfl⟩
  · intro r c hattrs
    simp only [Maquette.specShown, Maquette.getAttribute, hattrs]
  · simp only [Maquette.updateResultCount]
    congr 1
    funext _
    rw [List.filter_map]
    simp only [List.length_map]
    congr 1
    apply List.filter_congr
    intro e _
    exact (Maquette.isVisible_withDisplay _ e).symm

/-- Witness of C29: the example table filtered on semester 1 with the search
term inf; only the third subject stays visible, as row and as card, and the
count is 1. -/
theorem applyFilters_matches_spec_witness :
    (∀ e ∈ Maquette.exampleTable.rows ++ Maquette.exampleTable.cards,
      Maquette.hasSearchAttributes e = true) ∧
    ∃ p', Maquette.applyFilters
        { Maquette.exampleTable with currentFilter := some "semestre-1", searchTerm := "inf" } =
        some p' ∧
      p'.rows.map Maquette.isVisible = [false, false, true] ∧
      p'.cards.map Maquette.isVisible = [false, false, true] ∧
      p'.resultCount = some 1 := by
  refine ⟨by decide, ?_⟩
  obtain ⟨p', h1, h2, h3, _, _, h6, _⟩ := applyFilters_matches_spec
    { Maquette.exampleTable with currentFilter := some "semestre-1", searchTerm := "inf" }
    (fun _ => by decide)
  refine ⟨p', h1, ?_, ?_, ?_⟩
  · rw [h2]
    decide
  · rw [h3]
    decide
  · rw [h6, h2]
    decide

/-- C30. Submission of the reject form, whose text area holds `reason`, is
prevented exactly when the trimmed reason has fewer than 10 characters (UTF-16
code units, as counted by `length`). Submission of the validate form is
prevented exactly when the form has a text area whose trimmed notes exceed 500
characters: only if the notes exceed 500 characters, and for notes without
surrounding white space exactly when they do. -/
theorem detail_forms_prevent_submit (reason : String) (notes : Option String) :
    Detail.rejectFormSubmit (some reason) =
      some (decide (utf16Length (jsTrim reason.data) < 10)) ∧
    (Detail.validateFormSubmit notes = true ↔
      ∃ v, notes = some v ∧ 500 < utf16Length (jsTrim v.data)) ∧
    (Detail.validateFormSubmit notes = true → ∃ v, notes = some v ∧ 500 < utf16Length v.data) ∧
    (∀ v, notes = some v → jsTrim v.data = v.data →
      (Detail.validateFormSubmit notes = true ↔ 500 < utf16Length v.data)) := by
  have hiff : Detail.validateFormSubmit notes = true ↔
      ∃ v, notes = some v ∧ 500 < utf16Length (jsTrim v.data) := by
    cases notes with
    | none => simp [Detail.validateFormSubmit]
    | some v => simp [Detail.validateFormSubmit]
  refine ⟨?_, hiff, ?_, ?_⟩
  · unfold Detail.rejectFormSubmit
    dsimp only
    split_ifs with h1 h2
    · have : utf16Length (jsTrim reason.data) = 0 := (utf16Length_eq_zero _).mpr h1
      simp [this]
    · simp [h2]
    · simp [h2]
  · intro h
    obtain ⟨v, hv, hlen⟩ := hiff.mp h
    exact ⟨v, hv, Nat.lt_of_lt_of_le hlen (utf16Length_jsTrim_le _)⟩
  · intro v hv htrim
    rw [hiff]
    constructor
    · rintro ⟨w, hw, hlen⟩
      rw [hv] at hw
      cases hw
      rw [htrim] at hlen
      exact hlen
    · intro hlen
      exact ⟨v, hv, by rw [htrim]; exact hlen⟩

/-- Counterexample to C30 as stated: notes made of one letter followed by 500
spaces exceed 500 characters, yet the submission of the validate form is not
prevented; nor is it on a form without text area. -/
theorem padded_notes_not_prevented :
    500 < utf16Length (String.mk ('a' :: List.replicate 500 ' ')).data ∧
    Detail.validateFormSubmit (some (String.mk ('a' :: List.replicate 500 ' '))) = false ∧
    Detail.validateFormSubmit none = false := by
  have hdrop : ∀ n : Nat, (List.replicate n ' ' ++ ['a']).dropWhile jsIsSpace = ['a'] := by
    intro n
    induction n with
    | zero => decide
    | succ k ih =>
      rw [List.replicate_succ, List.cons_append, List.dropWhile_cons_of_pos (by decide)]
      exact ih
  have htrim : jsTrim ('a' :: List.replicate 500 ' ') = ['a'] := by
    unfold jsTrim
    rw [List.dropWhile_cons_of_neg (by decide), List.reverse_cons, List.reverse_replicate,
      hdrop]
    rfl
  have hrep : ∀ n : Nat, utf16Length (List.replicate n ' ') = n := by
    intro n
    induction n with
    | zero => rfl
    | succ k ih =>
      have hcons : utf16Length (List.replicate (k + 1) ' ') =
          1 + utf16Length (List.replicate k ' ') := rfl
      rw [hcons, ih, Nat.add_comm]
  have hlen : utf16Length ('a' :: List.replicate 500 ' ') = 501 := by
    have hcons : ∀ t : List Char, utf16Length ('a' :: t) = 1 + utf16Length t := fun _ => rfl
    rw [hcons, hrep]
  refine ⟨?_, ?_, rfl⟩
  · show 500 < utf16Length ('a' :: List.replicate 500 ' ')
    rw [hlen]
    decide
  · show decide (500 < utf16Length (jsTrim ('a' :: List.replicate 500 ' '))) = false
    rw [htrim]
    decide

end Wizard
